import Mathlib

/-!
Verification of the timetabling core of `app-horarios` against its
natural-language specification.

The definitions below are a shallow embedding, into Lean, of the Python
sources under `src/backend/src/app/domain/`:

* `core/schema.py`   — the immutable data model (`Slot`, `Calendar`, …);
* `core/io.py`       — payload deserialization defaults (only the part
                       needed by the claims: room parsing);
* `core/validate.py` — the pre-solve validator;
* `solver/solve.py`  — the problem compiler (`_compile_problem`) and the
                       CP-SAT model builder / reconstructor (`solve`).

Python conventions reproduced here:

* Python `int` is embedded as `Int`.
* `frozenset` / `set` fields are embedded as `List` with membership tests;
  only membership is ever used by the code.
* Python `dict` is embedded as an association list built with `dictInsert`
  (insertion keeps the first-occurrence position of a key and overwrites
  its value, exactly like CPython dicts), or with `dictAppend` for the
  `setdefault(..., []).append(...)` idiom.
* Python truthiness of optional collections / strings / ints is embedded
  by the `listTruthy` / `strTruthy` helpers (`None` and empty are falsy).
* `raise` is embedded as `Except.error` carrying the message.
-/

namespace AppHorarios

/-- Python-style `range(lo, hi)` over integers (empty when `hi ≤ lo`). -/
def pyRange (lo hi : Int) : List Int :=
  (List.range (hi - lo).toNat).map (fun i => lo + (i : Int))

/-- Insert into a sorted list, keeping existing equal elements first
(used to embed Python's stable `sorted`). -/
def insertSorted {α : Type} (le : α → α → Bool) (a : α) : List α → List α
  | [] => [a]
  | b :: t => if le a b then a :: b :: t else b :: insertSorted le a t

/-- Stable insertion sort: the embedding of Python's `sorted(l, key=...)`
(`foldr` keeps the relative order of equal elements). -/
def isort {α : Type} (le : α → α → Bool) (l : List α) : List α :=
  l.foldr (insertSorted le) []

/-- Python `not s.strip()`: the string holds nothing but whitespace. -/
def isBlank (s : String) : Bool :=
  s.data.all (fun c => c.isWhitespace)

/-- Truthiness of an optional list (Python: `None` and `[]`/`()` are falsy). -/
def listTruthy {α : Type} : Option (List α) → Bool
  | none => false
  | some l => !l.isEmpty

/-- Truthiness of an optional string (Python: `None` and `""` are falsy). -/
def strTruthy : Option String → Bool
  | none => false
  | some s => !s.isEmpty

/-- Value of an optional string, defaulting to `""` (used after `strTruthy`). -/
def strVal : Option String → String
  | none => ""
  | some s => s

/-- CPython `dict` insertion on an association list: an existing key keeps
its position and gets the new value; a new key is appended. -/
def dictInsert {κ ν : Type} [BEq κ] (m : List (κ × ν)) (k : κ) (v : ν) :
    List (κ × ν) :=
  if m.any (fun kv => kv.1 == k) then
    m.map (fun kv => if kv.1 == k then (k, v) else kv)
  else
    m ++ [(k, v)]

/-- CPython `d.setdefault(k, []).append(v)` on an association list. -/
def dictAppend {κ ν : Type} [BEq κ] (m : List (κ × List ν)) (k : κ) (v : ν) :
    List (κ × List ν) :=
  if m.any (fun kv => kv.1 == k) then
    m.map (fun kv => if kv.1 == k then (kv.1, kv.2 ++ [v]) else kv)
  else
    m ++ [(k, [v])]

/-- CPython `d[k]` / `d.get(k)` lookup on an association list. -/
def dget {κ ν : Type} [BEq κ] (m : List (κ × ν)) (k : κ) : Option ν :=
  (m.find? (fun kv => kv.1 == k)).map (fun kv => kv.2)

/-- The value of an `Except`, with a default for the error case. -/
def okD {ε α : Type} (e : Except ε α) (d : α) : α :=
  match e with
  | Except.ok a => a
  | Except.error _ => d

-- ---------- schema.py ----------

/-- `schema.Slot`: a teaching slot `(day, period)`. -/
structure Slot where
  day : String
  period : Int
deriving DecidableEq, Repr

/-- `schema.RoomType`. -/
inductive RoomType where
  | NORMAL | LAB | GYM | MUSIC | IT | OTHER
deriving DecidableEq, Repr

/-- `schema.TeacherPolicy`. -/
inductive TeacherPolicy where
  | FIXED | CHOOSE
deriving DecidableEq, Repr

/-- `schema.Calendar`. -/
structure Calendar where
  days : List String
  periods_per_day : Int
  blocked_slots : List Slot := []
deriving DecidableEq, Repr

/-- `Calendar.all_slots`: cartesian product of days and periods `1..N`. -/
def Calendar.all_slots (cal : Calendar) : List Slot :=
  cal.days.flatMap (fun d => (pyRange 1 (cal.periods_per_day + 1)).map
    (fun p => { day := d, period := p }))

/-- `Calendar.teaching_slots`: `all_slots` minus `blocked_slots`. -/
def Calendar.teaching_slots (cal : Calendar) : List Slot :=
  cal.all_slots.filter (fun s => !cal.blocked_slots.contains s)

/-- `schema.Group`. -/
structure Group where
  id : String
  size : Int
deriving DecidableEq, Repr

/-- `schema.Subject`. -/
structure Subject where
  id : String
  room_type_required : RoomType := RoomType.NORMAL
  max_per_day : Option Int := none
deriving DecidableEq, Repr

/-- `schema.Teacher`. -/
structure Teacher where
  id : String
  can_teach : List String := []
  unavailable : List Slot := []
  max_periods_per_day : Option Int := none
  max_periods_per_week : Option Int := none
  min_periods_per_day : Option Int := none
  min_periods_per_week : Option Int := none
deriving DecidableEq, Repr

/-- `Teacher.is_available`. -/
def Teacher.is_available (t : Teacher) (s : Slot) : Bool :=
  !t.unavailable.contains s

/-- `schema.Room` (note the default capacity 9999). -/
structure Room where
  id : String
  type : RoomType := RoomType.NORMAL
  capacity : Int := 9999
  unavailable : List Slot := []
deriving DecidableEq, Repr

/-- `Room.is_available`. -/
def Room.is_available (r : Room) (s : Slot) : Bool :=
  !r.unavailable.contains s

/-- `schema.CourseRequirement`. -/
structure CourseRequirement where
  group_id : String
  subject_id : String
  periods_per_week : Int
  max_consecutive : Option Int := some 2
  teacher_policy : TeacherPolicy := TeacherPolicy.FIXED
  teacher_id : Option String := none
  teacher_pool : Option (List String) := none
  preferred_periods : Option (List Int) := none
  forbidden_periods : Option (List Int) := none
  allow_double : Bool := false
deriving DecidableEq, Repr

/-- `schema.TeacherKey = (group_id, subject_id)`. -/
abbrev TeacherKey := String × String

/-- `schema.Event`. -/
structure Event where
  id : String
  group_id : String
  subject_id : String
  duration : Int := 1
  room_type_required : RoomType := RoomType.NORMAL
  same_teacher_key : TeacherKey
deriving DecidableEq, Repr

/-- `schema.ObjectiveWeights` with its defaults. -/
structure ObjectiveWeights where
  teacher_gaps : Int := 1000
  teacher_late : Int := 100
  subject_same_day_excess : Int := 10
  preferred_period_penalty : Int := 1
  forbidden_period_penalty : Int := 50
deriving DecidableEq, Repr

/-- `schema.SolveConfig` with its defaults. -/
structure SolveConfig where
  max_seconds : Option Int := some 30
  random_seed : Option Int := none
  weights : ObjectiveWeights := {}
  forbidden_periods_hard : Bool := true
deriving DecidableEq, Repr

/-- `schema.TimetableProblem`. -/
structure TimetableProblem where
  calendar : Calendar
  groups : List Group
  subjects : List Subject
  teachers : List Teacher
  rooms : List Room
  requirements : List CourseRequirement
  config : SolveConfig := {}
deriving DecidableEq, Repr

/-- `TimetableProblem.index_groups` (`{g.id: g for g in groups}`). -/
def TimetableProblem.index_groups (p : TimetableProblem) :
    List (String × Group) :=
  p.groups.foldl (fun m g => dictInsert m g.id g) []

/-- `TimetableProblem.index_subjects`. -/
def TimetableProblem.index_subjects (p : TimetableProblem) :
    List (String × Subject) :=
  p.subjects.foldl (fun m s => dictInsert m s.id s) []

/-- `TimetableProblem.index_teachers`. -/
def TimetableProblem.index_teachers (p : TimetableProblem) :
    List (String × Teacher) :=
  p.teachers.foldl (fun m t => dictInsert m t.id t) []

/-- `TimetableProblem.index_rooms`. -/
def TimetableProblem.index_rooms (p : TimetableProblem) :
    List (String × Room) :=
  p.rooms.foldl (fun m r => dictInsert m r.id r) []

/-- `schema.ScheduledEvent`. -/
structure ScheduledEvent where
  event_id : String
  slot : Slot
  room_id : String
deriving DecidableEq, Repr

/-- `schema.TimetableSolution` (the `teacher_assignment` dict as an
association list, `objective_breakdown` likewise). -/
structure TimetableSolution where
  scheduled : List ScheduledEvent
  teacher_assignment : List (TeacherKey × String)
  objective_value : Option Int := none
  objective_breakdown : List (String × Int) := []
deriving DecidableEq, Repr

-- ---------- io.py (the part the claims need: room parsing) ----------

/-- A `rooms[i]` payload entry: each field is `none` when the key is absent
from the JSON object (`io.problem_from_dict`, rooms comprehension). -/
structure RoomDict where
  id : String
  type : Option RoomType := none
  capacity : Option Int := none
  unavailable : Option (List Slot) := none
deriving DecidableEq, Repr

/-- `io.problem_from_dict`, rooms comprehension:
`Room(id=r["id"], type=_roomtype(r.get("type", "NORMAL")),
capacity=int(r.get("capacity", 9999)), unavailable=...)`. -/
def room_from_dict (r : RoomDict) : Room :=
  { id := r.id
    type := r.type.getD RoomType.NORMAL
    capacity := r.capacity.getD 9999
    unavailable := r.unavailable.getD [] }

-- ---------- solver/solve.py: _compile_problem ----------

/-- `solve._Compiled`: the compiled bundle (dicts as association lists). -/
structure _Compiled where
  events : List Event
  event_req_key : List (String × TeacherKey)
  req_by_key : List (TeacherKey × CourseRequirement)
  slots : List Slot
  slot_index : List (Slot × Nat)
  key_pools : List (TeacherKey × List String)
  allowed_slots : List (String × List Nat)
  allowed_rooms : List (String × List String)
deriving DecidableEq, Repr

/-- `{s: i for i, s in enumerate(slots)}` (duplicate slots: last index wins,
first-occurrence position, as in a CPython dict comprehension). -/
def buildSlotIndex (slots : List Slot) : List (Slot × Nat) :=
  slots.enum.foldl (fun m is => dictInsert m is.2 is.1) []

/-- `solve._compile_problem`, inner `rooms_for(group_id, subject_id)`:
rooms whose type matches the subject requirement and whose capacity fits
the group.  `groups[group_id]` / `subjects[subject_id]` raise `KeyError`
when absent, embedded as `Except.error`. -/
def rooms_for (p : TimetableProblem) (group_id subject_id : String) :
    Except String (List String) :=
  match dget p.index_groups group_id with
  | none => Except.error ("KeyError: " ++ group_id)
  | some g =>
    match dget p.index_subjects subject_id with
    | none => Except.error ("KeyError: " ++ subject_id)
    | some sub =>
      Except.ok ((p.rooms.filter (fun r =>
        r.type == sub.room_type_required && decide (r.capacity ≥ g.size))).map
        (fun r => r.id))

/-- `solve._compile_problem`, inner `pool_for(req)`:
`FIXED` → `(teacher_id,)` when truthy else empty; `CHOOSE` → the explicit
pool when truthy (non-empty) else all teachers that can teach the subject. -/
def pool_for (p : TimetableProblem) (req : CourseRequirement) : List String :=
  match req.teacher_policy with
  | TeacherPolicy.FIXED =>
    if strTruthy req.teacher_id then [strVal req.teacher_id] else []
  | TeacherPolicy.CHOOSE =>
    match req.teacher_pool with
    | some pool =>
      if !pool.isEmpty then pool
      else (p.teachers.filter (fun t =>
        t.can_teach.contains req.subject_id)).map (fun t => t.id)
    | none =>
      (p.teachers.filter (fun t =>
        t.can_teach.contains req.subject_id)).map (fun t => t.id)

/-- `solve._compile_problem`, inner `possible_slots_for(req, pool)`:
teaching slots, minus hard-forbidden periods (when configured and the
requirement's set is truthy), then filtered by the fixed teacher's
availability (`FIXED` with truthy id; `teachers[...]` may `KeyError`) or by
union-of-availability over the existing pool members (`CHOOSE`, only when
at least one pool member exists). -/
def possible_slots_for (p : TimetableProblem) (slots : List Slot)
    (req : CourseRequirement) (pool : List String) :
    Except String (List Slot) :=
  let possible := slots
  let possible :=
    if p.config.forbidden_periods_hard && listTruthy req.forbidden_periods then
      possible.filter (fun s =>
        !(req.forbidden_periods.getD []).contains s.period)
    else possible
  if req.teacher_policy == TeacherPolicy.FIXED && strTruthy req.teacher_id then
    match dget p.index_teachers (strVal req.teacher_id) with
    | none => Except.error ("KeyError: " ++ strVal req.teacher_id)
    | some t => Except.ok (possible.filter (fun s => t.is_available s))
  else if req.teacher_policy == TeacherPolicy.CHOOSE then
    let pool_teachers := pool.filterMap (fun tid => dget p.index_teachers tid)
    if !pool_teachers.isEmpty then
      Except.ok (possible.filter (fun s =>
        pool_teachers.any (fun t => t.is_available s)))
    else Except.ok possible
  else Except.ok possible

/-- The id `f"{req.group_id}-{req.subject_id}-{i:02d}"` of instance `i`. -/
def event_id_of (req : CourseRequirement) (i : Nat) : String :=
  let pad := if i < 10 then "0" ++ toString i else toString i
  req.group_id ++ "-" ++ req.subject_id ++ "-" ++ pad

/-- The `Event` built for instance `i` of `req` (`sub` is the subject). -/
def event_of (req : CourseRequirement) (sub : Subject) (i : Nat) : Event :=
  { id := event_id_of req i
    group_id := req.group_id
    subject_id := req.subject_id
    duration := 1
    room_type_required := sub.room_type_required
    same_teacher_key := (req.group_id, req.subject_id) }

/-- Compile error message for an event with no compatible room. -/
def no_rooms_msg (eid group_id subject_id : String) : String :=
  "Evento " ++ eid ++ ": no hay aulas compatibles para (group=" ++ group_id ++
    ", subject=" ++ subject_id ++ ")."

/-- Compile error message for an event with no possible slot. -/
def no_slots_msg (eid : String) : String :=
  "Evento " ++ eid ++
    ": no hay slots posibles tras aplicar bloqueos/forbidden/disponibilidad."

/-- The mutable dictionaries threaded through `_compile_problem`'s loop. -/
structure CompileState where
  events : List Event := []
  event_req_key : List (String × TeacherKey) := []
  req_by_key : List (TeacherKey × CourseRequirement) := []
  key_pools : List (TeacherKey × List String) := []
  allowed_slots : List (String × List Nat) := []
  allowed_rooms : List (String × List String) := []
deriving Repr

/-- One iteration of the inner instance loop of `_compile_problem`
(`for i in range(1, req.periods_per_week + 1)`): append the event, record
its key, compute and check its room and slot domains. -/
def compile_inst (p : TimetableProblem) (slot_index : List (Slot × Nat))
    (slots : List Slot) (req : CourseRequirement) (sub : Subject)
    (st : CompileState) (i : Nat) : Except String CompileState :=
  let eid := event_id_of req i
  let e := event_of req sub i
  let k : TeacherKey := (req.group_id, req.subject_id)
  let st1 := { st with
    events := st.events ++ [e]
    event_req_key := dictInsert st.event_req_key eid k }
  match rooms_for p req.group_id req.subject_id with
  | Except.error msg => Except.error msg
  | Except.ok rids =>
    if rids.isEmpty then
      Except.error (no_rooms_msg eid req.group_id req.subject_id)
    else
      let st2 := { st1 with allowed_rooms := dictInsert st1.allowed_rooms eid rids }
      match possible_slots_for p slots req (pool_for p req) with
      | Except.error msg => Except.error msg
      | Except.ok poss =>
        if poss.isEmpty then
          Except.error (no_slots_msg eid)
        else
          let sidxs := poss.map (fun s => (dget slot_index s).getD 0)
          Except.ok { st2 with
            allowed_slots := dictInsert st2.allowed_slots eid sidxs }

/-- One iteration of the outer requirement loop of `_compile_problem`. -/
def compile_req (p : TimetableProblem) (slot_index : List (Slot × Nat))
    (slots : List Slot) (st : CompileState) (req : CourseRequirement) :
    Except String CompileState :=
  let k : TeacherKey := (req.group_id, req.subject_id)
  let st1 := { st with req_by_key := dictInsert st.req_by_key k req }
  let pool := pool_for p req
  let st2 := { st1 with key_pools := dictInsert st1.key_pools k pool }
  match dget p.index_subjects req.subject_id with
  | none => Except.error ("KeyError: " ++ req.subject_id)
  | some sub =>
    ((List.range req.periods_per_week.toNat).map (fun idx => idx + 1)).foldlM
      (compile_inst p slot_index slots req sub) st2

/-- `solve._compile_problem`. -/
def _compile_problem (p : TimetableProblem) : Except String _Compiled :=
  let slots := p.calendar.teaching_slots
  let slot_index := buildSlotIndex slots
  match p.requirements.foldlM (compile_req p slot_index slots) {} with
  | Except.error msg => Except.error msg
  | Except.ok st =>
    Except.ok {
      events := st.events
      event_req_key := st.event_req_key
      req_by_key := st.req_by_key
      slots := slots
      slot_index := slot_index
      key_pools := st.key_pools
      allowed_slots := st.allowed_slots
      allowed_rooms := st.allowed_rooms }

-- ---------- core/validate.py ----------

/-- A single-quote character, used when rendering Python-style messages. -/
def sq : String := String.singleton (Char.ofNat 39)

/-- `str(slot)` of the `Slot` dataclass, e.g. `Slot(day='mon', period=1)`. -/
def slotRepr (s : Slot) : String :=
  "Slot(day=" ++ sq ++ s.day ++ sq ++ ", period=" ++ toString s.period ++ ")"

/-- Quote a string Python-style: `'x'`. -/
def q (s : String) : String := sq ++ s ++ sq

/-- Python `repr` of a sorted list of strings, e.g. `['a', 'b']`. -/
def strListRepr (l : List String) : String :=
  "[" ++ String.intercalate ", " (l.map q) ++ "]"

/-- Python `repr` of a list of ints, e.g. `[0, 13]`. -/
def intListRepr (l : List Int) : String :=
  "[" ++ String.intercalate ", " (l.map toString) ++ "]"

/-- `str` of a `RoomType` in an f-string (the `str` mixin value). -/
def roomTypeStr : RoomType → String
  | RoomType.NORMAL => "NORMAL"
  | RoomType.LAB => "LAB"
  | RoomType.GYM => "GYM"
  | RoomType.MUSIC => "MUSIC"
  | RoomType.IT => "IT"
  | RoomType.OTHER => "OTHER"

/-- `validate.ValidationReport`. -/
structure ValidationReport where
  ok : Bool
  errors : List String
  warnings : List String
deriving DecidableEq, Repr

/-- `validate._validate_calendar`, returning `(errors, warnings)`.
Note the early `return` after the empty-days error: no other calendar
check runs in that case. -/
def _validate_calendar (cal : Calendar) : List String × List String :=
  if cal.days.isEmpty then
    (["Calendar.days está vacío."], [])
  else
    let e1 := if cal.periods_per_day ≤ 0 then
        ["Calendar.periods_per_day debe ser > 0 (actual: " ++
          toString cal.periods_per_day ++ ")."]
      else []
    let e2 := cal.blocked_slots.flatMap (fun s =>
      (if !cal.days.contains s.day then
        ["blocked_slot " ++ slotRepr s ++ " usa un day " ++ q s.day ++
          " que no está en Calendar.days."]
      else []) ++
      (if s.period < 1 ∨ s.period > cal.periods_per_day then
        ["blocked_slot " ++ slotRepr s ++ " usa period " ++
          toString s.period ++ " fuera de 1.." ++
          toString cal.periods_per_day ++ "."]
      else []))
    let w1 := if cal.periods_per_day > 12 then
        ["Calendar.periods_per_day=" ++ toString cal.periods_per_day ++
          " es alto; revisa si realmente son periodos lectivos."]
      else []
    let e3 := if cal.teaching_slots.length = 0 then
        ["No hay slots lectivos disponibles: todos los slots están bloqueados."]
      else []
    (e1 ++ e2 ++ e3, w1)

/-- `validate._validate_uniqueness`, inner `dupes`: ids seen at least twice,
reported sorted (Python sorts the set before printing). -/
def dupes (ids : List String) : List String :=
  isort (fun a b => decide (a ≤ b))
    ((ids.filter (fun x => 2 ≤ ids.count x)).eraseDups)

/-- `validate._validate_uniqueness` (errors only; it emits no warnings). -/
def _validate_uniqueness (p : TimetableProblem) : List String :=
  let g_dupes := dupes (p.groups.map (fun g => g.id))
  let s_dupes := dupes (p.subjects.map (fun s => s.id))
  let t_dupes := dupes (p.teachers.map (fun t => t.id))
  let r_dupes := dupes (p.rooms.map (fun r => r.id))
  (if !g_dupes.isEmpty then
    ["IDs de grupos duplicados: " ++ strListRepr g_dupes] else []) ++
  (if !s_dupes.isEmpty then
    ["IDs de asignaturas duplicados: " ++ strListRepr s_dupes] else []) ++
  (if !t_dupes.isEmpty then
    ["IDs de profesores duplicados: " ++ strListRepr t_dupes] else []) ++
  (if !r_dupes.isEmpty then
    ["IDs de aulas duplicados: " ++ strListRepr r_dupes] else [])

/-- `validate._validate_min_max_pair` (errors only). -/
def _validate_min_max_pair (ctx min_name : String) (min_val : Option Int)
    (max_name : String) (max_val : Option Int) : List String :=
  (match min_val with
   | some v => if v < 0 then
       [ctx ++ ": " ++ min_name ++ " no puede ser negativo (actual: " ++
         toString v ++ ")."] else []
   | none => []) ++
  (match max_val with
   | some v => if v < 0 then
       [ctx ++ ": " ++ max_name ++ " no puede ser negativo (actual: " ++
         toString v ++ ")."] else []
   | none => []) ++
  (match min_val, max_val with
   | some mi, some ma => if mi > ma then
       [ctx ++ ": " ++ min_name ++ " (" ++ toString mi ++ ") > " ++
         max_name ++ " (" ++ toString ma ++ ")."] else []
   | _, _ => [])

/-- `validate._validate_entities`, the per-teacher block. -/
def teacher_entity_checks (cal : Calendar)
    (subjects : List (String × Subject)) (t : Teacher) :
    List String × List String :=
  let ctx := "Teacher " ++ q t.id
  let e0 := if isBlank t.id then ["Existe un Teacher con id vacío."] else []
  let e1 := t.can_teach.flatMap (fun sub_id =>
    if (dget subjects sub_id).isNone then
      ["Teacher " ++ q t.id ++ " can_teach incluye subject_id desconocido " ++
        q sub_id ++ "."]
    else [])
  let e2 := t.unavailable.flatMap (fun s =>
    (if !cal.days.contains s.day then
      ["Teacher " ++ q t.id ++ " tiene unavailable " ++ slotRepr s ++
        " con day fuera de Calendar.days."] else []) ++
    (if s.period < 1 ∨ s.period > cal.periods_per_day then
      ["Teacher " ++ q t.id ++ " tiene unavailable " ++ slotRepr s ++
        " con period fuera de 1.." ++ toString cal.periods_per_day ++ "."]
     else []))
  let e3 := _validate_min_max_pair ctx "min_periods_per_day"
    t.min_periods_per_day "max_periods_per_day" t.max_periods_per_day
  let e4 := _validate_min_max_pair ctx "min_periods_per_week"
    t.min_periods_per_week "max_periods_per_week" t.max_periods_per_week
  let w1 := match t.max_periods_per_day with
    | some v => if v > cal.periods_per_day then
        ["Teacher " ++ q t.id ++ ": max_periods_per_day=" ++ toString v ++
          " > periods_per_day=" ++ toString cal.periods_per_day ++ "."]
      else []
    | none => []
  (e0 ++ e1 ++ e2 ++ e3 ++ e4, w1)

/-- `validate._validate_entities`, returning `(errors, warnings)`. -/
def _validate_entities (p : TimetableProblem) : List String × List String :=
  let cal := p.calendar
  let subjects := p.index_subjects
  let ge := p.groups.flatMap (fun g =>
    (if isBlank g.id then ["Existe un Group con id vacío."] else []) ++
    (if g.size ≤ 0 then
      ["Group " ++ q g.id ++ " tiene size <= 0 (actual: " ++
        toString g.size ++ ")."] else []))
  let se := p.subjects.flatMap (fun sub =>
    (if isBlank sub.id then ["Existe un Subject con id vacío."] else []) ++
    (match sub.max_per_day with
     | some v => if v ≤ 0 then
         ["Subject " ++ q sub.id ++ ": max_per_day debe ser > 0 o None."]
       else []
     | none => []))
  let sw := p.subjects.flatMap (fun sub =>
    match sub.max_per_day with
    | some v => if v > cal.periods_per_day then
        ["Subject " ++ q sub.id ++ ": max_per_day=" ++ toString v ++
          " > periods_per_day=" ++ toString cal.periods_per_day ++ "."]
      else []
    | none => [])
  let tpairs := p.teachers.map (teacher_entity_checks cal subjects)
  let te := tpairs.flatMap (fun pr => pr.1)
  let tw := tpairs.flatMap (fun pr => pr.2)
  let re := p.rooms.flatMap (fun r =>
    (if isBlank r.id then ["Existe un Room con id vacío."] else []) ++
    (if r.capacity ≤ 0 then
      ["Room " ++ q r.id ++ " tiene capacity <= 0 (actual: " ++
        toString r.capacity ++ ")."] else []) ++
    r.unavailable.flatMap (fun s =>
      (if !cal.days.contains s.day then
        ["Room " ++ q r.id ++ " tiene unavailable " ++ slotRepr s ++
          " con day fuera de Calendar.days."] else []) ++
      (if s.period < 1 ∨ s.period > cal.periods_per_day then
        ["Room " ++ q r.id ++ " tiene unavailable " ++ slotRepr s ++
          " con period fuera de 1.." ++ toString cal.periods_per_day ++ "."]
       else [])))
  (ge ++ se ++ te ++ re, sw ++ tw)

/-- The `"Requirement (group=…, subject=…): "` message prefix. -/
def reqCtx (g s : String) : String :=
  "Requirement (group=" ++ g ++ ", subject=" ++ s ++ "): "

/-- `validate._validate_period_set`, returning `(errors, warnings)`. -/
def _validate_period_set (ctx : String) (periods : Option (List Int))
    (max_period : Int) (allow_empty : Bool) : List String × List String :=
  match periods with
  | none => ([], [])
  | some ps =>
    let w := if ps.isEmpty && !allow_empty then
        [ctx ++ ": conjunto vacío (¿seguro que quieres esto?)."] else []
    let bad := ps.filter (fun x => decide (x < 1) || decide (x > max_period))
    let e := if !bad.isEmpty then
        [ctx ++ ": contiene periodos fuera de 1.." ++ toString max_period ++
          ": " ++ intListRepr (isort (fun a b => decide (a ≤ b)) bad) ++ "."]
      else []
    (e, w)

/-- `validate._validate_requirements`, first loop: duplicate
`(group, subject)` keys (one error per repeated occurrence). -/
def duplicate_key_errors (reqs : List CourseRequirement) : List String :=
  (reqs.foldl (fun (acc : List TeacherKey × List String) req =>
    let key : TeacherKey := (req.group_id, req.subject_id)
    let errs := if acc.1.contains key then
        acc.2 ++ ["CourseRequirement duplicado para group=" ++
          q req.group_id ++ ", subject=" ++ q req.subject_id ++
          ". Combínalos en uno (sumando periods_per_week) o usa un id " ++
          "extra si realmente son distintos."]
      else acc.2
    (acc.1 ++ [key], errs)) ([], [])).2

/-- `validate._possible_slots_for_requirement`: teaching slots, minus
hard-forbidden periods (truthy set), then filtered by the fixed teacher's
availability (when the id is truthy and resolves; an unknown fixed id
filters nothing) or, for `CHOOSE`, keeping slots where some existing pool
member is available (an empty pool keeps no slot). -/
def _possible_slots_for_requirement (p : TimetableProblem)
    (req : CourseRequirement) : List Slot :=
  let slots := p.calendar.teaching_slots
  let slots :=
    if p.config.forbidden_periods_hard && listTruthy req.forbidden_periods then
      slots.filter (fun s => !(req.forbidden_periods.getD []).contains s.period)
    else slots
  if req.teacher_policy == TeacherPolicy.FIXED && strTruthy req.teacher_id then
    match dget p.index_teachers (strVal req.teacher_id) with
    | some t => slots.filter (fun s => t.is_available s)
    | none => slots
  else if req.teacher_policy == TeacherPolicy.CHOOSE then
    let pool : List String := match req.teacher_pool with
      | some tp => if !tp.isEmpty then tp
          else (p.teachers.filter (fun t =>
            t.can_teach.contains req.subject_id)).map (fun t => t.id)
      | none => (p.teachers.filter (fun t =>
          t.can_teach.contains req.subject_id)).map (fun t => t.id)
    slots.filter (fun s => pool.any (fun tid =>
      match dget p.index_teachers tid with
      | some t => t.is_available s
      | none => false))
  else slots

/-- `validate._validate_requirements`, second loop, one requirement:
a missing group or subject reference ends this requirement's checks early
(the Python `continue`). -/
def requirement_checks (p : TimetableProblem) (req : CourseRequirement) :
    List String × List String :=
  let cal := p.calendar
  let gid := req.group_id
  let sid := req.subject_id
  match dget p.index_groups gid with
  | none => (["Requirement referencia group_id desconocido " ++ q gid ++ "."],
      [])
  | some g =>
    match dget p.index_subjects sid with
    | none =>
      (["Requirement referencia subject_id desconocido " ++ q sid ++ "."], [])
    | some sub =>
      let e1 := if req.periods_per_week ≤ 0 then
          [reqCtx gid sid ++ "periods_per_week debe ser > 0 (actual: " ++
            toString req.periods_per_week ++ ")."]
        else []
      let e2 := match req.max_consecutive with
        | some m => if m ≤ 0 then
            [reqCtx gid sid ++ "max_consecutive debe ser > 0 o None (actual: " ++
              toString m ++ ")."]
          else []
        | none => []
      let w2 := match req.max_consecutive with
        | some m => if m > cal.periods_per_day then
            [reqCtx gid sid ++ "max_consecutive=" ++ toString m ++
              " > periods_per_day=" ++ toString cal.periods_per_day ++ "."]
          else []
        | none => []
      let pp := _validate_period_set
        ("Requirement (group=" ++ gid ++ ", subject=" ++ sid ++
          ") preferred_periods") req.preferred_periods cal.periods_per_day false
      let fp := _validate_period_set
        ("Requirement (group=" ++ gid ++ ", subject=" ++ sid ++
          ") forbidden_periods") req.forbidden_periods cal.periods_per_day true
      let epol := match req.teacher_policy with
        | TeacherPolicy.FIXED =>
          if !strTruthy req.teacher_id then
            [reqCtx gid sid ++
              "teacher_policy=FIXED pero teacher_id es None/vacío."]
          else
            match dget p.index_teachers (strVal req.teacher_id) with
            | none => [reqCtx gid sid ++ "teacher_id " ++
                q (strVal req.teacher_id) ++ " no existe."]
            | some t =>
              if !t.can_teach.contains sid then
                [reqCtx gid sid ++ "Teacher " ++ q t.id ++
                  " no puede enseñar " ++ q sid ++ " (no está en can_teach)."]
              else []
        | TeacherPolicy.CHOOSE =>
          let pool := if listTruthy req.teacher_pool then
              req.teacher_pool.getD []
            else (p.teachers.filter (fun t =>
              t.can_teach.contains sid)).map (fun t => t.id)
          if pool.isEmpty then
            [reqCtx gid sid ++
              "teacher_policy=CHOOSE pero el pool de profesores queda vacío."]
          else
            pool.flatMap (fun tid =>
              match dget p.index_teachers tid with
              | none => [reqCtx gid sid ++
                  "teacher_pool contiene teacher_id desconocido " ++
                  q tid ++ "."]
              | some t =>
                if !t.can_teach.contains sid then
                  [reqCtx gid sid ++ "teacher_pool incluye " ++ q tid ++
                    " que no puede enseñar " ++ q sid ++ "."]
                else [])
      let rooms_ok := p.rooms.filter (fun r =>
        r.type == sub.room_type_required && decide (r.capacity ≥ g.size))
      let eroom := if rooms_ok.isEmpty then
          [reqCtx gid sid ++ "no hay Room compatible (type=" ++
            roomTypeStr sub.room_type_required ++ ", capacity>=" ++
            toString g.size ++ ")."]
        else []
      let possible_slots := _possible_slots_for_requirement p req
      let eslots := if req.periods_per_week > (possible_slots.length : Int) then
          [reqCtx gid sid ++ "pide " ++ toString req.periods_per_week ++
            " sesiones/semana pero solo hay " ++
            toString possible_slots.length ++
            " slots posibles según bloqueos/forbidden/availability."]
        else []
      (e1 ++ e2 ++ pp.1 ++ fp.1 ++ epol ++ eroom ++ eslots, w2 ++ pp.2 ++ fp.2)

/-- `validate._validate_requirements`, returning `(errors, warnings)`. -/
def _validate_requirements (p : TimetableProblem) :
    List String × List String :=
  let dups := duplicate_key_errors p.requirements
  let pairs := p.requirements.map (requirement_checks p)
  (dups ++ pairs.flatMap (fun pr => pr.1), pairs.flatMap (fun pr => pr.2))

/-- `validate._validate_capacity_sanity`, returning `(errors, warnings)`. -/
def _validate_capacity_sanity (p : TimetableProblem) :
    List String × List String :=
  let teaching_slots := p.calendar.teaching_slots
  let slots_per_week : Int := teaching_slots.length
  let load_by_group : List (String × Int) :=
    p.requirements.foldl (fun m req =>
      dictInsert m req.group_id
        ((dget m req.group_id).getD 0 + req.periods_per_week)) []
  let gpairs := load_by_group.map (fun gl =>
    if gl.2 > slots_per_week then
      (["Grupo " ++ q gl.1 ++ " requiere " ++ toString gl.2 ++
        " sesiones/semana pero solo hay " ++ toString slots_per_week ++
        " slots lectivos."], ([] : List String))
    else if gl.2 = slots_per_week then
      ([], ["Grupo " ++ q gl.1 ++ " llena el 100% de slots lectivos (" ++
        toString gl.2 ++ "/" ++ toString slots_per_week ++
        "). Esto suele hacer el problema más duro."])
    else ([], []))
  let fixed_load : List (String × Int) :=
    p.requirements.foldl (fun m req =>
      if req.teacher_policy == TeacherPolicy.FIXED && strTruthy req.teacher_id
      then
        dictInsert m (strVal req.teacher_id)
          ((dget m (strVal req.teacher_id)).getD 0 + req.periods_per_week)
      else m) []
  let tpairs := fixed_load.map (fun tl =>
    match dget p.index_teachers tl.1 with
    | none => (([] : List String), ([] : List String))
    | some t =>
      let available := teaching_slots.filter (fun s => t.is_available s)
      let e1 := if tl.2 > (available.length : Int) then
          ["Teacher " ++ q tl.1 ++ " tiene carga fija " ++ toString tl.2 ++
            " pero solo " ++ toString available.length ++
            " slots disponibles."]
        else []
      let e2 := match t.max_periods_per_week with
        | some mx => if tl.2 > mx then
            ["Teacher " ++ q tl.1 ++ ": carga fija " ++ toString tl.2 ++
              " > max_periods_per_week " ++ toString mx ++ "."]
          else []
        | none => []
      let w1 := match t.min_periods_per_week with
        | some mn => if tl.2 < mn then
            ["Teacher " ++ q tl.1 ++ ": carga fija " ++ toString tl.2 ++
              " < min_periods_per_week " ++ toString mn ++
              " (si ese mínimo es hard, esto será imposible)."]
          else []
        | none => []
      (e1 ++ e2, w1))
  (gpairs.flatMap (fun pr => pr.1) ++ tpairs.flatMap (fun pr => pr.1),
   gpairs.flatMap (fun pr => pr.2) ++ tpairs.flatMap (fun pr => pr.2))

/-- `validate.validate_problem` with `raise_on_error=False`: run the five
check groups in order, accumulating all their errors and warnings. -/
def validate_problem (p : TimetableProblem) : ValidationReport :=
  let cal := _validate_calendar p.calendar
  let uniq := _validate_uniqueness p
  let ent := _validate_entities p
  let reqs := _validate_requirements p
  let cap := _validate_capacity_sanity p
  let errors := cal.1 ++ uniq ++ ent.1 ++ reqs.1 ++ cap.1
  let warnings := cal.2 ++ ent.2 ++ reqs.2 ++ cap.2
  { ok := errors.length = 0, errors := errors, warnings := warnings }

/-- `validate.validate_problem` with `raise_on_error=True`: raise
`ValidationError(errors)` when any error was found. -/
def validate_problem_strict (p : TimetableProblem) :
    Except (List String) ValidationReport :=
  let report := validate_problem p
  if !report.errors.isEmpty then Except.error report.errors
  else Except.ok report

-- ---------- solver/solve.py: the CP-SAT model ----------

/-!
The CP-SAT model emitted by `solve` is embedded shallowly: each solver
variable is a constructor of `Var`, a solver assignment is a function
`Var → Int`, and `SatisfiesModel` states, clause by clause in the order
the Python code calls `model.Add`, that an assignment satisfies every
emitted constraint (including the `{0,1}` / `[0, periods_per_day]`
domains the `NewBoolVar` / `NewIntVar` declarations impose).

Python keys solver variables by ids (`x[(e.id, si)]`, `w[(e.id, si, rid)]`,
…).  `Var` uses the same keys, so distinct CP-SAT variables that carry the
same key (possible only when two compiled events share an id) are
identified; every such pair is forced equal by its defining constraints,
so the satisfying assignments are the same.
-/

/-- The solver variables of `solve`, keyed exactly as the Python dicts. -/
inductive Var where
  | x (eid : String) (si : Nat)
  | y (eid : String) (rid : String)
  | a (g s tid : String)
  | occ (g s : String) (si : Nat)
  | teach (g s tid : String) (si : Nat)
  | busy (tid : String) (si : Nat)
  | w (eid : String) (si : Nat) (rid : String)
  | gap (tid d : String) (p : Int)
  | excess (g s d : String)
deriving DecidableEq, Repr

/-- A solver assignment. -/
abbrev Assignment := Var → Int

/-- Sum of an assignment over a list of variables. -/
def sumV (σ : Assignment) (vs : List Var) : Int := (vs.map σ).sum

/-- The `{0,1}` domain of a `NewBoolVar`. -/
def is01 (σ : Assignment) (v : Var) : Prop := σ v = 0 ∨ σ v = 1

/-- `events_by_group` of `solve` (dict of lists, insertion order). -/
def events_by_group (c : _Compiled) : List (String × List Event) :=
  c.events.foldl (fun m e => dictAppend m e.group_id e) []

/-- `events_of_key` of `solve`. -/
def events_of_key (c : _Compiled) : List (TeacherKey × List Event) :=
  c.events.foldl (fun m e => dictAppend m e.same_teacher_key e) []

/-- `slots_by_day` of `solve`: slot indices grouped by day. -/
def slots_by_day (c : _Compiled) : List (String × List Nat) :=
  c.slots.enum.foldl (fun m is => dictAppend m is.2.day is.1) []

/-- `c.allowed_slots[eid]` (lookup in the compiled dict). -/
def allowedS (c : _Compiled) (eid : String) : List Nat :=
  (dget c.allowed_slots eid).getD []

/-- `c.allowed_rooms[eid]`. -/
def allowedR (c : _Compiled) (eid : String) : List String :=
  (dget c.allowed_rooms eid).getD []

/-- `keys = list(c.key_pools.keys())`. -/
def keysList (c : _Compiled) : List TeacherKey :=
  c.key_pools.map (fun kp => kp.1)

/-- `teachers.keys()` of the problem. -/
def teacherIds (p : TimetableProblem) : List String :=
  p.index_teachers.map (fun kv => kv.1)

/-- `rooms.keys()` of the problem. -/
def roomIds (p : TimetableProblem) : List String :=
  p.index_rooms.map (fun kv => kv.1)

/-- `c.slots[si]` (indices produced by the compiler are in range). -/
def slotAt (c : _Compiled) (si : Nat) : Slot :=
  c.slots.getD si { day := "", period := 0 }

/-- `sorted(silist, key=lambda si: c.slots[si].period)`. -/
def sortPeriod (c : _Compiled) (l : List Nat) : List Nat :=
  isort (fun i j => decide ((slotAt c i).period ≤ (slotAt c j).period)) l

/-- `rooms[rid].is_available(slot)` (`true` when the id does not resolve:
unreachable for compiled problems, whose room ids come from `problem.rooms`). -/
def roomAvail (p : TimetableProblem) (rid : String) (s : Slot) : Bool :=
  match dget p.index_rooms rid with
  | some r => r.is_available s
  | none => true

/-- Placement (`solve` lines 159-161): each event sits in exactly one of
its allowed slots; the `x` variables are boolean. -/
def PlacementSat (c : _Compiled) (σ : Assignment) : Prop :=
  ∀ e ∈ c.events,
    (∀ si ∈ allowedS c e.id, is01 σ (Var.x e.id si)) ∧
    sumV σ ((allowedS c e.id).map (Var.x e.id)) = 1

/-- Group conflict (`solve` lines 163-172): at most one event of a group
per slot (the Python guard `if terms` only skips trivial `0 ≤ 1` adds). -/
def GroupConflictSat (c : _Compiled) (σ : Assignment) : Prop :=
  ∀ gp ∈ events_by_group c, ∀ si ∈ List.range c.slots.length,
    sumV σ ((gp.2.filter (fun e => (allowedS c e.id).contains si)).map
      (fun e => Var.x e.id si)) ≤ 1

/-- Teacher choice (`solve` lines 174-192): booleans, exactly one teacher
per key, and the `FIXED` policy pins the choice. -/
def TeacherAssignSat (c : _Compiled) (σ : Assignment) : Prop :=
  ∀ kp ∈ c.key_pools,
    (∀ tid ∈ kp.2, is01 σ (Var.a kp.1.1 kp.1.2 tid)) ∧
    sumV σ (kp.2.map (fun tid => Var.a kp.1.1 kp.1.2 tid)) = 1 ∧
    ∀ req ∈ dget c.req_by_key kp.1,
      req.teacher_policy = TeacherPolicy.FIXED →
      ∀ tid ∈ kp.2, σ (Var.a kp.1.1 kp.1.2 tid) =
        (if req.teacher_id == some tid then 1 else 0)

/-- The `x` terms summed into `occ[(k, si)]`. -/
def occTerms (c : _Compiled) (evs : List Event) (si : Nat) : List Var :=
  (evs.filter (fun e => (allowedS c e.id).contains si)).map
    (fun e => Var.x e.id si)

/-- Occupancy (`solve` lines 194-210): `occ[k,si]` is the constant 0 when
no event of the key can sit at `si`, else it equals the (≤ 1) sum of the
corresponding `x` variables. -/
def OccSat (c : _Compiled) (σ : Assignment) : Prop :=
  ∀ kev ∈ events_of_key c, ∀ si ∈ List.range c.slots.length,
    (occTerms c kev.2 si = [] → σ (Var.occ kev.1.1 kev.1.2 si) = 0) ∧
    (occTerms c kev.2 si ≠ [] →
      sumV σ (occTerms c kev.2 si) ≤ 1 ∧
      σ (Var.occ kev.1.1 kev.1.2 si) = sumV σ (occTerms c kev.2 si))

/-- Teach linearization (`solve` lines 212-230): `teach = a AND occ`,
and an assigned teacher cannot teach in a slot they are unavailable in. -/
def TeachSat (p : TimetableProblem) (c : _Compiled) (σ : Assignment) : Prop :=
  ∀ kp ∈ c.key_pools, ∀ tid ∈ kp.2, ∀ is ∈ c.slots.enum,
    is01 σ (Var.teach kp.1.1 kp.1.2 tid is.1) ∧
    σ (Var.teach kp.1.1 kp.1.2 tid is.1) ≤ σ (Var.a kp.1.1 kp.1.2 tid) ∧
    σ (Var.teach kp.1.1 kp.1.2 tid is.1) ≤ σ (Var.occ kp.1.1 kp.1.2 is.1) ∧
    σ (Var.a kp.1.1 kp.1.2 tid) + σ (Var.occ kp.1.1 kp.1.2 is.1) - 1 ≤
      σ (Var.teach kp.1.1 kp.1.2 tid is.1) ∧
    ∀ t ∈ dget p.index_teachers tid, t.is_available is.2 = false →
      σ (Var.teach kp.1.1 kp.1.2 tid is.1) = 0

/-- The `teach` terms summed into `busy[(tid, si)]`. -/
def busyTerms (c : _Compiled) (tid : String) (si : Nat) : List Var :=
  (c.key_pools.filter (fun kp => kp.2.contains tid)).map
    (fun kp => Var.teach kp.1.1 kp.1.2 tid si)

/-- Teacher conflict (`solve` lines 232-243): `busy` is the (≤ 1, boolean)
sum of `teach` over the keys whose pool holds the teacher, constant 0 when
there are none. -/
def BusySat (p : TimetableProblem) (c : _Compiled) (σ : Assignment) : Prop :=
  ∀ tid ∈ teacherIds p, ∀ si ∈ List.range c.slots.length,
    (busyTerms c tid si = [] → σ (Var.busy tid si) = 0) ∧
    (busyTerms c tid si ≠ [] →
      is01 σ (Var.busy tid si) ∧
      σ (Var.busy tid si) = sumV σ (busyTerms c tid si) ∧
      sumV σ (busyTerms c tid si) ≤ 1)

/-- Hard per-day / per-week teacher caps (`solve` lines 245-255). -/
def TeacherCapSat (p : TimetableProblem) (c : _Compiled) (σ : Assignment) :
    Prop :=
  ∀ tp ∈ p.index_teachers,
    (∀ cap ∈ tp.2.max_periods_per_day, ∀ dp ∈ slots_by_day c,
      sumV σ (dp.2.map (Var.busy tp.1)) ≤ cap) ∧
    (∀ cap ∈ tp.2.max_periods_per_week,
      sumV σ ((List.range c.slots.length).map (Var.busy tp.1)) ≤ cap)

/-- Room pick (`solve` lines 257-263): one allowed room per event. -/
def RoomPickSat (c : _Compiled) (σ : Assignment) : Prop :=
  ∀ e ∈ c.events,
    (∀ rid ∈ allowedR c e.id, is01 σ (Var.y e.id rid)) ∧
    sumV σ ((allowedR c e.id).map (Var.y e.id)) = 1

/-- Room availability guard (`solve` lines 265-271): an event cannot take
both a slot and a room that is unavailable in it. -/
def RoomAvailGuardSat (p : TimetableProblem) (c : _Compiled)
    (σ : Assignment) : Prop :=
  ∀ e ∈ c.events, ∀ si ∈ allowedS c e.id, ∀ rid ∈ allowedR c e.id,
    roomAvail p rid (slotAt c si) = false →
    σ (Var.x e.id si) + σ (Var.y e.id rid) ≤ 1

/-- `w = x AND y` (`solve` lines 273-291), declared only for available
room/slot combinations. -/
def WSat (p : TimetableProblem) (c : _Compiled) (σ : Assignment) : Prop :=
  ∀ e ∈ c.events, ∀ si ∈ allowedS c e.id, ∀ rid ∈ allowedR c e.id,
    roomAvail p rid (slotAt c si) = true →
    is01 σ (Var.w e.id si rid) ∧
    σ (Var.w e.id si rid) ≤ σ (Var.x e.id si) ∧
    σ (Var.w e.id si rid) ≤ σ (Var.y e.id rid) ∧
    σ (Var.x e.id si) + σ (Var.y e.id rid) - 1 ≤ σ (Var.w e.id si rid)

/-- The `w` terms collected into `room_slot_sum[(rid, si)]`. -/
def roomSlotTerms (p : TimetableProblem) (c : _Compiled) (rid : String)
    (si : Nat) : List Var :=
  (c.events.filter (fun e =>
    (allowedS c e.id).contains si && (allowedR c e.id).contains rid &&
      roomAvail p rid (slotAt c si))).map (fun e => Var.w e.id si rid)

/-- Room conflict (`solve` lines 293-298): at most one event per room and
slot. -/
def RoomConflictSat (p : TimetableProblem) (c : _Compiled)
    (σ : Assignment) : Prop :=
  ∀ rid ∈ roomIds p, ∀ si ∈ List.range c.slots.length,
    sumV σ (roomSlotTerms p c rid si) ≤ 1

/-- Max consecutive (`solve` lines 304-318): every sliding window of
`max_consecutive + 1` periods within a day holds at most `max_consecutive`
occupancies of the key. -/
def MaxConsecSat (p : TimetableProblem) (c : _Compiled) (σ : Assignment) :
    Prop :=
  ∀ kr ∈ c.req_by_key, ∀ m ∈ kr.2.max_consecutive, 1 ≤ m →
    ∀ d ∈ p.calendar.days,
      ∀ sp ∈ pyRange 1 (p.calendar.periods_per_day - m + 1),
        sumV σ (((sortPeriod c ((dget (slots_by_day c) d).getD [])).filter
          (fun si => decide (sp ≤ (slotAt c si).period) &&
            decide ((slotAt c si).period ≤ sp + m))).map
          (fun si => Var.occ kr.1.1 kr.1.2 si)) ≤ m

/-- `Subject.max_per_day` (`solve` lines 320-330). -/
def SubjectMaxDaySat (p : TimetableProblem) (c : _Compiled)
    (σ : Assignment) : Prop :=
  ∀ k ∈ keysList c, ∀ sub ∈ dget p.index_subjects k.2,
    ∀ mx ∈ sub.max_per_day, ∀ d ∈ p.calendar.days,
      sumV σ (((dget (slots_by_day c) d).getD []).map
        (fun si => Var.occ k.1 k.2 si)) ≤ mx

/-- Teacher gaps (`solve` lines 349-361): when the three periods
`p-1, p, p+1` of a day all exist, `gap ≥ busy_prev + busy_next − busy_cur − 1`. -/
def GapSat (p : TimetableProblem) (c : _Compiled) (σ : Assignment) : Prop :=
  ∀ tid ∈ teacherIds p, ∀ d ∈ p.calendar.days,
    ∀ pr ∈ pyRange 2 p.calendar.periods_per_day,
      ∀ sp ∈ (sortPeriod c ((dget (slots_by_day c) d).getD [])).find?
          (fun si => (slotAt c si).period == pr - 1),
        ∀ sc ∈ (sortPeriod c ((dget (slots_by_day c) d).getD [])).find?
            (fun si => (slotAt c si).period == pr),
          ∀ sn ∈ (sortPeriod c ((dget (slots_by_day c) d).getD [])).find?
              (fun si => (slotAt c si).period == pr + 1),
            is01 σ (Var.gap tid d pr) ∧
            σ (Var.busy tid sp) + σ (Var.busy tid sn) -
              σ (Var.busy tid sc) - 1 ≤ σ (Var.gap tid d pr)

/-- Same-day excess (`solve` lines 379-388): an integer in
`[0, periods_per_day]` that dominates `(Σ occ) − 1`. -/
def ExcessSat (p : TimetableProblem) (c : _Compiled) (σ : Assignment) :
    Prop :=
  ∀ k ∈ keysList c, ∀ d ∈ p.calendar.days,
    (dget (slots_by_day c) d).getD [] ≠ [] →
    0 ≤ σ (Var.excess k.1 k.2 d) ∧
    σ (Var.excess k.1 k.2 d) ≤ p.calendar.periods_per_day ∧
    sumV σ (((dget (slots_by_day c) d).getD []).map
      (fun si => Var.occ k.1 k.2 si)) - 1 ≤ σ (Var.excess k.1 k.2 d)

/-- An assignment satisfies every constraint the model builder emits. -/
def SatisfiesModel (p : TimetableProblem) (c : _Compiled)
    (σ : Assignment) : Prop :=
  PlacementSat c σ ∧ GroupConflictSat c σ ∧ TeacherAssignSat c σ ∧
  OccSat c σ ∧ TeachSat p c σ ∧ BusySat p c σ ∧ TeacherCapSat p c σ ∧
  RoomPickSat c σ ∧ RoomAvailGuardSat p c σ ∧ WSat p c σ ∧
  RoomConflictSat p c σ ∧ MaxConsecSat p c σ ∧ SubjectMaxDaySat p c σ ∧
  GapSat p c σ ∧ ExcessSat p c σ

-- ---------- solver/solve.py: pre-solve checks, objective, reconstruction --

/-- `solve` line 180: `f"Pool vacío para {k}. Revisa validate/problem data."`. -/
def pool_empty_msg (k : TeacherKey) : String :=
  "Pool vacío para (" ++ q k.1 ++ ", " ++ q k.2 ++
    "). Revisa validate/problem data."

/-- `solve` line 189: `f"teacher_policy=FIXED pero teacher_id=None para {k}"`. -/
def fixed_none_msg (k : TeacherKey) : String :=
  "teacher_policy=FIXED pero teacher_id=None para (" ++ q k.1 ++ ", " ++
    q k.2 ++ ")"

/-- The two `raise ValueError` checks performed while the `a` variables are
declared (`solve` lines 176-192), in key order: an empty pool, then a
`FIXED` requirement without a teacher id.  They run after compilation and
before the solver is invoked; an error means no solution is returned. -/
def precheckStep (m : List (TeacherKey × CourseRequirement)) :
    Unit → TeacherKey × List String → Except String Unit := fun _ kp =>
  if kp.2.isEmpty then Except.error (pool_empty_msg kp.1)
  else
    match dget m kp.1 with
    | some req =>
      if req.teacher_policy == TeacherPolicy.FIXED &&
          req.teacher_id == none then
        Except.error (fixed_none_msg kp.1)
      else Except.ok ()
    | none => Except.ok ()

/-- The `for k in keys` precheck loop, folded over `key_pools`. -/
def solve_precheck (c : _Compiled) : Except String Unit :=
  c.key_pools.foldlM (precheckStep c.req_by_key) ()

/-- The deterministic prefix of `solve`: compile, then the model-building
prechecks.  The CP-SAT solver is invoked only when this succeeds. -/
def solve_stage1 (p : TimetableProblem) : Except String _Compiled :=
  match _compile_problem p with
  | Except.error msg => Except.error msg
  | Except.ok c =>
    match solve_precheck c with
    | Except.error msg => Except.error msg
    | Except.ok _ => Except.ok c

/-- `gap_vars` (`solve` lines 349-361): one gap variable per teacher, day
and interior period whose three neighbouring periods all exist. -/
def gap_vars (p : TimetableProblem) (c : _Compiled) : List Var :=
  (teacherIds p).flatMap (fun tid =>
    p.calendar.days.flatMap (fun d =>
      (pyRange 2 p.calendar.periods_per_day).flatMap (fun pr =>
        let silist := sortPeriod c ((dget (slots_by_day c) d).getD [])
        match silist.find? (fun si => (slotAt c si).period == pr - 1),
              silist.find? (fun si => (slotAt c si).period == pr),
              silist.find? (fun si => (slotAt c si).period == pr + 1) with
        | some _, some _, some _ => [Var.gap tid d pr]
        | _, _, _ => [])))

/-- `late_vars` (`solve` lines 366-374): the `busy` variable of the last
period of each day (when that period exists) for each teacher. -/
def late_vars (p : TimetableProblem) (c : _Compiled) : List Var :=
  (teacherIds p).flatMap (fun tid =>
    p.calendar.days.flatMap (fun d =>
      match ((dget (slots_by_day c) d).getD []).find?
          (fun si => (slotAt c si).period == p.calendar.periods_per_day) with
      | some si => [Var.busy tid si]
      | none => []))

/-- `excess_vars` (`solve` lines 379-388): one per key and non-empty day. -/
def excess_vars (p : TimetableProblem) (c : _Compiled) : List Var :=
  (keysList c).flatMap (fun k =>
    p.calendar.days.flatMap (fun d =>
      if ((dget (slots_by_day c) d).getD []).isEmpty then []
      else [Var.excess k.1 k.2 d]))

/-- `pref_terms` (`solve` lines 393-402): for requirements whose
`preferred_periods` is truthy (set and non-empty), the `occ` variable of
every slot whose period is not preferred. -/
def pref_terms (p : TimetableProblem) (c : _Compiled) : List Var :=
  c.req_by_key.flatMap (fun kr =>
    if !listTruthy kr.2.preferred_periods then []
    else c.slots.enum.flatMap (fun is =>
      if (kr.2.preferred_periods.getD []).contains is.2.period then []
      else [Var.occ kr.1.1 kr.1.2 is.1]))

/-- `forbidden_soft_terms` (`solve` lines 332-341): when forbidden periods
are soft, the `occ` variable of every forbidden slot of a requirement with
a truthy `forbidden_periods`. -/
def forbidden_soft_terms (p : TimetableProblem) (c : _Compiled) : List Var :=
  if p.config.forbidden_periods_hard then []
  else
    c.req_by_key.flatMap (fun kr =>
      if !listTruthy kr.2.forbidden_periods then []
      else c.slots.enum.flatMap (fun is =>
        if (kr.2.forbidden_periods.getD []).contains is.2.period then
          [Var.occ kr.1.1 kr.1.2 is.1]
        else []))

/-- The five named objective families, in the order `solve` builds them:
`(term name, weight, variable list)`. -/
def objective_families (p : TimetableProblem) (c : _Compiled) :
    List (String × Int × List Var) :=
  [("teacher_gaps", p.config.weights.teacher_gaps, gap_vars p c),
   ("teacher_late", p.config.weights.teacher_late, late_vars p c),
   ("subject_same_day_excess", p.config.weights.subject_same_day_excess,
     excess_vars p c),
   ("preferred_period_penalty", p.config.weights.preferred_period_penalty,
     pref_terms p c),
   ("forbidden_period_penalty", p.config.weights.forbidden_period_penalty,
     forbidden_soft_terms p c)]

/-- `objective_terms` (`solve` lines 346-406): a family is appended iff
its variable list is non-empty and its weight is truthy (non-zero). -/
def objective_terms (p : TimetableProblem) (c : _Compiled) :
    List (String × Int × List Var) :=
  (objective_families p c).filter
    (fun f => !f.2.2.isEmpty && !(f.2.1 == 0))

/-- `objective_value` (`solve` lines 408-409 and 461): present iff any
objective term was emitted; the CP-SAT objective value of an accepted
assignment is the minimized expression evaluated at that assignment. -/
def objective_value (p : TimetableProblem) (c : _Compiled)
    (σ : Assignment) : Option Int :=
  if (objective_terms p c).isEmpty then none
  else some (((objective_terms p c).map
    (fun f => f.2.1 * sumV σ f.2.2)).sum)

/-- `objective_breakdown` (`solve` lines 446-456): one entry per family
with a non-empty variable list (regardless of its weight), holding the
sum of the family's variables under the assignment. -/
def objective_breakdown (p : TimetableProblem) (c : _Compiled)
    (σ : Assignment) : List (String × Int) :=
  ((objective_families p c).filter (fun f => !f.2.2.isEmpty)).map
    (fun f => (f.1, sumV σ f.2.2))

/-- `solve` lines 440-443: the slot index reconstructed for an event — the
first allowed index whose `x` is 1, else the first allowed index. -/
def chosen_slot (c : _Compiled) (σ : Assignment) (e : Event) : Nat :=
  match (allowedS c e.id).find? (fun si => σ (Var.x e.id si) == 1) with
  | some si => si
  | none => (allowedS c e.id).headD 0

/-- `solve` lines 434-437: the room reconstructed for an event. -/
def chosen_room (c : _Compiled) (σ : Assignment) (e : Event) : String :=
  match (allowedR c e.id).find? (fun rid => σ (Var.y e.id rid) == 1) with
  | some rid => rid
  | none => (allowedR c e.id).headD ""

/-- `solve` lines 439-444: one `ScheduledEvent` per compiled event. -/
def scheduled_events (c : _Compiled) (σ : Assignment) :
    List ScheduledEvent :=
  c.events.map (fun e =>
    { event_id := e.id
      slot := slotAt c (chosen_slot c σ e)
      room_id := chosen_room c σ e })

/-- `solve` lines 428-432: the teacher picked for each key — the first
pool member whose `a` is 1, else the first pool member. -/
def teacher_assignment (c : _Compiled) (σ : Assignment) :
    List (TeacherKey × String) :=
  c.key_pools.map (fun kp =>
    (kp.1,
      match kp.2.find? (fun tid => σ (Var.a kp.1.1 kp.1.2 tid) == 1) with
      | some tid => tid
      | none => kp.2.headD ""))

/-- `solve` lines 458-463: the solution returned for an accepted
assignment. -/
def solve_result (p : TimetableProblem) (c : _Compiled) (σ : Assignment) :
    TimetableSolution :=
  { scheduled := scheduled_events c σ
    teacher_assignment := teacher_assignment c σ
    objective_value := objective_value p c σ
    objective_breakdown := objective_breakdown p c σ }

-- ---------- definitions written from the spec, for comparison ----------

/-- Whether an optional value is set (`≠ None`), regardless of emptiness. -/
def isSet {α : Type} : Option α → Bool
  | none => false
  | some _ => true

/-- The hard-forbidden-period filter, phrased as the spec does: applied
when `forbidden_periods_hard` and the requirement's `forbidden_periods`
is set (filtering by an empty set removes nothing). -/
def forb_filtered (p : TimetableProblem) (req : CourseRequirement) :
    List Slot :=
  p.calendar.teaching_slots.filter (fun s =>
    !(p.config.forbidden_periods_hard && isSet req.forbidden_periods &&
      (req.forbidden_periods.getD []).contains s.period))

/-- Written from the claim (C6), verbatim: the effective pool is
`{teacher_id}` for `FIXED`, else `teacher_pool` whenever it is set (an
explicitly empty pool counts as set), else the teachers that can teach
the subject. -/
def effective_pool_claimed (p : TimetableProblem)
    (req : CourseRequirement) : List String :=
  match req.teacher_policy with
  | TeacherPolicy.FIXED =>
    match req.teacher_id with
    | some tid => [tid]
    | none => []
  | TeacherPolicy.CHOOSE =>
    match req.teacher_pool with
    | some pool => pool
    | none => (p.teachers.filter (fun t =>
        t.can_teach.contains req.subject_id)).map (fun t => t.id)

/-- Written from the claim (C6), amended: an explicitly empty
`teacher_pool` falls back to the derived pool, matching the code's
truthiness test. -/
def effective_pool_spec (p : TimetableProblem)
    (req : CourseRequirement) : List String :=
  match req.teacher_policy with
  | TeacherPolicy.FIXED =>
    match req.teacher_id with
    | some tid => [tid]
    | none => []
  | TeacherPolicy.CHOOSE =>
    match req.teacher_pool with
    | some pool =>
      if pool.isEmpty then
        (p.teachers.filter (fun t =>
          t.can_teach.contains req.subject_id)).map (fun t => t.id)
      else pool
    | none => (p.teachers.filter (fun t =>
        t.can_teach.contains req.subject_id)).map (fun t => t.id)

/-- A slot survives the availability pruning when some teacher of the
pool is available in it (a pool id that names no teacher never is). -/
def pool_filtered (p : TimetableProblem) (pool : List String)
    (slots : List Slot) : List Slot :=
  slots.filter (fun s => pool.any (fun tid =>
    p.teachers.any (fun t => t.id == tid && t.is_available s)))

/-- The claim's (C6) reading of `possible_slots_for(req)`, verbatim. -/
def possible_slots_claimed (p : TimetableProblem)
    (req : CourseRequirement) : List Slot :=
  pool_filtered p (effective_pool_claimed p req) (forb_filtered p req)

/-- The claim's (C6) reading of `possible_slots_for(req)`, amended. -/
def possible_slots_spec (p : TimetableProblem)
    (req : CourseRequirement) : List Slot :=
  pool_filtered p (effective_pool_spec p req) (forb_filtered p req)

/-- Written from the claim (C8), verbatim: preferred-period terms exist
for every requirement whose `preferred_periods` is set, the empty set
included. -/
def pref_terms_claimed (c : _Compiled) : List Var :=
  c.req_by_key.flatMap (fun kr =>
    match kr.2.preferred_periods with
    | none => []
    | some ps => c.slots.enum.flatMap (fun is =>
        if ps.contains is.2.period then []
        else [Var.occ kr.1.1 kr.1.2 is.1]))

/-- Written from the claim (C8), amended: only requirements whose
`preferred_periods` is set and non-empty contribute terms. -/
def pref_terms_amended (c : _Compiled) : List Var :=
  c.req_by_key.flatMap (fun kr =>
    match kr.2.preferred_periods with
    | none => []
    | some ps =>
      if ps.isEmpty then []
      else c.slots.enum.flatMap (fun is =>
        if ps.contains is.2.period then []
        else [Var.occ kr.1.1 kr.1.2 is.1]))

-- ---------- concrete instances used as counterexamples / witnesses ----

/-- The S6 scenario of the spec, exactly as its sentence states it: one
group, one subject, a requirement of 4 periods/week with
`max_consecutive=2` (deserializer defaults elsewhere: `teacher_policy =
FIXED`, no teacher), and a single day of 4 teaching periods. -/
def s6_req : CourseRequirement :=
  { group_id := "G1", subject_id := "MATH", periods_per_week := 4
    max_consecutive := some 2 }

/-- The problem of the S6 scenario. -/
def s6_problem : TimetableProblem :=
  { calendar := { days := ["mon"], periods_per_day := 4 }
    groups := [{ id := "G1", size := 25 }]
    subjects := [{ id := "MATH" }]
    teachers := []
    rooms := []
    requirements := [s6_req] }

/-- A problem whose calendar has no days and `periods_per_day = 0`. -/
def empty_calendar_problem : TimetableProblem :=
  { calendar := { days := [], periods_per_day := 0 }
    groups := [], subjects := [], teachers := [], rooms := []
    requirements := [] }

/-- A requirement referencing a group that does not exist. -/
def orphan_req : CourseRequirement :=
  { group_id := "GHOST", subject_id := "MATH", periods_per_week := 1 }

/-- A problem containing `orphan_req`. -/
def orphan_problem : TimetableProblem :=
  { calendar := { days := ["mon"], periods_per_day := 1 }
    groups := [], subjects := [{ id := "MATH" }], teachers := [], rooms := []
    requirements := [orphan_req] }

/-- A `CHOOSE` requirement with an explicitly empty `teacher_pool`. -/
def pc6_req : CourseRequirement :=
  { group_id := "G1", subject_id := "MATH", periods_per_week := 1
    teacher_policy := TeacherPolicy.CHOOSE, teacher_pool := some [] }

/-- One teacher who can teach `MATH` and is always available, so the
derived pool for `pc6_req` is non-empty. -/
def pc6_problem : TimetableProblem :=
  { calendar := { days := ["mon"], periods_per_day := 1 }
    groups := [{ id := "G1", size := 20 }]
    subjects := [{ id := "MATH" }]
    teachers := [{ id := "T1", can_teach := ["MATH"] }]
    rooms := [{ id := "R1", capacity := 30 }]
    requirements := [pc6_req] }

/-- A requirement whose `preferred_periods` is the empty set. -/
def pc8_req : CourseRequirement :=
  { group_id := "G1", subject_id := "MATH", periods_per_week := 1
    teacher_policy := TeacherPolicy.CHOOSE
    preferred_periods := some [] }

/-- A compilable problem holding `pc8_req`. -/
def pc8_problem : TimetableProblem :=
  { calendar := { days := ["mon"], periods_per_day := 1 }
    groups := [{ id := "G1", size := 20 }]
    subjects := [{ id := "MATH" }]
    teachers := [{ id := "T1", can_teach := ["MATH"] }]
    rooms := [{ id := "R1", capacity := 30 }]
    requirements := [pc8_req] }

/-- The all-empty compiled bundle, used as an `okD` default. -/
def emptyCompiled : _Compiled :=
  { events := [], event_req_key := [], req_by_key := [], slots := []
    slot_index := [], key_pools := [], allowed_slots := [],
    allowed_rooms := [] }

/-- The compiled form of `pc8_problem`. -/
def pc8_compiled : _Compiled := okD (_compile_problem pc8_problem) emptyCompiled

/-- A requirement with a non-empty `preferred_periods`. -/
def pc8b_req : CourseRequirement :=
  { group_id := "G1", subject_id := "MATH", periods_per_week := 1
    teacher_policy := TeacherPolicy.CHOOSE
    preferred_periods := some [1] }

/-- A compilable problem holding `pc8b_req`, with two periods so that
period 2 is penalized. -/
def pc8b_problem : TimetableProblem :=
  { calendar := { days := ["mon"], periods_per_day := 2 }
    groups := [{ id := "G1", size := 20 }]
    subjects := [{ id := "MATH" }]
    teachers := [{ id := "T1", can_teach := ["MATH"] }]
    rooms := [{ id := "R1", capacity := 30 }]
    requirements := [pc8b_req] }

/-- The compiled form of `pc8b_problem`. -/
def pc8b_compiled : _Compiled :=
  okD (_compile_problem pc8b_problem) emptyCompiled

/-- The unit events one requirement expands to. -/
def reqEvents (p : TimetableProblem) (req : CourseRequirement) : List Event :=
  match dget p.index_subjects req.subject_id with
  | some sub =>
    (List.range req.periods_per_week.toNat).map
      (fun idx => event_of req sub (idx + 1))
  | none => []

/-- The compiled bundle assembled from a final fold state. -/
def mkCompiled (p : TimetableProblem) (st : CompileState) : _Compiled :=
  { events := st.events
    event_req_key := st.event_req_key
    req_by_key := st.req_by_key
    slots := p.calendar.teaching_slots
    slot_index := buildSlotIndex p.calendar.teaching_slots
    key_pools := st.key_pools
    allowed_slots := st.allowed_slots
    allowed_rooms := st.allowed_rooms }

/-- Default slot (out-of-range index lookups; never hit for compiled data). -/
def dSlot : Slot := { day := "", period := 0 }

/-- Well-formedness of an `allowed_slots` value: non-empty, in-range
canonical slot indices. -/
def GOODS (p : TimetableProblem) (l : List Nat) : Prop :=
  l ≠ [] ∧ ∀ si ∈ l, si < p.calendar.teaching_slots.length ∧
    dget (buildSlotIndex p.calendar.teaching_slots)
      (p.calendar.teaching_slots.getD si dSlot) = some si

/-- Well-formedness of an `allowed_rooms` value: non-empty ids of rooms
of the problem. -/
def GOODR (p : TimetableProblem) (l : List String) : Prop :=
  l ≠ [] ∧ ∀ rid ∈ l, ∃ r ∈ p.rooms, r.id = rid

/-- The invariant maintained by `_compile_problem`'s requirement loop. -/
def CompInv (p : TimetableProblem) (st : CompileState) : Prop :=
  (∀ eid l, dget st.allowed_slots eid = some l → GOODS p l) ∧
  (∀ eid l, dget st.allowed_rooms eid = some l → GOODR p l) ∧
  (∀ e ∈ st.events, (dget st.allowed_slots e.id).isSome ∧
    (dget st.allowed_rooms e.id).isSome ∧
    ∃ kp ∈ st.key_pools, kp.1 = e.same_teacher_key) ∧
  (∀ kp ∈ st.key_pools, ∃ req ∈ p.requirements,
    dget st.req_by_key kp.1 = some req ∧
    kp.1 = (req.group_id, req.subject_id) ∧ kp.2 = pool_for p req)

/-- First requirement of the C9 counterexample: `CHOOSE` with an
explicitly empty pool while no teacher can teach the subject. -/
def p9_reqA : CourseRequirement :=
  { group_id := "G1", subject_id := "MATH", periods_per_week := 1
    teacher_policy := TeacherPolicy.CHOOSE
    teacher_pool := some [] }

/-- Second requirement of the C9 counterexample: the same
`(group, subject)` key, `FIXED` to the existing teacher `T1`. -/
def p9_reqB : CourseRequirement :=
  { group_id := "G1", subject_id := "MATH", periods_per_week := 1
    teacher_policy := TeacherPolicy.FIXED
    teacher_id := some "T1" }

/-- C9 counterexample problem: two requirements share the key
`("G1", "MATH")`, so the second pool overwrites the first, empty one in
`key_pools`. -/
def p9_problem : TimetableProblem :=
  { calendar := { days := ["mon"], periods_per_day := 2 }
    groups := [{ id := "G1", size := 20 }]
    subjects := [{ id := "MATH" }]
    teachers := [{ id := "T1", can_teach := [] }]
    rooms := [{ id := "R1", capacity := 30 }]
    requirements := [p9_reqA, p9_reqB] }

/-- The bundle `solve_stage1` returns on `p9_problem`. -/
def p9_compiled : _Compiled := okD (solve_stage1 p9_problem) emptyCompiled

/-- C9 witness requirement: an empty pool in a problem whose requirement
keys are trivially distinct. -/
def p9w_req : CourseRequirement :=
  { group_id := "G1", subject_id := "MATH", periods_per_week := 1
    teacher_policy := TeacherPolicy.CHOOSE
    teacher_pool := some [] }

/-- C9 witness problem: compiles (the empty pool leaves the slot domain
unfiltered) but the precheck rejects it. -/
def p9w_problem : TimetableProblem :=
  { calendar := { days := ["mon"], periods_per_day := 2 }
    groups := [{ id := "G1", size := 20 }]
    subjects := [{ id := "MATH" }]
    teachers := []
    rooms := [{ id := "R1", capacity := 30 }]
    requirements := [p9w_req] }

/-- The compiled form of `p9w_problem`. -/
def p9w_compiled : _Compiled :=
  okD (_compile_problem p9w_problem) emptyCompiled

/-- A minimal valid requirement: one period per week, `CHOOSE`. -/
def pw1_req : CourseRequirement :=
  { group_id := "G1", subject_id := "MATH", periods_per_week := 1
    teacher_policy := TeacherPolicy.CHOOSE }

/-- A minimal fully-valid problem holding `pw1_req`. -/
def pw1_problem : TimetableProblem :=
  { calendar := { days := ["mon"], periods_per_day := 1 }
    groups := [{ id := "G1", size := 20 }]
    subjects := [{ id := "MATH" }]
    teachers := [{ id := "T1", can_teach := ["MATH"] }]
    rooms := [{ id := "R1", capacity := 30 }]
    requirements := [pw1_req] }

/-- The compiled form of `pw1_problem`. -/
def pw1_compiled : _Compiled :=
  okD (_compile_problem pw1_problem) emptyCompiled

/-- An assignment satisfying every constraint of the `pw1_problem` model:
all booleans 1, gap and excess variables 0. -/
def pw1_assign : Assignment := fun v =>
  match v with
  | Var.gap _ _ _ => 0
  | Var.excess _ _ _ => 0
  | _ => 1

-- ---------- helper lemmas: dictionary semantics ----------

section DictLemmas
variable {κ ν α : Type} [BEq κ] [LawfulBEq κ]

theorem dget_nil (k : κ) : dget ([] : List (κ × ν)) k = none := rfl

theorem dget_cons (a : κ × ν) (t : List (κ × ν)) (k : κ) :
    dget (a :: t) k = if a.1 == k then some a.2 else dget t k := by
  by_cases h : a.1 == k
  · simp [dget, List.find?_cons_of_pos, h]
  · simp only [Bool.not_eq_true] at h
    simp [dget, List.find?_cons_of_neg, h]

theorem dget_append (m l : List (κ × ν)) (k : κ) :
    dget (m ++ l) k = (dget m k).or (dget l k) := by
  unfold dget
  rw [List.find?_append]
  rcases h : m.find? (fun kv => kv.1 == k) with _ | kv <;> simp [h]

theorem dget_eq_none_of_not_any {m : List (κ × ν)} {k : κ}
    (h : m.any (fun kv => kv.1 == k) = false) : dget m k = none := by
  have hall : ∀ kv ∈ m, ¬((fun kv : κ × ν => kv.1 == k) kv = true) := by
    intro kv hkv hb
    have : m.any (fun kv => kv.1 == k) = true :=
      List.any_eq_true.mpr ⟨kv, hkv, hb⟩
    rw [h] at this
    exact Bool.false_ne_true this
  unfold dget
  rw [List.find?_eq_none.mpr hall]
  rfl

theorem dget_map_repl_self (m : List (κ × ν)) (k : κ) (v : ν) :
    dget (m.map (fun kv => if kv.1 == k then (k, v) else kv)) k =
      if m.any (fun kv => kv.1 == k) then some v else none := by
  induction m with
  | nil => rfl
  | cons a t ih =>
    by_cases h : a.1 == k
    · simp [List.map_cons, if_pos h, dget_cons, h]
    · simp only [Bool.not_eq_true] at h
      rw [List.map_cons]
      have ha : (if a.1 == k then (k, v) else a) = a := by simp [h]
      rw [ha, dget_cons, List.any_cons, h, Bool.false_or]
      simp [ih]
end DictLemmas
section DictLemmas2
variable {κ ν α : Type} [BEq κ] [LawfulBEq κ]

theorem dget_map_repl_ne (m : List (κ × ν)) (k k' : κ) (v : ν)
    (hne : k' ≠ k) :
    dget (m.map (fun kv => if kv.1 == k then (k, v) else kv)) k' =
      dget m k' := by
  induction m with
  | nil => rfl
  | cons a t ih =>
    by_cases h : a.1 == k
    · have ha : a.1 = k := by simpa using h
      have h1 : (k == k') = false := by
        simp only [beq_eq_false_iff_ne]
        exact fun he => hne he.symm
      have h2 : (a.1 == k') = false := by
        rw [ha]; exact h1
      rw [List.map_cons, if_pos h, dget_cons, dget_cons, h1, h2]
      simpa using ih
    · simp only [Bool.not_eq_true] at h
      rw [List.map_cons, if_neg (by simp [h]), dget_cons, dget_cons]
      by_cases h' : a.1 == k'
      · simp [h']
      · simp only [Bool.not_eq_true] at h'
        rw [h']
        simpa using ih

theorem dget_dictInsert_self (m : List (κ × ν)) (k : κ) (v : ν) :
    dget (dictInsert m k v) k = some v := by
  unfold dictInsert
  by_cases h : m.any (fun kv => kv.1 == k) = true
  · rw [if_pos h, dget_map_repl_self, if_pos h]
  · rw [if_neg h, dget_append,
      dget_eq_none_of_not_any (Bool.eq_false_iff.mpr h)]
    simp [dget_cons]

theorem dget_dictInsert_ne (m : List (κ × ν)) (k k' : κ) (v : ν)
    (hne : k' ≠ k) : dget (dictInsert m k v) k' = dget m k' := by
  unfold dictInsert
  by_cases h : m.any (fun kv => kv.1 == k) = true
  · rw [if_pos h, dget_map_repl_ne _ _ _ _ hne]
  · rw [if_neg h, dget_append]
    have h0 : dget [(k, v)] k' = none := by
      have hb : (k == k') = false := by
        simp only [beq_eq_false_iff_ne]
        exact fun he => hne he.symm
      rw [dget_cons]
      simp [hb, dget_nil]
    rw [h0]
    rcases hm : dget m k' with _ | w <;> simp

end DictLemmas2
section DictLemmas3
variable {κ ν α : Type} [BEq κ] [LawfulBEq κ]

theorem dget_dictAppend_self (m : List (κ × List α)) (k : κ) (v : α) :
    dget (dictAppend m k v) k = some ((dget m k).getD [] ++ [v]) := by
  unfold dictAppend
  by_cases h : m.any (fun kv => kv.1 == k) = true
  · rw [if_pos h]
    induction m with
    | nil => simp at h
    | cons a t ih =>
      by_cases ha : a.1 == k
      · have ha' : a.1 = k := by simpa using ha
        rw [List.map_cons, if_pos ha, dget_cons, dget_cons, ha']
        simp
      · simp only [Bool.not_eq_true] at ha
        simp only [List.any_cons, ha, Bool.false_or] at h
        rw [List.map_cons, if_neg (by simp [ha]), dget_cons, dget_cons, ha]
        simpa using ih h
  · rw [if_neg h, dget_append,
      dget_eq_none_of_not_any (Bool.eq_false_iff.mpr h)]
    simp [dget_cons, dget_eq_none_of_not_any (Bool.eq_false_iff.mpr h)]

theorem dget_dictAppend_ne (m : List (κ × List α)) (k k' : κ) (v : α)
    (hne : k' ≠ k) : dget (dictAppend m k v) k' = dget m k' := by
  unfold dictAppend
  by_cases h : m.any (fun kv => kv.1 == k) = true
  · rw [if_pos h]
    induction m with
    | nil => rfl
    | cons a t ih =>
      by_cases ha : a.1 == k
      · have ha' : a.1 = k := by simpa using ha
        have h2 : (a.1 == k') = false := by
          rw [ha']
          simp only [beq_eq_false_iff_ne]
          exact fun he => hne he.symm
        rw [List.map_cons, if_pos ha, dget_cons, dget_cons]
        simp only [h2]
        by_cases ht : t.any (fun kv => kv.1 == k) = true
        · simpa using ih ht
        · have heq : (t.map fun kv =>
              if kv.1 == k then (kv.1, kv.2 ++ [v]) else kv) = t := by
            have : ∀ kv ∈ t, (if kv.1 == k then (kv.1, kv.2 ++ [v]) else kv)
                = kv := by
              intro kv hkv
              have hb : (kv.1 == k) = false := by
                by_cases hb : (kv.1 == k) = true
                · exact absurd (List.any_eq_true.mpr ⟨kv, hkv, hb⟩) ht
                · simpa using hb
              simp [hb]
            rw [List.map_congr_left this]
            exact List.map_id t
          rw [heq]
          simp
      · simp only [Bool.not_eq_true] at ha
        simp only [List.any_cons, ha, Bool.false_or] at h
        rw [List.map_cons, if_neg (by simp [ha]), dget_cons, dget_cons]
        by_cases h' : a.1 == k'
        · simp [h']
        · simp only [Bool.not_eq_true] at h'
          simp only [h']
          simpa using ih h
  · rw [if_neg h, dget_append]
    have h0 : dget [(k, [v])] k' = none := by
      have hb : (k == k') = false := by
        simp only [beq_eq_false_iff_ne]
        exact fun he => hne he.symm
      rw [dget_cons]
      simp [hb, dget_nil]
    rw [h0]
    rcases hm : dget m k' with _ | w <;> simp

end DictLemmas3
section DictLemmas4
variable {κ ν α : Type} [BEq κ] [LawfulBEq κ]

theorem dget_insertFold (key : α → κ) (val : α → ν) :
    ∀ (l : List α) (m : List (κ × ν)) (k : κ),
    dget (l.foldl (fun m a => dictInsert m (key a) (val a)) m) k =
      match l.reverse.find? (fun a => key a == k) with
      | some a => some (val a)
      | none => dget m k := by
  intro l
  induction l with
  | nil => intro m k; rfl
  | cons a t ih =>
    intro m k
    rw [List.foldl_cons, ih, List.reverse_cons, List.find?_append]
    rcases hf : t.reverse.find? (fun a => key a == k) with _ | b
    · by_cases hk : key a == k
      · have : List.find? (fun a => key a == k) [a] = some a := by
          simp [List.find?_cons_of_pos, hk]
        rw [this]
        simp only [Option.none_or]
        have hk' : key a = k := by simpa using hk
        rw [← hk']
        exact dget_dictInsert_self m (key a) (val a)
      · simp only [Bool.not_eq_true] at hk
        have : List.find? (fun a => key a == k) [a] = none := by
          simp [List.find?_cons_of_neg, hk]
        rw [this]
        simp only [Option.none_or]
        exact dget_dictInsert_ne m (key a) k (val a)
          (fun he => by simp [he] at hk)
    · simp [hf]

theorem dget_groupFold (key : α → κ) (val : α → ν) :
    ∀ (l : List α) (m : List (κ × List ν)) (k : κ),
    dget (l.foldl (fun m a => dictAppend m (key a) (val a)) m) k =
      match dget m k with
      | some vs => some (vs ++ (l.filter (fun a => key a == k)).map val)
      | none => if l.any (fun a => key a == k)
          then some ((l.filter (fun a => key a == k)).map val) else none := by
  intro l
  induction l with
  | nil =>
    intro m k
    rcases h : dget m k with _ | vs <;> simp [h]
  | cons a t ih =>
    intro m k
    rw [List.foldl_cons, ih]
    by_cases hk : key a == k
    · have hk' : key a = k := by simpa using hk
      rw [← hk', dget_dictAppend_self m (key a) (val a), hk']
      rcases h : dget m k with _ | vs
      · simp [h, List.filter_cons, hk, List.any_cons]
      · simp [h, List.filter_cons, hk, List.any_cons]
    · simp only [Bool.not_eq_true] at hk
      rw [dget_dictAppend_ne m (key a) k (val a)
        (fun he => by simp [he] at hk)]
      rcases h : dget m k with _ | vs
      · simp only [List.any_cons, hk, Bool.false_or, List.filter_cons]
        simp [hk]
      · simp only [List.filter_cons, hk]
        simp [hk]

theorem find?_reverse_nodupkeys (key : α → κ) :
    ∀ (l : List α), (l.map key).Nodup → ∀ k,
      l.reverse.find? (fun a => key a == k) =
        l.find? (fun a => key a == k) := by
  intro l
  induction l with
  | nil => intro _ _; rfl
  | cons a t ih =>
    intro hn k
    simp only [List.map_cons, List.nodup_cons] at hn
    rw [List.reverse_cons, List.find?_append]
    by_cases hk : key a == k
    · have hk' : key a = k := by simpa using hk
      have hnone : t.reverse.find? (fun a => key a == k) = none := by
        rw [List.find?_eq_none]
        intro b hb hbk
        have hbk' : key b = k := by simpa using hbk
        apply hn.1
        rw [hk', ← hbk']
        exact List.mem_map_of_mem key (List.mem_reverse.mp hb)
      rw [hnone, Option.none_or,
        List.find?_cons_of_pos (p := fun a => key a == k) _ hk]
      simp [List.find?_cons_of_pos, hk]
    · have hk0 : (key a == k) = false := by simpa using hk
      have h1 : List.find? (fun a => key a == k) [a] = none := by
        rw [List.find?_eq_none]
        intro b hb
        have : b = a := by simpa using hb
        simp [this, hk0]
      rw [ih hn.2 k, h1, Option.or_none,
        List.find?_cons_of_neg (p := fun a => key a == k) _ (by simp [hk0])]

theorem find?_key_eq_some (key : α → κ) :
    ∀ (l : List α), (l.map key).Nodup → ∀ a ∈ l, ∀ k, key a = k →
      l.find? (fun x => key x == k) = some a := by
  intro l
  induction l with
  | nil => intro _ a ha; exact absurd ha (List.not_mem_nil a)
  | cons b t ih =>
    intro hn a ha k hk
    simp only [List.map_cons, List.nodup_cons] at hn
    rcases List.mem_cons.mp ha with hab | hat
    · subst hab
      exact List.find?_cons_of_pos _ (by simp [hk])
    · by_cases hbk : key b == k
      · exfalso
        apply hn.1
        have : key b = k := by simpa using hbk
        rw [this, ← hk]
        exact List.mem_map_of_mem key hat
      · have hbk0 : (key b == k) = false := by simpa using hbk
        rw [List.find?_cons_of_neg _ (by simp [hbk0])]
        exact ih hn.2 a hat k hk

end DictLemmas4

-- ---------- helper lemmas: sums of 0/1 variables ----------

section SumLemmas
variable {α : Type} [DecidableEq α]

theorem sum_nonneg_of_mem (f : α → Int) (l : List α)
    (h : ∀ a ∈ l, 0 ≤ f a) : 0 ≤ (l.map f).sum := by
  induction l with
  | nil => simp
  | cons x t ih =>
    simp only [List.map_cons, List.sum_cons]
    have := h x (List.mem_cons_self x t)
    have ht := ih (fun a ha => h a (List.mem_cons_of_mem x ha))
    omega

theorem single_le_sum_of_mem (f : α → Int) (l : List α)
    (h : ∀ a ∈ l, 0 ≤ f a) (a : α) (ha : a ∈ l) : f a ≤ (l.map f).sum := by
  induction l with
  | nil => exact absurd ha (List.not_mem_nil a)
  | cons x t ih =>
    simp only [List.map_cons, List.sum_cons]
    rcases List.mem_cons.mp ha with rfl | hat
    · have := sum_nonneg_of_mem f t (fun b hb => h b (List.mem_cons_of_mem a hb))
      omega
    · have hx := h x (List.mem_cons_self x t)
      have := ih (fun b hb => h b (List.mem_cons_of_mem x hb)) hat
      omega

theorem exists_eq_one_of_sum_eq_one (f : α → Int) (l : List α)
    (h01 : ∀ a ∈ l, f a = 0 ∨ f a = 1) (hs : (l.map f).sum = 1) :
    ∃ a ∈ l, f a = 1 := by
  by_contra hno
  push_neg at hno
  have : (l.map f).sum = 0 := by
    apply List.sum_eq_zero
    intro x hx
    rcases List.mem_map.mp hx with ⟨a, ha, rfl⟩
    rcases h01 a ha with h | h
    · exact h
    · exact absurd h (hno a ha)
  omega

theorem two_le_sum_of_two_mem (f : α → Int) (l : List α)
    (h0 : ∀ a ∈ l, 0 ≤ f a) (a b : α) (ha : a ∈ l) (hb : b ∈ l)
    (hab : a ≠ b) (hfa : f a = 1) (hfb : f b = 1) : 2 ≤ (l.map f).sum := by
  induction l with
  | nil => exact absurd ha (List.not_mem_nil a)
  | cons x t ih =>
    simp only [List.map_cons, List.sum_cons]
    rcases List.mem_cons.mp ha with rfl | hat
    · have hbt : b ∈ t := by
        rcases List.mem_cons.mp hb with rfl | h
        · exact absurd rfl hab
        · exact h
      have := single_le_sum_of_mem f t
        (fun c hc => h0 c (List.mem_cons_of_mem a hc)) b hbt
      omega
    · rcases List.mem_cons.mp hb with rfl | hbt
      · have := single_le_sum_of_mem f t
          (fun c hc => h0 c (List.mem_cons_of_mem b hc)) a hat
        omega
      · have hx := h0 x (List.mem_cons_self x t)
        have := ih (fun c hc => h0 c (List.mem_cons_of_mem x hc)) hat hbt
        omega

theorem two_le_sum_of_count (f : α → Int) (l : List α)
    (h0 : ∀ a ∈ l, 0 ≤ f a) (a : α) (hc : 2 ≤ l.count a) (hfa : f a = 1) :
    2 ≤ (l.map f).sum := by
  induction l with
  | nil => simp at hc
  | cons x t ih =>
    simp only [List.map_cons, List.sum_cons]
    by_cases hxa : x = a
    · subst hxa
      rw [List.count_cons_self] at hc
      have hmem : x ∈ t := by
        have : 0 < t.count x := by omega
        exact List.count_pos_iff_mem.mp this
      have := single_le_sum_of_mem f t
        (fun c hc => h0 c (List.mem_cons_of_mem x hc)) x hmem
      omega
    · rw [List.count_cons_of_ne (fun h => hxa h.symm)] at hc
      have hx := h0 x (List.mem_cons_self x t)
      have := ih (fun c hc => h0 c (List.mem_cons_of_mem x hc)) hc
      omega

theorem eq_of_ones_of_sum_le_one (f : α → Int) (l : List α)
    (h0 : ∀ a ∈ l, 0 ≤ f a) (hs : (l.map f).sum ≤ 1) (a b : α)
    (ha : a ∈ l) (hb : b ∈ l) (hfa : f a = 1) (hfb : f b = 1) : a = b := by
  by_contra hab
  have := two_le_sum_of_two_mem f l h0 a b ha hb hab hfa hfb
  omega

theorem two_le_count_of_getD (l : List α) (d : α) :
    ∀ i j, i < l.length → j < l.length → i ≠ j →
      l.getD i d = l.getD j d → 2 ≤ l.count (l.getD i d) := by
  induction l with
  | nil => intro i j hi; simp at hi
  | cons x t ih =>
    intro i j hi hj hij heq
    match i, j with
    | 0, 0 => exact absurd rfl hij
    | 0, jj + 1 =>
      rw [List.getD_cons_zero] at heq ⊢
      rw [List.getD_cons_succ] at heq
      have hjj : jj < t.length := by simpa using hj
      have hmem : t.getD jj d ∈ t := by
        rw [List.getD_eq_getElem t d hjj]
        exact List.getElem_mem hjj
      rw [← heq] at hmem
      rw [List.count_cons_self]
      have : 0 < t.count x := List.count_pos_iff_mem.mpr hmem
      omega
    | ii + 1, 0 =>
      rw [List.getD_cons_zero] at heq
      rw [List.getD_cons_succ] at heq ⊢
      have hii : ii < t.length := by simpa using hi
      have hmem : t.getD ii d ∈ t := by
        rw [List.getD_eq_getElem t d hii]
        exact List.getElem_mem hii
      rw [heq] at hmem ⊢
      rw [List.count_cons_self]
      have : 0 < t.count x := List.count_pos_iff_mem.mpr hmem
      omega
    | ii + 1, jj + 1 =>
      rw [List.getD_cons_succ] at heq ⊢
      have h2 := ih ii jj (by simpa using hi) (by simpa using hj)
        (by omega) heq
      calc 2 ≤ t.count (t.getD ii d) := h2
        _ ≤ (x :: t).count (t.getD ii d) := by
          rw [List.count_cons]
          omega

end SumLemmas

-- ---------- helper lemmas: index lookups ----------

theorem any_congr' {α : Type} (p q : α → Bool) :
    ∀ (l : List α), (∀ x ∈ l, p x = q x) → l.any p = l.any q := by
  intro l
  induction l with
  | nil => intro _; rfl
  | cons a t ih =>
    intro h
    simp only [List.any_cons]
    rw [h a (List.mem_cons_self a t),
      ih (fun x hx => h x (List.mem_cons_of_mem a hx))]

theorem dget_index_teachers (p : TimetableProblem) (tid : String) :
    dget p.index_teachers tid =
      p.teachers.reverse.find? (fun t => t.id == tid) := by
  have h := dget_insertFold (fun t : Teacher => t.id) (fun t => t)
    p.teachers [] tid
  rw [TimetableProblem.index_teachers, h]
  rcases hf : p.teachers.reverse.find? (fun t => t.id == tid) with _ | t
  · rw [hf]; rfl
  · rw [hf]

theorem dget_index_teachers_nodup (p : TimetableProblem)
    (hn : (p.teachers.map (fun t => t.id)).Nodup) (tid : String) :
    dget p.index_teachers tid =
      p.teachers.find? (fun t => t.id == tid) := by
  rw [dget_index_teachers,
    find?_reverse_nodupkeys (fun t : Teacher => t.id) p.teachers hn tid]

theorem any_of_find?_none {α : Type} (key : α → String) (f : α → Bool)
    (l : List α) (k : String)
    (h : l.find? (fun a => key a == k) = none) :
    l.any (fun a => key a == k && f a) = false := by
  have hall := List.find?_eq_none.mp h
  rw [List.any_eq_false]
  intro b hb
  simp only [Bool.and_eq_true, not_and]
  intro hbk
  exact absurd hbk (by simpa using hall b hb)

theorem any_of_find?_some {α : Type} (key : α → String) (f : α → Bool)
    (l : List α) (hn : (l.map key).Nodup) (k : String) (a : α)
    (h : l.find? (fun a => key a == k) = some a) :
    l.any (fun a => key a == k && f a) = f a := by
  by_cases hf : f a = true
  · rw [hf, List.any_eq_true]
    exact ⟨a, List.mem_of_find?_eq_some h,
      by simp [List.find?_some h, hf]⟩
  · have hf' : f a = false := by simpa using hf
    rw [hf', List.any_eq_false]
    intro b hb
    simp only [Bool.and_eq_true, not_and]
    intro hbk hfb
    have hbk' : key b = k := by simpa using hbk
    have hsome := find?_key_eq_some key l hn b hb k hbk'
    rw [h] at hsome
    have hba : a = b := by injection hsome
    rw [← hba] at hfb
    exact hf hfb

theorem code_forb_eq_spec (p : TimetableProblem) (req : CourseRequirement) :
    (if p.config.forbidden_periods_hard && listTruthy req.forbidden_periods
     then p.calendar.teaching_slots.filter (fun s =>
       !(req.forbidden_periods.getD []).contains s.period)
     else p.calendar.teaching_slots) = forb_filtered p req := by
  unfold forb_filtered
  by_cases hh : p.config.forbidden_periods_hard
  · rcases hfp : req.forbidden_periods with _ | ps
    · simp [hh, hfp, listTruthy, isSet]
    · rcases ps with _ | ⟨x, xs⟩
      · simp [hh, hfp, listTruthy, isSet]
      · rw [if_pos (by simp [hh, hfp, listTruthy])]
        apply List.filter_congr
        intro s hs
        simp [hfp, isSet, hh]
  · simp [hh]


-- ---------- helper lemmas: objective breakdown lookups ----------

theorem dget_breakdown_pair (σ : Assignment)
    (xs : List (String × Int × List Var)) (k : String) :
    dget (xs.map (fun f => (f.1, sumV σ f.2.2))) k =
      (xs.find? (fun f => f.1 == k)).map (fun f => sumV σ f.2.2) := by
  unfold dget
  rw [List.find?_map]
  have hcomp : ((fun kv : String × Int => kv.1 == k) ∘
      (fun f : String × Int × List Var => (f.1, sumV σ f.2.2))) =
      (fun f : String × Int × List Var => f.1 == k) := by
    funext f
    rfl
  rw [hcomp]
  rcases h : xs.find? (fun f => f.1 == k) with _ | a
  · rw [h]
    rfl
  · rw [h]
    rfl

theorem breakdown_lookup (p : TimetableProblem) (c : _Compiled)
    (σ : Assignment) (f : String × Int × List Var)
    (hf : f ∈ objective_terms p c) :
    dget (objective_breakdown p c σ) f.1 = some (sumV σ f.2.2) := by
  have hmemfam : f ∈ objective_families p c :=
    List.mem_of_mem_filter hf
  have hcond := List.of_mem_filter hf
  simp only [Bool.and_eq_true] at hcond
  have hpres : f ∈ (objective_families p c).filter
      (fun f => !f.2.2.isEmpty) :=
    List.mem_filter.mpr ⟨hmemfam, hcond.1⟩
  have hnodfam : ((objective_families p c).map (fun f => f.1)).Nodup := by
    simp [objective_families]
  have hnod : (((objective_families p c).filter
      (fun f => !f.2.2.isEmpty)).map (fun f => f.1)).Nodup :=
    List.Nodup.sublist ((List.filter_sublist _).map _) hnodfam
  unfold objective_breakdown
  rw [dget_breakdown_pair σ _ f.1,
    find?_key_eq_some (fun f => f.1) _ hnod f hpres f.1 rfl]
  rfl


-- ---------- claims ----------

/-- C10: a room payload entry that omits `"capacity"` deserializes to a
`Room` of capacity 9999 — not an error and not 0 — so it passes the
validator's `capacity <= 0` check and satisfies the compiler's
`capacity ≥ group.size` filter for every group of size at most 9999. -/
theorem C10_room_capacity_default (d : RoomDict) (h : d.capacity = none) :
    (room_from_dict d).capacity = 9999 ∧
    ¬((room_from_dict d).capacity ≤ 0) ∧
    (∀ size : Int, size ≤ 9999 → (room_from_dict d).capacity ≥ size) := by
  refine ⟨?_, ?_, ?_⟩
  · simp [room_from_dict, h]
  · simp [room_from_dict, h]
  · intro size hs
    simp only [room_from_dict, h, Option.getD_none]
    omega

/-- Witness for C10 at a payload entry with only an id. -/
theorem C10_room_capacity_default_witness :
    (room_from_dict { id := "R9" }).capacity = 9999 ∧
    ¬((room_from_dict { id := "R9" }).capacity ≤ 0) ∧
    (∀ size : Int, size ≤ 9999 →
      (room_from_dict { id := "R9" }).capacity ≥ size) :=
  C10_room_capacity_default { id := "R9" } rfl

/-- C3: on the S6 instance — one group, one subject, a requirement of 4
periods/week with `max_consecutive=2`, and a single available day of 4
periods — the non-strict validator reports `ok = false` (the errors it
emits are the missing fixed teacher and the missing compatible room). -/
theorem C3_s6_validator_rejects :
    (validate_problem s6_problem).ok = false := by decide

/-- C4 counterexample: on a problem with empty `calendar.days` and
`periods_per_day = 0`, the validator reports only the empty-days error;
the `periods_per_day` error the claim promises is absent, because
`_validate_calendar` returns immediately after the empty-days error. -/
theorem C4_counterexample :
    (validate_problem empty_calendar_problem).errors =
      ["Calendar.days está vacío."] ∧
    "Calendar.periods_per_day debe ser > 0 (actual: 0)." ∉
      (validate_problem empty_calendar_problem).errors := by decide

/-- C4 amended: the five validator check groups always all run and their
errors accumulate in order; but inside the calendar group an empty
`days` list short-circuits every other calendar check, and inside the
requirements group a requirement whose group (or subject) is unknown
reports only that reference error, skipping its remaining checks. -/
theorem C4_validator_accumulates (p : TimetableProblem) :
    (validate_problem p).errors =
      (_validate_calendar p.calendar).1 ++ _validate_uniqueness p ++
      (_validate_entities p).1 ++ (_validate_requirements p).1 ++
      (_validate_capacity_sanity p).1 ∧
    (p.calendar.days = [] →
      _validate_calendar p.calendar = (["Calendar.days está vacío."], [])) ∧
    (∀ req ∈ p.requirements, dget p.index_groups req.group_id = none →
      requirement_checks p req =
        (["Requirement referencia group_id desconocido " ++
          q req.group_id ++ "."], [])) := by
  refine ⟨rfl, ?_, ?_⟩
  · intro h
    simp [_validate_calendar, h]
  · intro req hreq h
    simp [requirement_checks, h]

/-- C6 counterexample: for the `CHOOSE` requirement with an explicitly
empty `teacher_pool` in `pc6_problem`, the code keeps the slot (the empty
tuple is falsy, so the derived pool `[T1]` is used), while the claim's
reading — `teacher_pool` if set — leaves an empty pool and so no possible
slot. -/
theorem C6_possible_slots_claim_false :
    _possible_slots_for_requirement pc6_problem pc6_req =
      [{ day := "mon", period := 1 }] ∧
    possible_slots_claimed pc6_problem pc6_req = [] := by decide

/-- C6 amended: for every problem whose teacher ids are distinct and
every requirement whose `FIXED` teacher id is set and resolves,
`possible_slots_for(req)` equals the teaching slots minus hard-forbidden
periods minus the slots at which no teacher of the effective pool is
available, where the effective pool is `{teacher_id}` for `FIXED`, else
`teacher_pool` when set and non-empty, else every teacher that can teach
the subject. -/
theorem C6_possible_slots_amended (p : TimetableProblem) (req : CourseRequirement)
    (hn : (p.teachers.map (fun t => t.id)).Nodup)
    (hfix : req.teacher_policy = TeacherPolicy.FIXED →
      strTruthy req.teacher_id = true ∧
      ∃ t ∈ p.teachers, t.id = strVal req.teacher_id) :
    _possible_slots_for_requirement p req = possible_slots_spec p req := by
  simp only [_possible_slots_for_requirement, possible_slots_spec,
    pool_filtered]
  rw [code_forb_eq_spec p req]
  cases hpol : req.teacher_policy
  case FIXED =>
    obtain ⟨htr, t₀, ht₀m, ht₀id⟩ := hfix hpol
    rcases hti : req.teacher_id with _ | tid
    · rw [hti] at htr
      simp [strTruthy] at htr
    · rw [hti] at htr ht₀id
      have ht₀id' : t₀.id = tid := ht₀id
      rw [if_pos (by rw [htr]; decide)]
      have hfind : p.teachers.find? (fun t => t.id == tid) = some t₀ :=
        find?_key_eq_some (fun t => t.id) p.teachers hn t₀ ht₀m tid ht₀id'
      have hsv : strVal (some tid) = tid := rfl
      rw [hsv, dget_index_teachers_nodup p hn, hfind]
      have hpool : effective_pool_spec p req = [tid] := by
        unfold effective_pool_spec
        rw [hpol, hti]
      rw [hpool]
      apply List.filter_congr
      intro s hs
      simp only [List.any_cons, List.any_nil, Bool.or_false]
      rw [any_of_find?_some (fun t => t.id) (fun t => t.is_available s)
        p.teachers hn tid t₀ hfind]
  case CHOOSE =>
    have h1 : (TeacherPolicy.CHOOSE == TeacherPolicy.FIXED) = false := by
      decide
    rw [if_neg (by rw [h1, Bool.false_and]; exact Bool.false_ne_true),
      if_pos (by decide)]
    have hpool : (match req.teacher_pool with
        | some tp => if !tp.isEmpty then tp
            else (p.teachers.filter (fun t =>
              t.can_teach.contains req.subject_id)).map (fun t => t.id)
        | none => (p.teachers.filter (fun t =>
            t.can_teach.contains req.subject_id)).map (fun t => t.id)) =
        effective_pool_spec p req := by
      unfold effective_pool_spec
      rw [hpol]
      rcases htp : req.teacher_pool with _ | tp
      · rfl
      · rcases htpe : tp.isEmpty with _ | _ <;> simp [htpe]
    rw [hpool]
    apply List.filter_congr
    intro s hs
    apply any_congr'
    intro tid htid
    rw [dget_index_teachers_nodup p hn tid]
    rcases h2 : p.teachers.find? (fun t => t.id == tid) with _ | t
    · rw [any_of_find?_none (fun t => t.id) (fun t => t.is_available s)
        p.teachers tid h2]
      simp only [h2]
    · rw [any_of_find?_some (fun t => t.id) (fun t => t.is_available s)
        p.teachers hn tid t h2]
      simp only [h2]


/-- Witness for C6 at `pc6_problem`. -/
theorem C6_possible_slots_amended_witness :
    _possible_slots_for_requirement pc6_problem pc6_req =
      possible_slots_spec pc6_problem pc6_req :=
  C6_possible_slots_amended pc6_problem pc6_req (by decide)
    (fun h => absurd h (by decide))


/-- C8 counterexample: `pc8_req` has `preferred_periods` set to the empty
set, yet the code emits no preferred-period term (the empty frozenset is
falsy and the requirement is skipped), while the claim's reading emits one
term per slot; the weight is non-zero and no `preferred_period_penalty`
objective term exists. -/
theorem C8_pref_terms_claim_false :
    pref_terms pc8_problem pc8_compiled = [] ∧
    pref_terms_claimed pc8_compiled ≠ [] ∧
    pc8_problem.config.weights.preferred_period_penalty ≠ 0 ∧
    (∀ f ∈ objective_terms pc8_problem pc8_compiled,
      f.1 ≠ "preferred_period_penalty") := by decide

/-- C8 amended: preferred-period terms are emitted exactly for the
requirements whose `preferred_periods` is set AND NON-EMPTY — one `occ`
term per slot whose period is not preferred — and when any such term
exists and the weight is non-zero, the `preferred_period_penalty` family
is one of the emitted objective terms. -/
theorem C8_pref_terms_amended (p : TimetableProblem) (c : _Compiled) :
    pref_terms p c = pref_terms_amended c ∧
    (pref_terms p c ≠ [] → p.config.weights.preferred_period_penalty ≠ 0 →
      ("preferred_period_penalty", p.config.weights.preferred_period_penalty,
        pref_terms p c) ∈ objective_terms p c) := by
  constructor
  · unfold pref_terms pref_terms_amended
    apply congrArg (fun f => c.req_by_key.flatMap f)
    funext kr
    rcases kr.2.preferred_periods with _ | ps
    · rfl
    · rcases ps with _ | ⟨x, xs⟩
      · rfl
      · rfl
  · intro hne hw
    apply List.mem_filter.mpr
    constructor
    · simp [objective_terms, objective_families]
    · simp only [Bool.and_eq_true, Bool.not_eq_true']
      constructor
      · simpa using hne
      · simpa using hw

/-- Witness for C8 at `pc8b_problem` (preferred periods `{1}` of 2). -/
theorem C8_pref_terms_amended_witness :
    pref_terms pc8b_problem pc8b_compiled =
      pref_terms_amended pc8b_compiled ∧
    ("preferred_period_penalty", 1,
      pref_terms pc8b_problem pc8b_compiled) ∈
        objective_terms pc8b_problem pc8b_compiled :=
  ⟨(C8_pref_terms_amended pc8b_problem pc8b_compiled).1,
   (C8_pref_terms_amended pc8b_problem pc8b_compiled).2 (by decide)
     (by decide)⟩

/-- C2: `objective_value` is non-null iff at least one objective term was
emitted (non-empty variable list, non-zero weight); when non-null it
equals the sum over emitted terms of the term's weight times that term's
value in `objective_breakdown`; and `objective_breakdown` holds exactly
the present terms (families with a non-empty variable list). -/
theorem C2_objective_consistency (p : TimetableProblem) (c : _Compiled) (σ : Assignment) :
    (objective_value p c σ = none ↔ objective_terms p c = []) ∧
    (∀ v, objective_value p c σ = some v →
      v = ((objective_terms p c).map (fun f =>
        f.2.1 * ((dget (objective_breakdown p c σ) f.1).getD 0))).sum) ∧
    ((objective_breakdown p c σ).map (fun kv => kv.1) =
      ((objective_families p c).filter (fun f => !f.2.2.isEmpty)).map
        (fun f => f.1)) := by
  refine ⟨?_, ?_, ?_⟩
  · unfold objective_value
    rcases h : (objective_terms p c).isEmpty with _ | _
    · rw [if_neg (show ¬(false = true) from Bool.false_ne_true)]
      constructor
      · intro hx; exact absurd hx (by simp)
      · intro hx
        rw [hx] at h
        simp at h
    · rw [if_pos rfl]
      constructor
      · intro _; exact List.isEmpty_iff.mp h
      · intro _; rfl
  · intro v hv
    unfold objective_value at hv
    rcases h : (objective_terms p c).isEmpty with _ | _
    · rw [h] at hv
      rw [if_neg (show ¬(false = true) from Bool.false_ne_true)] at hv
      have hv' : v = ((objective_terms p c).map
          (fun f => f.2.1 * sumV σ f.2.2)).sum := by
        injection hv with hv
        exact hv.symm
      rw [hv']
      apply congrArg
      apply List.map_congr_left
      intro f hf
      rw [breakdown_lookup p c σ f hf]
      rfl
    · rw [h] at hv
      rw [if_pos rfl] at hv
      exact absurd hv (by simp)
  · unfold objective_breakdown
    rw [List.map_map]
    rfl


/-- Witness for C2 at `pc8b_problem` under the all-zero assignment. -/
theorem C2_objective_consistency_witness :
    (0 : Int) = ((objective_terms pc8b_problem pc8b_compiled).map (fun f =>
      f.2.1 * ((dget (objective_breakdown pc8b_problem pc8b_compiled
        (fun _ => 0)) f.1).getD 0))).sum :=
  (C2_objective_consistency pc8b_problem pc8b_compiled
    (fun _ => 0)).2.1 0 (by decide)

/-- Witness for C4 at the empty-calendar and orphan-requirement
problems. -/
theorem C4_validator_accumulates_witness :
    _validate_calendar empty_calendar_problem.calendar =
      (["Calendar.days está vacío."], []) ∧
    requirement_checks orphan_problem orphan_req =
      (["Requirement referencia group_id desconocido " ++
        q "GHOST" ++ "."], []) :=
  ⟨(C4_validator_accumulates empty_calendar_problem).2.1 rfl,
   (C4_validator_accumulates orphan_problem).2.2 orphan_req
     (List.mem_singleton.mpr rfl) (by decide)⟩

end AppHorarios

namespace AppHorarios

theorem foldlM_except_ok {ε σ α : Type} (step : σ → α → Except ε σ)
    (l : List α) (P : σ → Prop)
    (hstep : ∀ s a, a ∈ l → P s → ∀ s', step s a = Except.ok s' → P s') :
    ∀ (s s' : σ), P s → l.foldlM step s = Except.ok s' → P s' := by
  induction l with
  | nil =>
    intro s s' hP hfold
    simp only [List.foldlM_nil] at hfold
    injection hfold with h
    rw [← h]
    exact hP
  | cons a t ih =>
    intro s s' hP hfold
    simp only [List.foldlM_cons] at hfold
    rcases h1 : step s a with e | s1
    · rw [h1] at hfold
      exact Except.noConfusion hfold
    · rw [h1] at hfold
      exact ih (fun s a ha => hstep s a (List.mem_cons_of_mem _ ha)) s1 s'
        (hstep s a (List.mem_cons_self a t) hP s1 h1) hfold

theorem foldlM_except_run {ε σ α : Type} (step : σ → α → Except ε σ)
    (l : List α) :
    ∀ (s s' : σ), l.foldlM step s = Except.ok s' →
      ∀ a ∈ l, ∃ u u', step u a = Except.ok u' := by
  induction l with
  | nil => intro s s' _ a ha; exact absurd ha (List.not_mem_nil a)
  | cons b t ih =>
    intro s s' hfold a ha
    simp only [List.foldlM_cons] at hfold
    rcases h1 : step s b with e | s1
    · rw [h1] at hfold
      exact Except.noConfusion hfold
    · rw [h1] at hfold
      rcases List.mem_cons.mp ha with rfl | hat
      · exact ⟨s, s1, h1⟩
      · exact ih s1 s' hfold a hat

section MemDict
variable {κ ν : Type} [BEq κ] [LawfulBEq κ]

theorem mem_dictInsert (m : List (κ × ν)) (k : κ) (v : ν)
    (kp : κ × ν) (h : kp ∈ dictInsert m k v) :
    kp = (k, v) ∨ (kp ∈ m ∧ ¬((kp.1 == k) = true)) := by
  unfold dictInsert at h
  by_cases hany : m.any (fun kv => kv.1 == k) = true
  · rw [if_pos hany] at h
    rcases List.mem_map.mp h with ⟨kv, hkv, heq⟩
    by_cases hb : kv.1 == k
    · left
      rw [← heq, if_pos hb]
    · right
      rw [← heq, if_neg hb]
      exact ⟨hkv, hb⟩
  · rw [if_neg hany] at h
    rcases List.mem_append.mp h with hm | hs
    · right
      refine ⟨hm, ?_⟩
      intro hb
      exact hany (List.any_eq_true.mpr ⟨kp, hm, hb⟩)
    · left
      simpa using hs

theorem mem_of_dget (m : List (κ × ν)) (k : κ) (v : ν)
    (h : dget m k = some v) : (k, v) ∈ m := by
  unfold dget at h
  rcases hf : m.find? (fun kv => kv.1 == k) with _ | kv
  · rw [hf] at h
    simp at h
  · rw [hf] at h
    have h2 : kv.2 = v := by injection h
    clear h
    have h1 : kv.1 = k := by simpa using List.find?_some hf
    have h3 : kv = (k, v) := by
      rcases kv with ⟨a, b⟩
      simp only at h1 h2
      rw [h1, h2]
    rw [← h3]
    exact List.mem_of_find?_eq_some hf

theorem dget_isSome_of_key_mem (m : List (κ × ν)) (k : κ)
    (h : ∃ kp ∈ m, kp.1 = k) : (dget m k).isSome := by
  rcases h with ⟨kp, hm, hk⟩
  unfold dget
  rcases hf : m.find? (fun kv => kv.1 == k) with _ | kv
  · have := List.find?_eq_none.mp hf kp hm
    simp [hk] at this
  · rw [hf]
    rfl

theorem key_mem_dictInsert_mono (m : List (κ × ν)) (k k0 : κ) (v : ν)
    (h : ∃ kp ∈ m, kp.1 = k0) :
    ∃ kp ∈ dictInsert m k v, kp.1 = k0 := by
  by_cases hk : k0 = k
  · subst hk
    refine ⟨(k0, v), ?_, rfl⟩
    exact mem_of_dget _ _ _ (dget_dictInsert_self m k0 v)
  · have h1 := dget_isSome_of_key_mem m k0 h
    rcases ho : dget m k0 with _ | v0
    · rw [ho] at h1
      simp at h1
    · have : dget (dictInsert m k v) k0 = some v0 := by
        rw [dget_dictInsert_ne m k k0 v hk, ho]
      exact ⟨(k0, v0), mem_of_dget _ _ _ this, rfl⟩

theorem dget_dictInsert_isSome_mono (m : List (κ × ν)) (k k0 : κ) (v : ν)
    (h : (dget m k0).isSome) : (dget (dictInsert m k v) k0).isSome := by
  by_cases hk : k0 = k
  · subst hk
    rw [dget_dictInsert_self]
    rfl
  · rw [dget_dictInsert_ne m k k0 v hk]
    exact h

end MemDict

end AppHorarios

namespace AppHorarios


theorem compile_inst_ok (p : TimetableProblem) (six : List (Slot × Nat))
    (sl : List Slot) (req : CourseRequirement) (sub : Subject)
    (st st' : CompileState) (i : Nat)
    (h : compile_inst p six sl req sub st i = Except.ok st') :
    ∃ rids poss,
      rooms_for p req.group_id req.subject_id = Except.ok rids ∧
      rids ≠ [] ∧
      possible_slots_for p sl req (pool_for p req) = Except.ok poss ∧
      poss ≠ [] ∧
      st' = { st with
        events := st.events ++ [event_of req sub i]
        event_req_key := dictInsert st.event_req_key (event_id_of req i)
          (req.group_id, req.subject_id)
        allowed_rooms := dictInsert st.allowed_rooms (event_id_of req i) rids
        allowed_slots := dictInsert st.allowed_slots (event_id_of req i)
          (poss.map (fun s => (dget six s).getD 0)) } := by
  unfold compile_inst at h
  rcases hr : rooms_for p req.group_id req.subject_id with msg | rids
  · rw [hr] at h
    exact Except.noConfusion h
  · rw [hr] at h
    dsimp only at h
    rcases hre : rids.isEmpty with _ | _
    · rw [hre] at h
      rw [if_neg (show ¬(false = true) from Bool.false_ne_true)] at h
      rcases hp : possible_slots_for p sl req (pool_for p req) with msg | poss
      · rw [hp] at h
        exact Except.noConfusion h
      · rw [hp] at h
        dsimp only at h
        rcases hpe : poss.isEmpty with _ | _
        · rw [hpe] at h
          rw [if_neg (show ¬(false = true) from Bool.false_ne_true)] at h
          refine ⟨rids, poss, rfl, ?_, rfl, ?_, ?_⟩
          · intro hx; rw [hx] at hre; simp at hre
          · intro hx; rw [hx] at hpe; simp at hpe
          · injection h with h2
            rw [← h2]
        · rw [hpe] at h
          rw [if_pos rfl] at h
          exact Except.noConfusion h
    · rw [hre] at h
      rw [if_pos rfl] at h
      exact Except.noConfusion h

theorem compile_inst_fold_events (p : TimetableProblem)
    (six : List (Slot × Nat)) (sl : List Slot) (req : CourseRequirement)
    (sub : Subject) :
    ∀ (idxs : List Nat) (st st' : CompileState),
      idxs.foldlM (compile_inst p six sl req sub) st = Except.ok st' →
      st'.events = st.events ++ idxs.map (fun i => event_of req sub i) := by
  intro idxs
  induction idxs with
  | nil =>
    intro st st' h
    simp only [List.foldlM_nil] at h
    injection h with h2
    rw [← h2]
    simp
  | cons i t ih =>
    intro st st' h
    simp only [List.foldlM_cons] at h
    rcases h1 : compile_inst p six sl req sub st i with msg | st1
    · rw [h1] at h
      exact Except.noConfusion h
    · rw [h1] at h
      have hev := (compile_inst_ok p six sl req sub st st1 i h1)
      rcases hev with ⟨rids, poss, _, _, _, _, hst1⟩
      have := ih st1 st' h
      rw [this, hst1]
      simp

theorem compile_req_ok_events (p : TimetableProblem)
    (six : List (Slot × Nat)) (sl : List Slot)
    (st st' : CompileState) (req : CourseRequirement)
    (h : compile_req p six sl st req = Except.ok st') :
    st'.events = st.events ++ reqEvents p req := by
  unfold compile_req at h
  rcases hs : dget p.index_subjects req.subject_id with _ | sub
  · rw [hs] at h
    exact Except.noConfusion h
  · rw [hs] at h
    have := compile_inst_fold_events p six sl req sub _ _ _ h
    rw [this]
    unfold reqEvents
    rw [hs]
    simp [List.map_map]

theorem compile_fold_events (p : TimetableProblem)
    (six : List (Slot × Nat)) (sl : List Slot) :
    ∀ (reqs : List CourseRequirement) (st st' : CompileState),
      reqs.foldlM (compile_req p six sl) st = Except.ok st' →
      st'.events = st.events ++ reqs.flatMap (reqEvents p) := by
  intro reqs
  induction reqs with
  | nil =>
    intro st st' h
    simp only [List.foldlM_nil] at h
    injection h with h2
    rw [← h2]
    simp
  | cons r t ih =>
    intro st st' h
    simp only [List.foldlM_cons] at h
    rcases h1 : compile_req p six sl st r with msg | st1
    · rw [h1] at h
      exact Except.noConfusion h
    · rw [h1] at h
      rw [ih st1 st' h, compile_req_ok_events p six sl st st1 r h1]
      simp


theorem compile_ok_elim (p : TimetableProblem) (c : _Compiled)
    (h : _compile_problem p = Except.ok c) :
    ∃ st, p.requirements.foldlM
        (compile_req p (buildSlotIndex p.calendar.teaching_slots)
          p.calendar.teaching_slots) {} = Except.ok st ∧
      c = mkCompiled p st := by
  unfold _compile_problem at h
  dsimp only at h
  rcases hf : p.requirements.foldlM
      (compile_req p (buildSlotIndex p.calendar.teaching_slots)
        p.calendar.teaching_slots) {} with msg | st
  · rw [hf] at h
    exact Except.noConfusion h
  · rw [hf] at h
    injection h with h2
    exact ⟨st, rfl, h2.symm⟩


theorem compile_events (p : TimetableProblem) (c : _Compiled)
    (h : _compile_problem p = Except.ok c) :
    c.events = p.requirements.flatMap (reqEvents p) := by
  rcases compile_ok_elim p c h with ⟨st, hf, hc⟩
  have := compile_fold_events p _ _ p.requirements {} st hf
  rw [hc]
  simpa using this

end AppHorarios
namespace AppHorarios

theorem compile_inst_error (p : TimetableProblem) (six : List (Slot × Nat))
    (sl : List Slot) (req : CourseRequirement) (sub : Subject)
    (st : CompileState) (i : Nat) (msg : String)
    (h : compile_inst p six sl req sub st i = Except.error msg) :
    rooms_for p req.group_id req.subject_id = Except.error msg ∨
    (∃ rids, rooms_for p req.group_id req.subject_id = Except.ok rids ∧
      rids = [] ∧
      msg = no_rooms_msg (event_id_of req i) req.group_id req.subject_id) ∨
    (∃ rids, rooms_for p req.group_id req.subject_id = Except.ok rids ∧
      rids ≠ [] ∧
      possible_slots_for p sl req (pool_for p req) = Except.error msg) ∨
    (∃ rids poss, rooms_for p req.group_id req.subject_id = Except.ok rids ∧
      rids ≠ [] ∧
      possible_slots_for p sl req (pool_for p req) = Except.ok poss ∧
      poss = [] ∧ msg = no_slots_msg (event_id_of req i)) := by
  unfold compile_inst at h
  rcases hr : rooms_for p req.group_id req.subject_id with m | rids
  · rw [hr] at h
    left
    injection h with h2
    rw [h2]
  · rw [hr] at h
    dsimp only at h
    rcases hre : rids.isEmpty with _ | _
    · rw [hre] at h
      rw [if_neg (show ¬(false = true) from Bool.false_ne_true)] at h
      rcases hp : possible_slots_for p sl req (pool_for p req) with m | poss
      · rw [hp] at h
        right; right; left
        refine ⟨rids, rfl, ?_, ?_⟩
        · intro hx; rw [hx] at hre; simp at hre
        · injection h with h2
          rw [h2]
      · rw [hp] at h
        dsimp only at h
        rcases hpe : poss.isEmpty with _ | _
        · rw [hpe] at h
          rw [if_neg (show ¬(false = true) from Bool.false_ne_true)] at h
          exact Except.noConfusion h
        · rw [hpe] at h
          rw [if_pos rfl] at h
          right; right; right
          refine ⟨rids, poss, rfl, ?_, rfl, List.isEmpty_iff.mp hpe, ?_⟩
          · intro hx; rw [hx] at hre; simp at hre
          · injection h with h2
            rw [h2]
    · rw [hre] at h
      rw [if_pos rfl] at h
      right; left
      refine ⟨rids, rfl, List.isEmpty_iff.mp hre, ?_⟩
      injection h with h2
      rw [h2]

theorem rooms_for_ok (p : TimetableProblem) (gid sid : String)
    (hg : (dget p.index_groups gid).isSome)
    (hs : (dget p.index_subjects sid).isSome) :
    ∃ rids, rooms_for p gid sid = Except.ok rids := by
  unfold rooms_for
  rcases h1 : dget p.index_groups gid with _ | g
  · rw [h1] at hg
    simp at hg
  · rcases h2 : dget p.index_subjects sid with _ | sub
    · rw [h2] at hs
      simp at hs
    · exact ⟨_, rfl⟩

theorem possible_slots_for_ok (p : TimetableProblem) (sl : List Slot)
    (req : CourseRequirement) (pool : List String)
    (ht : req.teacher_policy = TeacherPolicy.FIXED →
      strTruthy req.teacher_id = true →
      (dget p.index_teachers (strVal req.teacher_id)).isSome) :
    ∃ poss, possible_slots_for p sl req pool = Except.ok poss := by
  unfold possible_slots_for
  dsimp only
  rcases hpol : req.teacher_policy
  · rcases htr : strTruthy req.teacher_id with _ | _
    · rw [if_neg (by decide), if_neg (by decide)]
      exact ⟨_, rfl⟩
    · have hsome := ht hpol htr
      rcases hd : dget p.index_teachers (strVal req.teacher_id) with _ | t
      · rw [hd] at hsome
        simp at hsome
      · rw [if_pos (by decide)]
        exact ⟨_, rfl⟩
  · rw [if_neg (by rw [show (TeacherPolicy.CHOOSE == TeacherPolicy.FIXED) =
        false from rfl, Bool.false_and]; exact Bool.false_ne_true),
      if_pos (by decide)]
    try dsimp only
    rcases hpe : (pool.filterMap
        (fun tid => dget p.index_teachers tid)).isEmpty with _ | _
    · rw [if_pos (by decide)]
      exact ⟨_, rfl⟩
    · rw [if_neg (by decide)]
      exact ⟨_, rfl⟩

end AppHorarios
namespace AppHorarios

theorem foldlM_ok_of_total {ε σ α : Type} (step : σ → α → Except ε σ)
    (l : List α) (h : ∀ s a, a ∈ l → ∃ s', step s a = Except.ok s') :
    ∀ s, ∃ s', l.foldlM step s = Except.ok s' := by
  induction l with
  | nil => intro s; exact ⟨s, rfl⟩
  | cons a t ih =>
    intro s
    rcases h s a (List.mem_cons_self a t) with ⟨s1, h1⟩
    rcases ih (fun s b hb => h s b (List.mem_cons_of_mem a hb)) s1
      with ⟨s', h2⟩
    refine ⟨s', ?_⟩
    simp only [List.foldlM_cons]
    rw [h1]
    exact h2

theorem foldlM_error_decomp {ε σ α : Type} (step : σ → α → Except ε σ) :
    ∀ (l : List α) (s : σ) (msg : ε),
      l.foldlM step s = Except.error msg →
      ∃ u a, a ∈ l ∧ step u a = Except.error msg := by
  intro l
  induction l with
  | nil =>
    intro s msg h
    simp only [List.foldlM_nil] at h
    exact Except.noConfusion h
  | cons a t ih =>
    intro s msg h
    simp only [List.foldlM_cons] at h
    rcases h1 : step s a with m | s1
    · rw [h1] at h
      have hm : m = msg := by
        have : (Except.error m : Except ε σ) = Except.error msg := h
        injection this
      exact ⟨s, a, List.mem_cons_self a t, by rw [h1, hm]⟩
    · rw [h1] at h
      rcases ih s1 msg h with ⟨u, b, hb, hu⟩
      exact ⟨u, b, List.mem_cons_of_mem a hb, hu⟩

theorem foldlM_establish {ε σ α : Type} (step : σ → α → Except ε σ)
    (l : List α) (Q : α → σ → Prop)
    (hest : ∀ s a, a ∈ l → ∀ s', step s a = Except.ok s' → Q a s')
    (hpres : ∀ a s b, b ∈ l → Q a s → ∀ s', step s b = Except.ok s' →
      Q a s') :
    ∀ s s', l.foldlM step s = Except.ok s' → ∀ a ∈ l, Q a s' := by
  induction l with
  | nil => intro s s' _ a ha; exact absurd ha (List.not_mem_nil a)
  | cons b t ih =>
    intro s s' hfold a ha
    simp only [List.foldlM_cons] at hfold
    rcases h1 : step s b with m | s1
    · rw [h1] at hfold
      exact Except.noConfusion hfold
    · rw [h1] at hfold
      rcases List.mem_cons.mp ha with rfl | hat
      · have hQ1 : Q a s1 := hest s a (List.mem_cons_self a t) s1 h1
        exact foldlM_except_ok step t (Q a)
          (fun u c hc hQ u' hu =>
            hpres a u c (List.mem_cons_of_mem a hc) hQ u' hu)
          s1 s' hQ1 hfold
      · exact ih (fun u c hc => hest u c (List.mem_cons_of_mem b hc))
          (fun c u d hd => hpres c u d (List.mem_cons_of_mem b hd))
          s1 s' hfold a hat

theorem compile_inst_total (p : TimetableProblem) (six : List (Slot × Nat))
    (sl : List Slot) (req : CourseRequirement) (sub : Subject)
    (rids : List String) (poss : List Slot)
    (hr : rooms_for p req.group_id req.subject_id = Except.ok rids)
    (hrne : rids ≠ [])
    (hp : possible_slots_for p sl req (pool_for p req) = Except.ok poss)
    (hpne : poss ≠ []) (st : CompileState) (i : Nat) :
    ∃ st', compile_inst p six sl req sub st i = Except.ok st' := by
  have hre : rids.isEmpty = false := by
    rcases rids with _ | ⟨r, rs⟩
    · exact absurd rfl hrne
    · rfl
  have hpe2 : poss.isEmpty = false := by
    rcases poss with _ | ⟨q, qs⟩
    · exact absurd rfl hpne
    · rfl
  unfold compile_inst
  rw [hr]
  dsimp only
  rw [hre, if_neg (show ¬(false = true) from Bool.false_ne_true), hp]
  dsimp only
  rw [hpe2, if_neg (show ¬(false = true) from Bool.false_ne_true)]
  exact ⟨_, rfl⟩

theorem compile_req_ok_sub (p : TimetableProblem)
    (six : List (Slot × Nat)) (sl : List Slot)
    (st st' : CompileState) (req : CourseRequirement)
    (h : compile_req p six sl st req = Except.ok st') :
    ∃ sub, dget p.index_subjects req.subject_id = some sub := by
  unfold compile_req at h
  rcases hs : dget p.index_subjects req.subject_id with _ | sub
  · rw [hs] at h
    exact Except.noConfusion h
  · exact ⟨sub, rfl⟩

theorem compile_req_error_decomp (p : TimetableProblem)
    (six : List (Slot × Nat)) (sl : List Slot)
    (st : CompileState) (req : CourseRequirement) (msg : String)
    (h : compile_req p six sl st req = Except.error msg) :
    (dget p.index_subjects req.subject_id = none ∧
      msg = "KeyError: " ++ req.subject_id) ∨
    (∃ sub, dget p.index_subjects req.subject_id = some sub ∧
      ∃ u i, i ∈ (List.range req.periods_per_week.toNat).map
          (fun idx => idx + 1) ∧
        compile_inst p six sl req sub u i = Except.error msg) := by
  unfold compile_req at h
  rcases hs : dget p.index_subjects req.subject_id with _ | sub
  · rw [hs] at h
    left
    refine ⟨rfl, ?_⟩
    injection h with h2
    rw [h2]
  · rw [hs] at h
    right
    refine ⟨sub, rfl, ?_⟩
    rcases foldlM_error_decomp _ _ _ _ h with ⟨u, i, hi, hu⟩
    exact ⟨u, i, hi, hu⟩

end AppHorarios
namespace AppHorarios


theorem possible_slots_subset (p : TimetableProblem) (sl : List Slot)
    (req : CourseRequirement) (pool : List String) (poss : List Slot)
    (h : possible_slots_for p sl req pool = Except.ok poss) :
    ∀ s ∈ poss, s ∈ sl := by
  unfold possible_slots_for at h
  intro s hs
  by_cases h1 : (req.teacher_policy == TeacherPolicy.FIXED &&
      strTruthy req.teacher_id) = true
  · rw [if_pos h1] at h
    rcases hd : dget p.index_teachers (strVal req.teacher_id) with _ | t
    · rw [hd] at h
      exact Except.noConfusion h
    · rw [hd] at h
      injection h with h2
      rw [← h2] at hs
      have := List.mem_filter.mp hs
      by_cases h3 : (p.config.forbidden_periods_hard &&
          listTruthy req.forbidden_periods) = true
      · rw [if_pos h3] at this
        exact (List.mem_filter.mp this.1).1
      · rw [if_neg h3] at this
        exact this.1
  · rw [if_neg h1] at h
    by_cases h2 : (req.teacher_policy == TeacherPolicy.CHOOSE) = true
    · rw [if_pos h2] at h
      dsimp only at h
      by_cases h4 : (!(pool.filterMap
          (fun tid => dget p.index_teachers tid)).isEmpty) = true
      · rw [if_pos h4] at h
        injection h with h5
        rw [← h5] at hs
        have := List.mem_filter.mp hs
        by_cases h3 : (p.config.forbidden_periods_hard &&
            listTruthy req.forbidden_periods) = true
        · rw [if_pos h3] at this
          exact (List.mem_filter.mp this.1).1
        · rw [if_neg h3] at this
          exact this.1
      · rw [if_neg h4] at h
        injection h with h5
        rw [← h5] at hs
        by_cases h3 : (p.config.forbidden_periods_hard &&
            listTruthy req.forbidden_periods) = true
        · rw [if_pos h3] at hs
          exact (List.mem_filter.mp hs).1
        · rw [if_neg h3] at hs
          exact hs
    · rw [if_neg h2] at h
      injection h with h5
      rw [← h5] at hs
      by_cases h3 : (p.config.forbidden_periods_hard &&
          listTruthy req.forbidden_periods) = true
      · rw [if_pos h3] at hs
        exact (List.mem_filter.mp hs).1
      · rw [if_neg h3] at hs
        exact hs

theorem slot_index_canonical (slots : List Slot) (s : Slot)
    (hs : s ∈ slots) :
    ∃ i, dget (buildSlotIndex slots) s = some i ∧ i < slots.length ∧
      slots.getD i dSlot = s := by
  have hb := dget_insertFold (fun is : Nat × Slot => is.2)
    (fun is : Nat × Slot => is.1) slots.enum [] s
  rcases List.mem_iff_getElem.mp hs with ⟨n, hn, hget⟩
  have hpair : (n, s) ∈ slots.enum := by
    apply List.mem_enum_iff_getElem?.mpr
    rw [List.getElem?_eq_getElem hn]
    exact congrArg some hget
  rcases hf : slots.enum.reverse.find? (fun is => is.2 == s) with _ | q
  · exfalso
    have := List.find?_eq_none.mp hf (n, s) (List.mem_reverse.mpr hpair)
    simp at this
  · rw [hf] at hb
    dsimp only at hb
    have hq2 : q.2 = s := by simpa using List.find?_some hf
    have hqmem : q ∈ slots.enum :=
      List.mem_reverse.mp (List.mem_of_find?_eq_some hf)
    have hqget : slots[q.1]? = some q.2 := List.mem_enum_iff_getElem?.mp hqmem
    have hqlt : q.1 < slots.length := by
      rcases List.getElem?_eq_some.mp hqget with ⟨hlt, _⟩
      exact hlt
    refine ⟨q.1, hb, hqlt, ?_⟩
    rw [List.getD_eq_getElem?_getD, hqget]
    exact hq2

end AppHorarios
namespace AppHorarios


theorem rooms_for_goodr (p : TimetableProblem) (gid sid : String)
    (rids : List String) (h : rooms_for p gid sid = Except.ok rids)
    (hne : rids ≠ []) : GOODR p rids := by
  refine ⟨hne, ?_⟩
  unfold rooms_for at h
  rcases h1 : dget p.index_groups gid with _ | g
  · rw [h1] at h
    exact Except.noConfusion h
  · rw [h1] at h
    rcases h2 : dget p.index_subjects sid with _ | sub
    · rw [h2] at h
      exact Except.noConfusion h
    · rw [h2] at h
      injection h with h3
      intro rid hrid
      rw [← h3] at hrid
      rcases List.mem_map.mp hrid with ⟨r, hr, hrid2⟩
      exact ⟨r, List.mem_of_mem_filter hr, hrid2⟩

theorem poss_goods (p : TimetableProblem) (req : CourseRequirement)
    (poss : List Slot)
    (h : possible_slots_for p p.calendar.teaching_slots req
      (pool_for p req) = Except.ok poss)
    (hne : poss ≠ []) :
    GOODS p (poss.map (fun s =>
      (dget (buildSlotIndex p.calendar.teaching_slots) s).getD 0)) := by
  constructor
  · intro hx
    rcases poss with _ | ⟨q, qs⟩
    · exact hne rfl
    · exact List.noConfusion hx
  · intro si hsi
    rcases List.mem_map.mp hsi with ⟨s, hsmem, hsi2⟩
    have hsl : s ∈ p.calendar.teaching_slots :=
      possible_slots_subset p _ req _ poss h s hsmem
    rcases slot_index_canonical p.calendar.teaching_slots s hsl
      with ⟨i, hi, hlt, hget⟩
    have : si = i := by
      rw [← hsi2, hi]
      rfl
    rw [this, hget]
    exact ⟨hlt, hi⟩

theorem compile_inst_inv (p : TimetableProblem)
    (req : CourseRequirement) (sub : Subject) (hreq : req ∈ p.requirements)
    (st st' : CompileState) (i : Nat)
    (h : compile_inst p (buildSlotIndex p.calendar.teaching_slots)
      p.calendar.teaching_slots req sub st i = Except.ok st')
    (hinv : CompInv p st ∧ ∃ kp ∈ st.key_pools,
      kp.1 = (req.group_id, req.subject_id)) :
    CompInv p st' ∧ ∃ kp ∈ st'.key_pools,
      kp.1 = (req.group_id, req.subject_id) := by
  rcases compile_inst_ok p _ _ req sub st st' i h
    with ⟨rids, poss, hr, hrne, hp, hpne, hst⟩
  rcases hinv with ⟨⟨inv1, inv2, inv3, inv4⟩, invk⟩
  subst hst
  refine ⟨⟨?_, ?_, ?_, ?_⟩, ?_⟩
  · intro eid l hl
    simp only at hl
    by_cases he : eid = event_id_of req i
    · subst he
      rw [dget_dictInsert_self] at hl
      injection hl with hl2
      rw [← hl2]
      exact poss_goods p req poss hp hpne
    · rw [dget_dictInsert_ne _ _ _ _ he] at hl
      exact inv1 eid l hl
  · intro eid l hl
    simp only at hl
    by_cases he : eid = event_id_of req i
    · subst he
      rw [dget_dictInsert_self] at hl
      injection hl with hl2
      rw [← hl2]
      exact rooms_for_goodr p req.group_id req.subject_id rids hr hrne
    · rw [dget_dictInsert_ne _ _ _ _ he] at hl
      exact inv2 eid l hl
  · intro e he
    simp only at he ⊢
    rcases List.mem_append.mp he with hold | hnew
    · rcases inv3 e hold with ⟨h1, h2, h3⟩
      exact ⟨dget_dictInsert_isSome_mono _ _ _ _ h1,
        dget_dictInsert_isSome_mono _ _ _ _ h2, h3⟩
    · have : e = event_of req sub i := by simpa using hnew
      subst this
      refine ⟨?_, ?_, ?_⟩
      · rw [show (event_of req sub i).id = event_id_of req i from rfl,
          dget_dictInsert_self]
        rfl
      · rw [show (event_of req sub i).id = event_id_of req i from rfl,
          dget_dictInsert_self]
        rfl
      · exact invk
  · intro kp hkp
    simp only at hkp
    exact inv4 kp hkp
  · simp only
    exact invk

end AppHorarios
namespace AppHorarios

theorem compile_req_inv (p : TimetableProblem)
    (st st' : CompileState) (req : CourseRequirement)
    (hreq : req ∈ p.requirements)
    (h : compile_req p (buildSlotIndex p.calendar.teaching_slots)
      p.calendar.teaching_slots st req = Except.ok st')
    (hinv : CompInv p st) : CompInv p st' := by
  unfold compile_req at h
  rcases hs : dget p.index_subjects req.subject_id with _ | sub
  · rw [hs] at h
    exact Except.noConfusion h
  · rw [hs] at h
    dsimp only at h
    set k : TeacherKey := (req.group_id, req.subject_id) with hk
    have hinv2 : CompInv p
        { st with
          req_by_key := dictInsert st.req_by_key k req
          key_pools := dictInsert st.key_pools k (pool_for p req) } ∧
        ∃ kp ∈ (dictInsert st.key_pools k (pool_for p req)),
          kp.1 = k := by
      rcases hinv with ⟨inv1, inv2, inv3, inv4⟩
      refine ⟨⟨inv1, inv2, ?_, ?_⟩, ?_⟩
      · intro e he
        simp only at he ⊢
        rcases inv3 e he with ⟨h1, h2, h3⟩
        exact ⟨h1, h2, key_mem_dictInsert_mono _ _ _ _ h3⟩
      · intro kp hkp
        simp only at hkp
        rcases mem_dictInsert _ _ _ _ hkp with hnew | ⟨hold, hne⟩
        · refine ⟨req, hreq, ?_, ?_, ?_⟩
          · rw [hnew]
            exact dget_dictInsert_self _ _ _
          · rw [hnew]
          · rw [hnew]
        · rcases inv4 kp hold with ⟨req', hreq', hd, hkey, hpool⟩
          refine ⟨req', hreq', ?_, hkey, hpool⟩
          rw [dget_dictInsert_ne _ _ _ _ (by simpa using hne)]
          exact hd
      · refine ⟨(k, pool_for p req), ?_, rfl⟩
        exact mem_of_dget _ _ _ (dget_dictInsert_self _ _ _)
    have := foldlM_except_ok
      (compile_inst p (buildSlotIndex p.calendar.teaching_slots)
        p.calendar.teaching_slots req sub)
      ((List.range req.periods_per_week.toNat).map (fun idx => idx + 1))
      (fun s => CompInv p s ∧ ∃ kp ∈ s.key_pools, kp.1 = k)
      (fun s i hi hP s' hstep =>
        compile_inst_inv p req sub hreq s s' i hstep hP)
      _ st' hinv2 h
    exact this.1

theorem compile_ok_inv (p : TimetableProblem) (c : _Compiled)
    (h : _compile_problem p = Except.ok c) :
    (∀ eid l, dget c.allowed_slots eid = some l → GOODS p l) ∧
    (∀ eid l, dget c.allowed_rooms eid = some l → GOODR p l) ∧
    (∀ e ∈ c.events, (dget c.allowed_slots e.id).isSome ∧
      (dget c.allowed_rooms e.id).isSome ∧
      ∃ kp ∈ c.key_pools, kp.1 = e.same_teacher_key) ∧
    (∀ kp ∈ c.key_pools, ∃ req ∈ p.requirements,
      dget c.req_by_key kp.1 = some req ∧
      kp.1 = (req.group_id, req.subject_id) ∧ kp.2 = pool_for p req) := by
  rcases compile_ok_elim p c h with ⟨st, hf, hc⟩
  have hinv0 : CompInv p ({} : CompileState) := by
    refine ⟨?_, ?_, ?_, ?_⟩
    · intro eid l hl
      exact Option.noConfusion hl
    · intro eid l hl
      exact Option.noConfusion hl
    · intro e he
      exact absurd he (List.not_mem_nil e)
    · intro kp hkp
      exact absurd hkp (List.not_mem_nil kp)
  have hinv := foldlM_except_ok
    (compile_req p (buildSlotIndex p.calendar.teaching_slots)
      p.calendar.teaching_slots)
    p.requirements (CompInv p)
    (fun s req hreq hP s' hstep => compile_req_inv p s s' req hreq hstep hP)
    _ st hinv0 hf
  rw [hc]
  exact hinv

theorem compile_req_keyQ (p : TimetableProblem)
    (st st' : CompileState) (req r : CourseRequirement)
    (h : compile_req p (buildSlotIndex p.calendar.teaching_slots)
      p.calendar.teaching_slots st req = Except.ok st')
    (hQ : ∃ kp ∈ st.key_pools, kp.1 = (r.group_id, r.subject_id)) :
    ∃ kp ∈ st'.key_pools, kp.1 = (r.group_id, r.subject_id) := by
  unfold compile_req at h
  rcases hs : dget p.index_subjects req.subject_id with _ | sub
  · rw [hs] at h
    exact Except.noConfusion h
  · rw [hs] at h
    dsimp only at h
    have hQ2 : ∃ kp ∈ (dictInsert st.key_pools
        (req.group_id, req.subject_id) (pool_for p req)),
        kp.1 = (r.group_id, r.subject_id) :=
      key_mem_dictInsert_mono _ _ _ _ hQ
    have := foldlM_except_ok
      (compile_inst p (buildSlotIndex p.calendar.teaching_slots)
        p.calendar.teaching_slots req sub)
      ((List.range req.periods_per_week.toNat).map (fun idx => idx + 1))
      (fun s => ∃ kp ∈ s.key_pools, kp.1 = (r.group_id, r.subject_id))
      (fun s i hi hP s' hstep => by
        rcases compile_inst_ok p _ _ req sub s s' i hstep
          with ⟨rids, poss, _, _, _, _, hst⟩
        subst hst
        exact hP)
      _ st' hQ2 h
    exact this

theorem compile_req_establishes_key (p : TimetableProblem)
    (st st' : CompileState) (req : CourseRequirement)
    (h : compile_req p (buildSlotIndex p.calendar.teaching_slots)
      p.calendar.teaching_slots st req = Except.ok st') :
    ∃ kp ∈ st'.key_pools, kp.1 = (req.group_id, req.subject_id) := by
  unfold compile_req at h
  rcases hs : dget p.index_subjects req.subject_id with _ | sub
  · rw [hs] at h
    exact Except.noConfusion h
  · rw [hs] at h
    dsimp only at h
    have hQ2 : ∃ kp ∈ (dictInsert st.key_pools
        (req.group_id, req.subject_id) (pool_for p req)),
        kp.1 = (req.group_id, req.subject_id) :=
      ⟨((req.group_id, req.subject_id), pool_for p req),
        mem_of_dget _ _ _ (dget_dictInsert_self _ _ _), rfl⟩
    have := foldlM_except_ok
      (compile_inst p (buildSlotIndex p.calendar.teaching_slots)
        p.calendar.teaching_slots req sub)
      ((List.range req.periods_per_week.toNat).map (fun idx => idx + 1))
      (fun s => ∃ kp ∈ s.key_pools,
        kp.1 = (req.group_id, req.subject_id))
      (fun s i hi hP s' hstep => by
        rcases compile_inst_ok p _ _ req sub s s' i hstep
          with ⟨rids, poss, _, _, _, _, hst⟩
        subst hst
        exact hP)
      _ st' hQ2 h
    exact this

theorem compile_all_keys (p : TimetableProblem) (c : _Compiled)
    (h : _compile_problem p = Except.ok c) :
    ∀ req ∈ p.requirements, ∃ kp ∈ c.key_pools,
      kp.1 = (req.group_id, req.subject_id) := by
  rcases compile_ok_elim p c h with ⟨st, hf, hc⟩
  intro req hreq
  have := foldlM_establish
    (compile_req p (buildSlotIndex p.calendar.teaching_slots)
      p.calendar.teaching_slots)
    p.requirements
    (fun r s => ∃ kp ∈ s.key_pools, kp.1 = (r.group_id, r.subject_id))
    (fun s r hr s' hstep => compile_req_establishes_key p s s' r hstep)
    (fun r s b hb hQ s' hstep => compile_req_keyQ p s s' b r hstep hQ)
    _ st hf req hreq
  rw [hc]
  exact this

end AppHorarios
namespace AppHorarios

/-- C7: for every requirement the compiler emits exactly `periods_per_week`
unit events whose ids are `"{group_id}-{subject_id}-{NN}"` with `NN` the
1-based instance index zero-padded to two digits; the events list
enumerates requirements in declaration order and, within each
requirement, instances in ascending index order (stated for
successfully compiling problems with positive `periods_per_week`). -/
theorem C7_event_expansion (p : TimetableProblem) (c : _Compiled)
    (Hc : _compile_problem p = Except.ok c)
    (Hpos : ∀ req ∈ p.requirements, 1 ≤ req.periods_per_week) :
    c.events = p.requirements.flatMap (reqEvents p) ∧
    (∀ req ∈ p.requirements, ∃ sub,
      dget p.index_subjects req.subject_id = some sub ∧
      reqEvents p req = (List.range req.periods_per_week.toNat).map
        (fun idx => event_of req sub (idx + 1)) ∧
      ((reqEvents p req).length : Int) = req.periods_per_week) ∧
    (∀ req : CourseRequirement, ∀ i : Nat,
      event_id_of req i = req.group_id ++ "-" ++ req.subject_id ++ "-" ++
        (if i < 10 then "0" ++ toString i else toString i)) := by
  refine ⟨compile_events p c Hc, ?_, fun req i => rfl⟩
  intro req hreq
  rcases compile_ok_elim p c Hc with ⟨st, hf, hcb⟩
  rcases foldlM_except_run _ _ _ _ hf req hreq with ⟨u, u', hstep⟩
  rcases compile_req_ok_sub _ _ _ _ _ _ hstep with ⟨sub, hsub⟩
  refine ⟨sub, hsub, ?_, ?_⟩
  · unfold reqEvents
    rw [hsub]
  · unfold reqEvents
    rw [hsub, List.length_map, List.length_range]
    exact Int.toNat_of_nonneg
      (le_trans (by norm_num) (Hpos req hreq))

theorem foldlM_cons_error {ε σ α : Type} (step : σ → α → Except ε σ)
    (a : α) (t : List α) (s : σ) (msg : ε)
    (h : (a :: t).foldlM step s = Except.error msg) :
    step s a = Except.error msg ∨
    ∃ s1, step s a = Except.ok s1 ∧ t.foldlM step s1 = Except.error msg := by
  simp only [List.foldlM_cons] at h
  rcases h1 : step s a with m | s1
  · rw [h1] at h
    left
    have hm : m = msg := by
      have h2 : (Except.error m : Except ε σ) = Except.error msg := h
      injection h2
    rw [hm]
  · rw [h1] at h
    exact Or.inr ⟨s1, rfl, h⟩

/-- C5: for problems whose requirements reference existing groups,
subjects and (when FIXED with a teacher id) existing teachers,
compilation succeeds iff every positive requirement has a non-empty
room domain and a non-empty filtered slot domain; on success every
emitted event has non-empty allowed slots and allowed rooms; on
failure the error message names the offending requirement's first
event (`event_id_of req 1`) as having an empty room or slot domain. -/
theorem C5_compile_empty_domains (p : TimetableProblem)
    (Hrefs : ∀ req ∈ p.requirements,
      (dget p.index_groups req.group_id).isSome ∧
      (dget p.index_subjects req.subject_id).isSome ∧
      (req.teacher_policy = TeacherPolicy.FIXED →
        strTruthy req.teacher_id = true →
        (dget p.index_teachers (strVal req.teacher_id)).isSome)) :
    ((∃ c, _compile_problem p = Except.ok c) ↔
      (∀ req ∈ p.requirements, 1 ≤ req.periods_per_week →
        okD (rooms_for p req.group_id req.subject_id) [] ≠ [] ∧
        okD (possible_slots_for p p.calendar.teaching_slots req
          (pool_for p req)) [] ≠ [])) ∧
    (∀ c, _compile_problem p = Except.ok c →
      ∀ e ∈ c.events, allowedS c e.id ≠ [] ∧ allowedR c e.id ≠ []) ∧
    (∀ msg, _compile_problem p = Except.error msg →
      ∃ req ∈ p.requirements, 1 ≤ req.periods_per_week ∧
        ((okD (rooms_for p req.group_id req.subject_id) [] = [] ∧
          msg = no_rooms_msg (event_id_of req 1) req.group_id
            req.subject_id) ∨
         (okD (rooms_for p req.group_id req.subject_id) [] ≠ [] ∧
          okD (possible_slots_for p p.calendar.teaching_slots req
            (pool_for p req)) [] = [] ∧
          msg = no_slots_msg (event_id_of req 1)))) := by
  refine ⟨⟨?_, ?_⟩, ?_, ?_⟩
  · -- success → every positive requirement has non-empty domains
    rintro ⟨c, Hc⟩ req hreq hpos
    rcases compile_ok_elim p c Hc with ⟨st, hf, hcb⟩
    rcases foldlM_except_run _ _ _ _ hf req hreq with ⟨u, u', hstep⟩
    unfold compile_req at hstep
    rcases hs : dget p.index_subjects req.subject_id with _ | sub
    · rw [hs] at hstep
      exact Except.noConfusion hstep
    · rw [hs] at hstep
      dsimp only at hstep
      have h1mem : 1 ∈ (List.range req.periods_per_week.toNat).map
          (fun idx => idx + 1) := by
        apply List.mem_map.mpr
        refine ⟨0, List.mem_range.mpr ?_, rfl⟩
        omega
      rcases foldlM_except_run _ _ _ _ hstep 1 h1mem with ⟨v, v', hinst⟩
      rcases compile_inst_ok p _ _ req sub v v' 1 hinst
        with ⟨rids, poss, hr, hrne, hp, hpne, _⟩
      rw [hr, hp]
      exact ⟨hrne, hpne⟩
  · -- non-empty domains everywhere → compilation succeeds
    intro hgood
    have htotal : ∀ (st : CompileState) (req : CourseRequirement),
        req ∈ p.requirements →
        ∃ st', compile_req p (buildSlotIndex p.calendar.teaching_slots)
          p.calendar.teaching_slots st req = Except.ok st' := by
      intro st req hreq
      rcases Hrefs req hreq with ⟨hg, hsub, ht⟩
      unfold compile_req
      rcases hs : dget p.index_subjects req.subject_id with _ | sub
      · rw [hs] at hsub
        simp at hsub
      · dsimp only
        apply foldlM_ok_of_total
        intro u i hi
        have hpos : 1 ≤ req.periods_per_week := by
          rcases List.mem_map.mp hi with ⟨idx, hidx, _⟩
          have := List.mem_range.mp hidx
          omega
        rcases rooms_for_ok p req.group_id req.subject_id hg hsub
          with ⟨rids, hr⟩
        rcases possible_slots_for_ok p p.calendar.teaching_slots req
          (pool_for p req) ht with ⟨poss, hp⟩
        rcases hgood req hreq hpos with ⟨hgr, hgp⟩
        rw [hr] at hgr
        rw [hp] at hgp
        exact compile_inst_total p _ _ req sub rids poss hr hgr hp hgp u i
    rcases foldlM_ok_of_total _ _ htotal {} with ⟨st, hst⟩
    refine ⟨mkCompiled p st, ?_⟩
    unfold _compile_problem
    dsimp only
    rw [hst]
    rfl
  · -- success: every compiled event has non-empty domains
    intro c Hc e he
    rcases compile_ok_inv p c Hc with ⟨inv1, inv2, inv3, _⟩
    rcases inv3 e he with ⟨h1, h2, _⟩
    constructor
    · rcases hd : dget c.allowed_slots e.id with _ | l
      · rw [hd] at h1
        simp at h1
      · have := inv1 e.id l hd
        unfold allowedS
        rw [hd]
        exact this.1
    · rcases hd : dget c.allowed_rooms e.id with _ | l
      · rw [hd] at h2
        simp at h2
      · have := inv2 e.id l hd
        unfold allowedR
        rw [hd]
        exact this.1
  · -- failure: the first offending event is named
    intro msg hmsg
    unfold _compile_problem at hmsg
    dsimp only at hmsg
    rcases hf : p.requirements.foldlM
        (compile_req p (buildSlotIndex p.calendar.teaching_slots)
          p.calendar.teaching_slots) {} with m | st
    · rw [hf] at hmsg
      have hm : m = msg := by injection hmsg
      subst hm
      rcases foldlM_error_decomp _ _ _ _ hf with ⟨u, req, hreq, hstep⟩
      refine ⟨req, hreq, ?_⟩
      rcases Hrefs req hreq with ⟨hg, hsub, ht⟩
      unfold compile_req at hstep
      rcases hs : dget p.index_subjects req.subject_id with _ | sub
      · rw [hs] at hsub
        simp at hsub
      · rw [hs] at hstep
        dsimp only at hstep
        rcases hn : req.periods_per_week.toNat with _ | n
        · rw [hn] at hstep
          exact Except.noConfusion hstep
        · rw [hn, List.range_succ_eq_map, List.map_cons] at hstep
          have hpos : 1 ≤ req.periods_per_week := by omega
          refine ⟨hpos, ?_⟩
          rcases foldlM_cons_error _ _ _ _ _ hstep with h1 | ⟨s1, h1, hrest⟩
          · rcases compile_inst_error p _ _ req sub _ _ _ h1
              with hc1 | ⟨rids, hok, hnil, hmsg2⟩ |
                ⟨rids, hok, hne, hperr⟩ |
                ⟨rids, poss, hok, hne, hpok, hpnil, hmsg2⟩
            · rcases rooms_for_ok p req.group_id req.subject_id hg hsub
                with ⟨rids, hok⟩
              rw [hok] at hc1
              exact Except.noConfusion hc1
            · left
              refine ⟨?_, ?_⟩
              · rw [hok]
                exact hnil
              · rw [hmsg2]
            · rcases possible_slots_for_ok p p.calendar.teaching_slots req
                (pool_for p req) ht with ⟨poss, hpok⟩
              rw [hpok] at hperr
              exact Except.noConfusion hperr
            · right
              refine ⟨?_, ?_, ?_⟩
              · rw [hok]
                exact hne
              · rw [hpok]
                exact hpnil
              · rw [hmsg2]
          · rcases compile_inst_ok p _ _ req sub _ _ _ h1
              with ⟨rids, poss, hok, hne, hpok, hpne, _⟩
            rcases foldlM_ok_of_total
                (compile_inst p (buildSlotIndex p.calendar.teaching_slots)
                  p.calendar.teaching_slots req sub) _
                (fun s a _ =>
                  compile_inst_total p _ _ req sub rids poss hok hne hpok
                    hpne s a) s1 with ⟨s2, h2⟩
            rw [h2] at hrest
            exact Except.noConfusion hrest
    · rw [hf] at hmsg
      exact Except.noConfusion hmsg
/-- Witness for C7 on the concrete compilable `pc8b_problem`. -/
theorem C7_event_expansion_witness :
    pc8b_compiled.events =
      pc8b_problem.requirements.flatMap (reqEvents pc8b_problem) :=
  (C7_event_expansion pc8b_problem pc8b_compiled rfl (by decide)).1

/-- Witness for C5 on the concrete compilable `pc8b_problem`. -/
theorem C5_compile_empty_domains_witness :
    ∃ c, _compile_problem pc8b_problem = Except.ok c :=
  (C5_compile_empty_domains pc8b_problem (by decide)).1.mpr (by decide)

theorem precheck_error_of_empty (m : List (TeacherKey × CourseRequirement)) :
    ∀ l : List (TeacherKey × List String),
      (∀ kp ∈ l, kp.2 ≠ [] → ∀ r, dget m kp.1 = some r →
        (r.teacher_policy == TeacherPolicy.FIXED &&
          r.teacher_id == none) = false) →
      (∃ kp ∈ l, kp.2 = []) →
      ∃ kp ∈ l, kp.2 = [] ∧
        l.foldlM (precheckStep m) () =
          Except.error (pool_empty_msg kp.1) := by
  intro l
  induction l with
  | nil =>
    intro _ h
    rcases h with ⟨kp, hkp, _⟩
    exact absurd hkp (List.not_mem_nil kp)
  | cons a t ih =>
    intro H hex
    rcases ha : a.2 with _ | ⟨v, vs⟩
    · refine ⟨a, List.mem_cons_self a t, ha, ?_⟩
      have hstep : precheckStep m () a =
          Except.error (pool_empty_msg a.1) := by
        simp only [precheckStep]
        rw [ha]
        rfl
      simp only [List.foldlM_cons]
      rw [hstep]
      rfl
    · have hane : a.2 ≠ [] := by
        rw [ha]
        exact List.cons_ne_nil v vs
      have hstep : precheckStep m () a = Except.ok () := by
        simp only [precheckStep]
        rw [ha, show (v :: vs).isEmpty = false from rfl,
          if_neg (show ¬(false = true) from Bool.false_ne_true)]
        rcases hd : dget m a.1 with _ | r
        · rfl
        · dsimp only
          rw [H a (List.mem_cons_self a t) hane r hd,
            if_neg (show ¬(false = true) from Bool.false_ne_true)]
      rcases hex with ⟨kp, hkp, hkpe⟩
      rcases List.mem_cons.mp hkp with rfl | hkpt
      · exact absurd hkpe hane
      · rcases ih (fun b hb => H b (List.mem_cons_of_mem a hb))
          ⟨kp, hkpt, hkpe⟩ with ⟨kp0, hkp0, hkp0e, hfold⟩
        refine ⟨kp0, List.mem_cons_of_mem a hkp0, hkp0e, ?_⟩
        simp only [List.foldlM_cons]
        rw [hstep]
        exact hfold

/-- C9 counterexample: in `p9_problem` the requirement `p9_reqA` is
`CHOOSE` with an explicitly empty pool and no teacher able to teach the
subject, every compiled event keeps non-empty slot and room domains, yet
`solve_stage1` succeeds — no `ValueError` is raised — because the second
requirement with the same `(group, subject)` key overwrites the empty
pool in `key_pools`. -/
theorem C9_empty_pool_claim_false :
    p9_reqA ∈ p9_problem.requirements ∧
    p9_reqA.teacher_policy = TeacherPolicy.CHOOSE ∧
    p9_reqA.teacher_pool = some [] ∧
    pool_for p9_problem p9_reqA = [] ∧
    solve_stage1 p9_problem = Except.ok p9_compiled ∧
    (∀ e ∈ p9_compiled.events, allowedS p9_compiled e.id ≠ [] ∧
      allowedR p9_compiled e.id ≠ []) := by
  refine ⟨by decide, rfl, rfl, rfl, rfl, by decide⟩

/-- C9 amended: for a problem with pairwise-distinct requirement keys
that compiles, if some requirement's teacher pool is empty then the
model-building precheck stops `solve` with the pool-empty `ValueError`
naming the `(group, subject)` key of an empty-pool requirement, and no
compiled bundle reaches the solver. -/
theorem C9_empty_pool_amended (p : TimetableProblem) (c : _Compiled)
    (Hc : _compile_problem p = Except.ok c)
    (Hnodup : (p.requirements.map
      (fun r => (r.group_id, r.subject_id))).Nodup)
    (req : CourseRequirement) (hreq : req ∈ p.requirements)
    (hpool : pool_for p req = []) :
    (∀ c2, solve_stage1 p ≠ Except.ok c2) ∧
    ∃ req2 ∈ p.requirements, pool_for p req2 = [] ∧
      solve_stage1 p = Except.error
        (pool_empty_msg (req2.group_id, req2.subject_id)) := by
  have inv4 := (compile_ok_inv p c Hc).2.2.2
  rcases compile_all_keys p c Hc req hreq with ⟨kp, hkp, hkey⟩
  rcases inv4 kp hkp with ⟨req2, hreq2, hdget2, hkey2, hpool2⟩
  have hr2 : req2 = req := by
    apply List.inj_on_of_nodup_map Hnodup hreq2 hreq
    rw [← hkey2, hkey]
  have hkpe : kp.2 = [] := by
    rw [hpool2, hr2, hpool]
  have H : ∀ kp2 ∈ c.key_pools, kp2.2 ≠ [] → ∀ r,
      dget c.req_by_key kp2.1 = some r →
      (r.teacher_policy == TeacherPolicy.FIXED &&
        r.teacher_id == none) = false := by
    intro kp2 hkp2 hne r hd
    rcases inv4 kp2 hkp2 with ⟨req3, _, hdget3, _, hpool3⟩
    rw [hd] at hdget3
    have hr3 : req3 = r := by
      injection hdget3 with h2
      rw [h2]
    rcases hb : (r.teacher_policy == TeacherPolicy.FIXED &&
        r.teacher_id == none) with _ | _
    · rfl
    · exfalso
      simp only [Bool.and_eq_true, beq_iff_eq] at hb
      rcases hb with ⟨hpol, hnone⟩
      apply hne
      rw [hpool3, hr3]
      unfold pool_for
      rw [hpol, hnone]
      rfl
  rcases precheck_error_of_empty c.req_by_key c.key_pools H ⟨kp, hkp, hkpe⟩
    with ⟨kp0, hkp0, hkp0e, hfold⟩
  have hpre : solve_precheck c = Except.error (pool_empty_msg kp0.1) := by
    unfold solve_precheck
    exact hfold
  rcases inv4 kp0 hkp0 with ⟨req4, hreq4, _, hkey4, hpool4⟩
  have hstage : solve_stage1 p = Except.error
      (pool_empty_msg (req4.group_id, req4.subject_id)) := by
    unfold solve_stage1
    rw [Hc]
    dsimp only
    rw [hpre]
    dsimp only
    rw [← hkey4]
  refine ⟨?_, req4, hreq4, ?_, hstage⟩
  · intro c2 hc2
    rw [hstage] at hc2
    exact Except.noConfusion hc2
  · rw [← hpool4]
    exact hkp0e

/-- Witness for the C9 amended theorem on `p9w_problem`. -/
theorem C9_empty_pool_amended_witness :
    (∀ c2, solve_stage1 p9w_problem ≠ Except.ok c2) ∧
    ∃ req2 ∈ p9w_problem.requirements, pool_for p9w_problem req2 = [] ∧
      solve_stage1 p9w_problem = Except.error
        (pool_empty_msg (req2.group_id, req2.subject_id)) :=
  C9_empty_pool_amended p9w_problem p9w_compiled rfl (by decide) p9w_req
    (List.mem_singleton.mpr rfl) rfl

theorem two_le_countP_of_get {α : Type} (P : α → Bool) :
    ∀ (l : List α) (i j : Nat) (hi : i < l.length) (hj : j < l.length),
      i ≠ j → P (l.get ⟨i, hi⟩) = true → P (l.get ⟨j, hj⟩) = true →
      2 ≤ l.countP P := by
  intro l
  induction l with
  | nil => intro i j hi; simp at hi
  | cons x t ih =>
    intro i j hi hj hij hPi hPj
    match i, j with
    | 0, 0 => exact absurd rfl hij
    | 0, jj + 1 =>
      have hx : P x = true := hPi
      have hjj : jj < t.length := by simpa using hj
      have hPj2 : P (t.get ⟨jj, hjj⟩) = true := hPj
      have hpos : 0 < t.countP P :=
        List.countP_pos.mpr ⟨_, List.get_mem t jj hjj, hPj2⟩
      rw [List.countP_cons_of_pos P t hx]
      omega
    | ii + 1, 0 =>
      have hx : P x = true := hPj
      have hii : ii < t.length := by simpa using hi
      have hPi2 : P (t.get ⟨ii, hii⟩) = true := hPi
      have hpos : 0 < t.countP P :=
        List.countP_pos.mpr ⟨_, List.get_mem t ii hii, hPi2⟩
      rw [List.countP_cons_of_pos P t hx]
      omega
    | ii + 1, jj + 1 =>
      have hii : ii < t.length := by simpa using hi
      have hjj : jj < t.length := by simpa using hj
      have h2 := ih ii jj hii hjj (by omega) hPi hPj
      rw [List.countP_cons]
      omega

theorem count_map_eq_countP {α β : Type} [BEq β] (f : α → β)
    (l : List α) (v : β) :
    (l.map f).count v = l.countP (fun a => f a == v) := by
  rw [List.count, List.countP_map]
  rfl

theorem mem_enum_of_lt {α : Type} (l : List α) (i : Nat)
    (h : i < l.length) : (i, l.get ⟨i, h⟩) ∈ l.enum := by
  rw [List.mem_enum_iff_getElem?]
  simp [List.getElem?_eq_getElem h]

theorem flatMap_eq_nil_forall {α β : Type} (l : List α) (f : α → List β)
    (h : l.flatMap f = []) : ∀ x ∈ l, f x = [] := by
  intro x hx
  by_contra hne
  rcases List.exists_mem_of_ne_nil _ hne with ⟨y, hy⟩
  have hmem : y ∈ l.flatMap f := List.mem_flatMap.mpr ⟨x, hx, hy⟩
  rw [h] at hmem
  exact List.not_mem_nil y hmem

theorem sum_toNat_cast (f : CourseRequirement → Int) :
    ∀ l : List CourseRequirement, (∀ r ∈ l, 0 ≤ f r) →
      (((l.map (fun r => (f r).toNat)).sum : Nat) : Int) =
        (l.map f).sum := by
  intro l
  induction l with
  | nil => intro _; rfl
  | cons a t ih =>
    intro h
    simp only [List.map_cons, List.sum_cons]
    rw [Nat.cast_add, ih (fun r hr => h r (List.mem_cons_of_mem a hr)),
      Int.toNat_of_nonneg (h a (List.mem_cons_self a t))]

theorem nodupkeys_dictInsert {κ ν : Type} [BEq κ] [LawfulBEq κ]
    (m : List (κ × ν)) (k : κ) (v : ν)
    (h : (m.map Prod.fst).Nodup) :
    ((dictInsert m k v).map Prod.fst).Nodup := by
  unfold dictInsert
  rcases ha : m.any (fun kv => kv.1 == k) with _ | _
  · rw [if_neg (show ¬(false = true) from Bool.false_ne_true)]
    rw [List.map_append]
    apply List.Nodup.append h (List.nodup_singleton k)
    intro a hamem hak
    rcases List.mem_singleton.mp hak with rfl
    rcases List.mem_map.mp hamem with ⟨kv, hkv, hfst⟩
    have hall := List.any_eq_false.mp (by rw [ha]) kv hkv
    apply hall
    rw [hfst]
    exact beq_self_eq_true a
  · rw [if_pos rfl, List.map_map]
    have heq : m.map (Prod.fst ∘ fun kv =>
        if kv.1 == k then (k, v) else kv) = m.map Prod.fst := by
      apply List.map_congr_left
      intro kv _
      simp only [Function.comp]
      by_cases hkvk : (kv.1 == k) = true
      · rw [if_pos hkvk]
        exact (eq_of_beq hkvk).symm
      · rw [if_neg hkvk]
    rw [heq]
    exact h

theorem dget_map_pair {κ ν ω : Type} [BEq κ] (m : List (κ × ν))
    (f : κ × ν → ω) (k : κ) :
    dget (m.map (fun kp => (kp.1, f kp))) k =
      (m.find? (fun kp => kp.1 == k)).map f := by
  unfold dget
  rw [List.find?_map]
  rcases hf : m.find? (fun kp => kp.1 == k) with _ | kp
  · rw [show m.find? ((fun kv : κ × ω => kv.1 == k) ∘
        (fun kp : κ × ν => (kp.1, f kp))) = none from hf, hf]
    rfl
  · rw [show m.find? ((fun kv : κ × ω => kv.1 == k) ∘
        (fun kp : κ × ν => (kp.1, f kp))) = some kp from hf, hf]
    rfl

theorem dup_fold_aux :
    ∀ (reqs : List CourseRequirement) (seen : List TeacherKey)
      (errs : List String),
      (reqs.foldl (fun (acc : List TeacherKey × List String) req =>
        let key : TeacherKey := (req.group_id, req.subject_id)
        let errs := if acc.1.contains key then
            acc.2 ++ ["CourseRequirement duplicado para group=" ++
              q req.group_id ++ ", subject=" ++ q req.subject_id ++
              ". Combínalos en uno (sumando periods_per_week) o usa un id " ++
              "extra si realmente son distintos."]
          else acc.2
        (acc.1 ++ [key], errs)) (seen, errs)).2 = [] →
      errs = [] ∧
      (reqs.map (fun r => (r.group_id, r.subject_id))).Nodup ∧
      ∀ r ∈ reqs, (r.group_id, r.subject_id) ∉ seen := by
  intro reqs
  induction reqs with
  | nil =>
    intro seen errs h
    exact ⟨h, List.nodup_nil, fun r hr => absurd hr (List.not_mem_nil r)⟩
  | cons a t ih =>
    intro seen errs h
    rw [List.foldl_cons] at h
    dsimp only at h
    rcases hc : seen.contains (a.group_id, a.subject_id) with _ | _
    · rw [hc, if_neg (show ¬(false = true) from Bool.false_ne_true)] at h
      rcases ih (seen ++ [(a.group_id, a.subject_id)]) errs h
        with ⟨h1, h2, h3⟩
      refine ⟨h1, ?_, ?_⟩
      · rw [List.map_cons, List.nodup_cons]
        refine ⟨?_, h2⟩
        intro hmem
        rcases List.mem_map.mp hmem with ⟨r, hr, hkey⟩
        exact h3 r hr (List.mem_append.mpr (Or.inr
          (by rw [hkey]; exact List.mem_singleton.mpr rfl)))
      · intro r hr
        rcases List.mem_cons.mp hr with rfl | hrt
        · intro hmem
          have : seen.contains (r.group_id, r.subject_id) = true := by
            exact List.elem_eq_true_of_mem hmem
          rw [hc] at this
          exact Bool.false_ne_true this
        · intro hmem
          exact h3 r hrt (List.mem_append.mpr (Or.inl hmem))
    · rw [hc, if_pos rfl] at h
      rcases ih (seen ++ [(a.group_id, a.subject_id)]) (errs ++ [_]) h
        with ⟨h1, _, _⟩
      rcases List.append_eq_nil.mp h1 with ⟨_, h5⟩
      exact absurd h5 (List.cons_ne_nil _ _)

theorem nodup_keys_of_dup_errors (reqs0 : List CourseRequirement)
    (h : duplicate_key_errors reqs0 = []) :
    (reqs0.map (fun r => (r.group_id, r.subject_id))).Nodup := by
  unfold duplicate_key_errors at h
  exact (dup_fold_aux reqs0 [] [] h).2.1

theorem validate_ok_req_checks (p : TimetableProblem)
    (Hok : (validate_problem p).ok = true) :
    duplicate_key_errors p.requirements = [] ∧
    ∀ req ∈ p.requirements, (requirement_checks p req).1 = [] := by
  have hlen : (validate_problem p).errors.length = 0 := of_decide_eq_true Hok
  have herr : (validate_problem p).errors = [] :=
    List.length_eq_zero.mp hlen
  have herr2 : (_validate_calendar p.calendar).1 ++ _validate_uniqueness p ++
      (_validate_entities p).1 ++ (_validate_requirements p).1 ++
      (_validate_capacity_sanity p).1 = [] := herr
  simp only [List.append_eq_nil] at herr2
  have hreq : (_validate_requirements p).1 = [] := by tauto
  unfold _validate_requirements at hreq
  dsimp only at hreq
  rcases List.append_eq_nil.mp hreq with ⟨hdup, hflat⟩
  refine ⟨hdup, ?_⟩
  intro req hreq2
  have hmem : requirement_checks p req ∈
      p.requirements.map (requirement_checks p) :=
    List.mem_map_of_mem (requirement_checks p) hreq2
  exact flatMap_eq_nil_forall _ _ hflat (requirement_checks p req) hmem

theorem choose_pool_resolve (p : TimetableProblem) (gid sid : String)
    (pool : List String) (tid : String) (htid : tid ∈ pool)
    (hepol : (if pool.isEmpty then
        [reqCtx gid sid ++
          "teacher_policy=CHOOSE pero el pool de profesores queda vacío."]
      else pool.flatMap (fun tid2 =>
        match dget p.index_teachers tid2 with
        | none => [reqCtx gid sid ++
            "teacher_pool contiene teacher_id desconocido " ++ q tid2 ++
            "."]
        | some t =>
          if !t.can_teach.contains sid then
            [reqCtx gid sid ++ "teacher_pool incluye " ++ q tid2 ++
              " que no puede enseñar " ++ q sid ++ "."]
          else [])) = []) :
    (dget p.index_teachers tid).isSome := by
  rcases hpe : pool.isEmpty with _ | _
  · rw [hpe, if_neg (show ¬(false = true) from Bool.false_ne_true)]
      at hepol
    have hper := flatMap_eq_nil_forall _ _ hepol tid htid
    rcases ht : dget p.index_teachers tid with _ | t
    · rw [ht] at hper
      exact absurd hper (List.cons_ne_nil _ _)
    · rfl
  · rw [List.isEmpty_iff] at hpe
    rw [hpe] at htid
    exact absurd htid (List.not_mem_nil tid)

theorem req_checks_facts (p : TimetableProblem) (req : CourseRequirement)
    (h : (requirement_checks p req).1 = []) :
    1 ≤ req.periods_per_week ∧
    (dget p.index_groups req.group_id).isSome ∧
    (dget p.index_subjects req.subject_id).isSome ∧
    (∀ tid ∈ pool_for p req, (dget p.index_teachers tid).isSome) := by
  unfold requirement_checks at h
  dsimp only at h
  rcases hg : dget p.index_groups req.group_id with _ | g
  · rw [hg] at h
    exact absurd h (by simp)
  · rw [hg] at h
    dsimp only at h
    rcases hs : dget p.index_subjects req.subject_id with _ | sub
    · rw [hs] at h
      exact absurd h (by simp)
    · rw [hs] at h
      dsimp only at h
      simp only [List.append_eq_nil] at h
      obtain ⟨⟨⟨⟨⟨⟨he1, he2⟩, hpp⟩, hfp⟩, hepol⟩, heroom⟩, heslots⟩ := h
      have hpos : 1 ≤ req.periods_per_week := by
        by_cases hp : req.periods_per_week ≤ 0
        · rw [if_pos hp] at he1
          exact absurd he1 (List.cons_ne_nil _ _)
        · omega
      refine ⟨hpos, by rfl, by rfl, ?_⟩
      intro tid htid
      unfold pool_for at htid
      rcases hpol : req.teacher_policy with _ | _
      · rw [hpol] at htid hepol
        dsimp only at htid hepol
        rcases hst : strTruthy req.teacher_id with _ | _
        · rw [hst, if_neg (show ¬(false = true) from
            Bool.false_ne_true)] at htid
          exact absurd htid (List.not_mem_nil tid)
        · rw [hst, if_pos rfl] at htid
          rcases List.mem_singleton.mp htid with rfl
          rw [hst] at hepol
          rw [show (!true) = false from rfl,
            if_neg (show ¬(false = true) from Bool.false_ne_true)]
            at hepol
          rcases ht : dget p.index_teachers (strVal req.teacher_id)
            with _ | t
          · rw [ht] at hepol
            exact absurd hepol (List.cons_ne_nil _ _)
          · rfl
      · rw [hpol] at htid hepol
        dsimp only at htid hepol
        rcases hpl : req.teacher_pool with _ | pl
        · rw [hpl] at htid hepol
          dsimp only [listTruthy, Option.getD] at htid hepol
          rw [if_neg (show ¬(false = true) from Bool.false_ne_true)]
            at hepol
          exact choose_pool_resolve p req.group_id req.subject_id _ tid
            htid hepol
        · rw [hpl] at htid hepol
          dsimp only [listTruthy, Option.getD] at htid hepol
          rcases hpe : pl.isEmpty with _ | _
          · rw [hpe] at htid hepol
            rw [show (!false) = true from rfl, if_pos rfl] at htid hepol
            exact choose_pool_resolve p req.group_id req.subject_id pl
              tid htid hepol
          · rw [hpe] at htid hepol
            rw [show (!true) = false from rfl,
              if_neg (show ¬(false = true) from Bool.false_ne_true)]
              at htid hepol
            exact choose_pool_resolve p req.group_id req.subject_id _ tid
              htid hepol

theorem key_mem_of_dget_isSome {κ ν : Type} [BEq κ] [LawfulBEq κ]
    (m : List (κ × ν)) (k : κ)
    (h : (dget m k).isSome) : k ∈ m.map Prod.fst := by
  unfold dget at h
  rcases hf : m.find? (fun kv => kv.1 == k) with _ | kv
  · rw [hf] at h
    simp at h
  · have hmem := List.mem_of_find?_eq_some hf
    have hpred := List.find?_some hf
    have hk : kv.1 = k := by simpa using hpred
    rw [← hk]
    exact List.mem_map_of_mem Prod.fst hmem

theorem teacherIds_of_isSome (p : TimetableProblem) (tid : String)
    (h : (dget p.index_teachers tid).isSome) : tid ∈ teacherIds p :=
  key_mem_of_dget_isSome p.index_teachers tid h

theorem compile_inst_key_pools (p : TimetableProblem)
    (six : List (Slot × Nat)) (sl : List Slot) (req : CourseRequirement)
    (sub : Subject) (st st' : CompileState) (i : Nat)
    (h : compile_inst p six sl req sub st i = Except.ok st') :
    st'.key_pools = st.key_pools := by
  rcases compile_inst_ok p six sl req sub st st' i h
    with ⟨rids, poss, _, _, _, _, hst⟩
  rw [hst]

theorem compile_req_ok_key_pools (p : TimetableProblem)
    (st st' : CompileState) (req : CourseRequirement)
    (h : compile_req p (buildSlotIndex p.calendar.teaching_slots)
      p.calendar.teaching_slots st req = Except.ok st') :
    st'.key_pools = dictInsert st.key_pools
      (req.group_id, req.subject_id) (pool_for p req) := by
  unfold compile_req at h
  rcases hs : dget p.index_subjects req.subject_id with _ | sub
  · rw [hs] at h
    exact Except.noConfusion h
  · rw [hs] at h
    dsimp only at h
    exact foldlM_except_ok _ _
      (fun s => s.key_pools = dictInsert st.key_pools
        (req.group_id, req.subject_id) (pool_for p req))
      (fun s a _ hP s2 hstep => by
        dsimp only at hP ⊢
        rw [compile_inst_key_pools p _ _ req sub s s2 a hstep]
        exact hP)
      _ st' rfl h

theorem compile_key_pools_nodupkeys (p : TimetableProblem) (c : _Compiled)
    (Hc : _compile_problem p = Except.ok c) :
    (c.key_pools.map Prod.fst).Nodup := by
  rcases compile_ok_elim p c Hc with ⟨st, hf, hcb⟩
  have hP := foldlM_except_ok
    (compile_req p (buildSlotIndex p.calendar.teaching_slots)
      p.calendar.teaching_slots) p.requirements
    (fun s => (s.key_pools.map Prod.fst).Nodup)
    (fun s a _ hP s2 hstep => by
      dsimp only at hP ⊢
      rw [compile_req_ok_key_pools p s s2 a hstep]
      exact nodupkeys_dictInsert _ _ _ hP)
    _ st (by exact List.nodup_nil) hf
  rw [hcb]
  exact hP

theorem compile_reqEvents_len (p : TimetableProblem) (c : _Compiled)
    (Hc : _compile_problem p = Except.ok c) :
    ∀ req ∈ p.requirements,
      (reqEvents p req).length = req.periods_per_week.toNat := by
  intro req hreq
  rcases compile_ok_elim p c Hc with ⟨st, hf, _⟩
  rcases foldlM_except_run _ _ _ _ hf req hreq with ⟨u, u2, hstep⟩
  rcases compile_req_ok_sub _ _ _ _ _ _ hstep with ⟨sub, hsub⟩
  unfold reqEvents
  rw [hsub, List.length_map, List.length_range]

theorem events_by_group_dget (c : _Compiled) (g : String) (e : Event)
    (he : e ∈ c.events) (hg : e.group_id = g) :
    dget (events_by_group c) g =
      some (c.events.filter (fun e2 => e2.group_id == g)) := by
  unfold events_by_group
  have h := dget_groupFold (fun e2 : Event => e2.group_id)
    (fun e2 : Event => e2) c.events [] g
  rw [h, dget_nil]
  dsimp only
  have hany : c.events.any (fun e2 => e2.group_id == g) = true :=
    List.any_eq_true.mpr ⟨e, he, by rw [hg]; exact beq_self_eq_true g⟩
  rw [hany, if_pos rfl]
  rw [show (c.events.filter (fun e2 => e2.group_id == g)).map
    (fun e2 => e2) = c.events.filter (fun e2 => e2.group_id == g)
    from List.map_id _]

theorem events_of_key_dget (c : _Compiled) (k : TeacherKey) (e : Event)
    (he : e ∈ c.events) (hk : e.same_teacher_key = k) :
    dget (events_of_key c) k =
      some (c.events.filter (fun e2 => e2.same_teacher_key == k)) := by
  unfold events_of_key
  have h := dget_groupFold (fun e2 : Event => e2.same_teacher_key)
    (fun e2 : Event => e2) c.events [] k
  rw [h, dget_nil]
  dsimp only
  have hany : c.events.any (fun e2 => e2.same_teacher_key == k) = true :=
    List.any_eq_true.mpr ⟨e, he, by rw [hk]; exact beq_self_eq_true k⟩
  rw [hany, if_pos rfl]
  rw [show (c.events.filter
    (fun e2 => e2.same_teacher_key == k)).map (fun e2 => e2) =
    c.events.filter (fun e2 => e2.same_teacher_key == k)
    from List.map_id _]

theorem compile_slots_eq (p : TimetableProblem) (c : _Compiled)
    (Hc : _compile_problem p = Except.ok c) :
    c.slots = p.calendar.teaching_slots := by
  rcases compile_ok_elim p c Hc with ⟨st, _, hcb⟩
  rw [hcb]
  rfl

theorem allowedS_spec (p : TimetableProblem) (c : _Compiled)
    (Hc : _compile_problem p = Except.ok c) (e : Event)
    (he : e ∈ c.events) :
    allowedS c e.id ≠ [] ∧
    ∀ si ∈ allowedS c e.id, si < c.slots.length := by
  rcases compile_ok_inv p c Hc with ⟨inv1, _, inv3, _⟩
  rcases inv3 e he with ⟨h1, _, _⟩
  rcases hd : dget c.allowed_slots e.id with _ | l
  · rw [hd] at h1
    simp at h1
  · have hg := inv1 e.id l hd
    have hal : allowedS c e.id = l := by
      unfold allowedS
      rw [hd]
      rfl
    rw [hal]
    refine ⟨hg.1, ?_⟩
    intro si hsi
    rw [compile_slots_eq p c Hc]
    exact (hg.2 si hsi).1

theorem room_mem_roomIds (p : TimetableProblem) (r : Room)
    (hr : r ∈ p.rooms) : r.id ∈ roomIds p := by
  apply key_mem_of_dget_isSome
  have h := dget_insertFold (fun r2 : Room => r2.id)
    (fun r2 : Room => r2) p.rooms [] r.id
  have hfind : p.rooms.reverse.find? (fun r2 => r2.id == r.id) ≠ none := by
    rw [Ne, List.find?_eq_none]
    intro hall
    exact absurd (beq_self_eq_true r.id)
      (by simpa using hall r (List.mem_reverse.mpr hr))
  rcases hf : p.rooms.reverse.find? (fun r2 => r2.id == r.id) with _ | a
  · exact absurd hf hfind
  · rw [show dget p.index_rooms r.id = some a from by
      unfold TimetableProblem.index_rooms
      rw [h, hf]]
    rfl

theorem allowedR_spec (p : TimetableProblem) (c : _Compiled)
    (Hc : _compile_problem p = Except.ok c) (e : Event)
    (he : e ∈ c.events) :
    allowedR c e.id ≠ [] ∧
    ∀ rid ∈ allowedR c e.id, rid ∈ roomIds p := by
  rcases compile_ok_inv p c Hc with ⟨_, inv2, inv3, _⟩
  rcases inv3 e he with ⟨_, h2, _⟩
  rcases hd : dget c.allowed_rooms e.id with _ | l
  · rw [hd] at h2
    simp at h2
  · have hg := inv2 e.id l hd
    have hal : allowedR c e.id = l := by
      unfold allowedR
      rw [hd]
      rfl
    rw [hal]
    refine ⟨hg.1, ?_⟩
    intro rid hrid
    rcases hg.2 rid hrid with ⟨r, hr, hrid2⟩
    rw [← hrid2]
    exact room_mem_roomIds p r hr

theorem chosen_slot_spec (c : _Compiled) (σ : Assignment) (e : Event)
    (h2 : sumV σ ((allowedS c e.id).map (Var.x e.id)) = 1)
    (h1 : ∀ si ∈ allowedS c e.id, is01 σ (Var.x e.id si)) :
    chosen_slot c σ e ∈ allowedS c e.id ∧
    σ (Var.x e.id (chosen_slot c σ e)) = 1 := by
  have h01 : ∀ v ∈ (allowedS c e.id).map (Var.x e.id),
      σ v = 0 ∨ σ v = 1 := by
    intro v hv
    rcases List.mem_map.mp hv with ⟨si, hsi, rfl⟩
    exact h1 si hsi
  rcases exists_eq_one_of_sum_eq_one σ _ h01 h2 with ⟨v, hv, hv1⟩
  rcases List.mem_map.mp hv with ⟨si, hsi, rfl⟩
  have hfind : (allowedS c e.id).find?
      (fun si2 => σ (Var.x e.id si2) == 1) ≠ none := by
    rw [Ne, List.find?_eq_none]
    intro hall
    have hb : (σ (Var.x e.id si) == 1) = true := by
      rw [hv1]
      rfl
    exact absurd hb (by simpa using hall si hsi)
  rcases hf : (allowedS c e.id).find?
      (fun si2 => σ (Var.x e.id si2) == 1) with _ | si0
  · exact absurd hf hfind
  · have hcs : chosen_slot c σ e = si0 := by
      unfold chosen_slot
      rw [hf]
    rw [hcs]
    refine ⟨List.mem_of_find?_eq_some hf, ?_⟩
    have := List.find?_some hf
    simpa using this

theorem chosen_room_spec (c : _Compiled) (σ : Assignment) (e : Event)
    (h2 : sumV σ ((allowedR c e.id).map (Var.y e.id)) = 1)
    (h1 : ∀ rid ∈ allowedR c e.id, is01 σ (Var.y e.id rid)) :
    chosen_room c σ e ∈ allowedR c e.id ∧
    σ (Var.y e.id (chosen_room c σ e)) = 1 := by
  have h01 : ∀ v ∈ (allowedR c e.id).map (Var.y e.id),
      σ v = 0 ∨ σ v = 1 := by
    intro v hv
    rcases List.mem_map.mp hv with ⟨rid, hrid, rfl⟩
    exact h1 rid hrid
  rcases exists_eq_one_of_sum_eq_one σ _ h01 h2 with ⟨v, hv, hv1⟩
  rcases List.mem_map.mp hv with ⟨rid, hrid, rfl⟩
  have hfind : (allowedR c e.id).find?
      (fun rid2 => σ (Var.y e.id rid2) == 1) ≠ none := by
    rw [Ne, List.find?_eq_none]
    intro hall
    have hb : (σ (Var.y e.id rid) == 1) = true := by
      rw [hv1]
      rfl
    exact absurd hb (by simpa using hall rid hrid)
  rcases hf : (allowedR c e.id).find?
      (fun rid2 => σ (Var.y e.id rid2) == 1) with _ | rid0
  · exact absurd hf hfind
  · have hcs : chosen_room c σ e = rid0 := by
      unfold chosen_room
      rw [hf]
    rw [hcs]
    refine ⟨List.mem_of_find?_eq_some hf, ?_⟩
    have := List.find?_some hf
    simpa using this

theorem teacher_assignment_spec (c : _Compiled) (σ : Assignment)
    (hn : (c.key_pools.map Prod.fst).Nodup)
    (kp : TeacherKey × List String) (hkp : kp ∈ c.key_pools)
    (hsum : sumV σ (kp.2.map (fun tid => Var.a kp.1.1 kp.1.2 tid)) = 1)
    (h01 : ∀ tid ∈ kp.2, is01 σ (Var.a kp.1.1 kp.1.2 tid))
    (tid : String)
    (h : dget (teacher_assignment c σ) kp.1 = some tid) :
    tid ∈ kp.2 ∧ σ (Var.a kp.1.1 kp.1.2 tid) = 1 := by
  unfold teacher_assignment at h
  rw [dget_map_pair] at h
  rw [find?_key_eq_some Prod.fst c.key_pools hn kp hkp kp.1 rfl] at h
  have h01b : ∀ v ∈ kp.2.map (fun tid => Var.a kp.1.1 kp.1.2 tid),
      σ v = 0 ∨ σ v = 1 := by
    intro v hv
    rcases List.mem_map.mp hv with ⟨t2, ht2, rfl⟩
    exact h01 t2 ht2
  rcases exists_eq_one_of_sum_eq_one σ _ h01b hsum with ⟨v, hv, hv1⟩
  rcases List.mem_map.mp hv with ⟨t2, ht2, rfl⟩
  have hfind : kp.2.find?
      (fun tid2 => σ (Var.a kp.1.1 kp.1.2 tid2) == 1) ≠ none := by
    rw [Ne, List.find?_eq_none]
    intro hall
    have hb : (σ (Var.a kp.1.1 kp.1.2 t2) == 1) = true := by
      rw [hv1]
      rfl
    exact absurd hb (by simpa using hall t2 ht2)
  rcases hf : kp.2.find?
      (fun tid2 => σ (Var.a kp.1.1 kp.1.2 tid2) == 1) with _ | tid0
  · exact absurd hf hfind
  · dsimp only [Option.map] at h
    rw [hf] at h
    injection h with h2
    rw [← h2]
    refine ⟨List.mem_of_find?_eq_some hf, ?_⟩
    have := List.find?_some hf
    simpa using this

theorem occ_one (c : _Compiled) (σ : Assignment)
    (hocc : OccSat c σ) (hplace : PlacementSat c σ)
    (e : Event) (he : e ∈ c.events) (si : Nat)
    (hsi : si ∈ allowedS c e.id) (hx : σ (Var.x e.id si) = 1)
    (hr : si < c.slots.length) :
    σ (Var.occ e.same_teacher_key.1 e.same_teacher_key.2 si) = 1 := by
  have hdg := events_of_key_dget c e.same_teacher_key e he rfl
  have hkmem := mem_of_dget _ _ _ hdg
  have hocc2 := hocc _ hkmem si (List.mem_range.mpr hr)
  dsimp only at hocc2
  have hmemf : e ∈ (c.events.filter (fun e2 =>
      e2.same_teacher_key == e.same_teacher_key)).filter
      (fun e2 => (allowedS c e2.id).contains si) := by
    apply List.mem_filter.mpr
    refine ⟨List.mem_filter.mpr ⟨he, beq_self_eq_true _⟩, ?_⟩
    exact List.elem_eq_true_of_mem hsi
  have hmemt : Var.x e.id si ∈ occTerms c (c.events.filter (fun e2 =>
      e2.same_teacher_key == e.same_teacher_key)) si :=
    List.mem_map_of_mem (fun e2 => Var.x e2.id si) hmemf
  have hterm0 : ∀ v ∈ occTerms c (c.events.filter (fun e2 =>
      e2.same_teacher_key == e.same_teacher_key)) si, 0 ≤ σ v := by
    intro v hv
    rcases List.mem_map.mp hv with ⟨e2, he2, rfl⟩
    rcases List.mem_filter.mp he2 with ⟨he2f, hcont⟩
    rcases List.mem_filter.mp he2f with ⟨he2m, _⟩
    have hsi2 : si ∈ allowedS c e2.id := by
      exact List.mem_of_elem_eq_true hcont
    rcases (hplace e2 he2m).1 si hsi2 with h0 | h1 <;> omega
  have hne : occTerms c (c.events.filter (fun e2 =>
      e2.same_teacher_key == e.same_teacher_key)) si ≠ [] := by
    intro hnil
    rw [hnil] at hmemt
    exact List.not_mem_nil _ hmemt
  rcases hocc2.2 hne with ⟨hsum_le, heq⟩
  have hge := single_le_sum_of_mem σ _ hterm0 _ hmemt
  rw [hx] at hge
  have hsv : sumV σ (occTerms c (c.events.filter (fun e2 =>
      e2.same_teacher_key == e.same_teacher_key)) si) = 1 := by
    unfold sumV
    unfold sumV at hsum_le
    omega
  rw [heq, hsv]

theorem filtered_map_sum_contra (σ : Assignment) (events : List Event)
    (Q : Event → Bool) (f : Event → Var) (i j : Nat)
    (hi : i < events.length) (hj : j < events.length) (hij : i ≠ j)
    (hQi : Q (events.get ⟨i, hi⟩) = true)
    (hQj : Q (events.get ⟨j, hj⟩) = true)
    (h1 : σ (f (events.get ⟨i, hi⟩)) = 1)
    (h2 : σ (f (events.get ⟨j, hj⟩)) = 1)
    (h0 : ∀ v ∈ (events.filter Q).map f, 0 ≤ σ v)
    (hle : sumV σ ((events.filter Q).map f) ≤ 1) : False := by
  by_cases hv : f (events.get ⟨j, hj⟩) = f (events.get ⟨i, hi⟩)
  · have hcnt : 2 ≤ ((events.filter Q).map f).count
        (f (events.get ⟨i, hi⟩)) := by
      rw [count_map_eq_countP, List.countP_filter]
      apply two_le_countP_of_get _ events i j hi hj hij
      · simp only [Bool.and_eq_true]
        exact ⟨beq_self_eq_true _, hQi⟩
      · simp only [Bool.and_eq_true]
        refine ⟨?_, hQj⟩
        rw [hv]
        exact beq_self_eq_true _
    have := two_le_sum_of_count σ _ h0 _ hcnt h1
    unfold sumV at hle
    omega
  · have hm1 : f (events.get ⟨i, hi⟩) ∈ (events.filter Q).map f :=
      List.mem_map_of_mem f (List.mem_filter.mpr
        ⟨List.get_mem events i hi, hQi⟩)
    have hm2 : f (events.get ⟨j, hj⟩) ∈ (events.filter Q).map f :=
      List.mem_map_of_mem f (List.mem_filter.mpr
        ⟨List.get_mem events j hj, hQj⟩)
    have := two_le_sum_of_two_mem σ _ h0 _ _ hm1 hm2
      (fun hh => hv hh.symm) h1 h2
    unfold sumV at hle
    omega

/-- C1: for a validator-accepted problem, a successful compilation and a
solver assignment satisfying every emitted constraint, the reconstructed
solution has exactly one `ScheduledEvent` per compiled event (so
`|scheduled| = Σ periods_per_week`), at most one event per
`(group, slot)`, at most one per `(room, slot)`, at most one per
`(teacher, slot)` after applying `teacher_assignment`, and no assigned
teacher is scheduled in a slot they are unavailable in. -/
theorem C1_solution_invariants (p : TimetableProblem) (c : _Compiled)
    (σ : Assignment)
    (Hok : (validate_problem p).ok = true)
    (Hc : _compile_problem p = Except.ok c)
    (Hsat : SatisfiesModel p c σ) :
    ((solve_result p c σ).scheduled.length = c.events.length ∧
      ((solve_result p c σ).scheduled.length : Int) =
        (p.requirements.map (fun r => r.periods_per_week)).sum) ∧
    (∀ i j (hi : i < c.events.length) (hj : j < c.events.length),
      i ≠ j →
      (c.events.get ⟨i, hi⟩).group_id = (c.events.get ⟨j, hj⟩).group_id →
      chosen_slot c σ (c.events.get ⟨i, hi⟩) ≠
        chosen_slot c σ (c.events.get ⟨j, hj⟩)) ∧
    (∀ i j (hi : i < c.events.length) (hj : j < c.events.length),
      i ≠ j →
      chosen_room c σ (c.events.get ⟨i, hi⟩) =
        chosen_room c σ (c.events.get ⟨j, hj⟩) →
      chosen_slot c σ (c.events.get ⟨i, hi⟩) ≠
        chosen_slot c σ (c.events.get ⟨j, hj⟩)) ∧
    (∀ i j (hi : i < c.events.length) (hj : j < c.events.length),
      i ≠ j → ∀ tid,
      dget (teacher_assignment c σ)
        (c.events.get ⟨i, hi⟩).same_teacher_key = some tid →
      dget (teacher_assignment c σ)
        (c.events.get ⟨j, hj⟩).same_teacher_key = some tid →
      chosen_slot c σ (c.events.get ⟨i, hi⟩) ≠
        chosen_slot c σ (c.events.get ⟨j, hj⟩)) ∧
    (∀ e ∈ c.events, ∀ tid,
      dget (teacher_assignment c σ) e.same_teacher_key = some tid →
      ∀ t ∈ dget p.index_teachers tid,
        t.is_available (slotAt c (chosen_slot c σ e)) = true) := by
  obtain ⟨hplace, hgroup, hta, hocc, hteach, hbusy, hcap, hpick, hguard,
    hw, hroomc, hmx, hsd, hgap, hexc⟩ := Hsat
  obtain ⟨hdup, hchecks⟩ := validate_ok_req_checks p Hok
  have hppw : ∀ req ∈ p.requirements, 1 ≤ req.periods_per_week :=
    fun req hreq => (req_checks_facts p req (hchecks req hreq)).1
  have hpools : ∀ req ∈ p.requirements, ∀ tid ∈ pool_for p req,
      (dget p.index_teachers tid).isSome :=
    fun req hreq => (req_checks_facts p req (hchecks req hreq)).2.2.2
  have hnkeys := compile_key_pools_nodupkeys p c Hc
  have ha1 : (solve_result p c σ).scheduled.length = c.events.length := by
    unfold solve_result scheduled_events
    dsimp only
    rw [List.length_map]
  refine ⟨⟨ha1, ?_⟩, ?_, ?_, ?_, ?_⟩
  · rw [ha1, compile_events p c Hc, List.length_flatMap]
    rw [show p.requirements.map (List.length ∘ reqEvents p) =
      p.requirements.map (fun r => r.periods_per_week.toNat) from
      List.map_congr_left (fun r hr => compile_reqEvents_len p c Hc r hr)]
    exact sum_toNat_cast (fun r => r.periods_per_week) p.requirements
      (fun r hr => le_trans (by norm_num) (hppw r hr))
  · intro i j hi hj hij hg heq
    have he1 : c.events.get ⟨i, hi⟩ ∈ c.events := List.get_mem c.events i hi
    have he2 : c.events.get ⟨j, hj⟩ ∈ c.events := List.get_mem c.events j hj
    obtain ⟨hs1, hx1⟩ :=
      chosen_slot_spec c σ _ (hplace _ he1).2 (hplace _ he1).1
    obtain ⟨hs2, hx2⟩ :=
      chosen_slot_spec c σ _ (hplace _ he2).2 (hplace _ he2).1
    rw [← heq] at hs2 hx2
    have hdg := events_by_group_dget c
      (c.events.get ⟨i, hi⟩).group_id _ he1 rfl
    have hbmem := mem_of_dget _ _ _ hdg
    have hlt : chosen_slot c σ (c.events.get ⟨i, hi⟩) < c.slots.length :=
      (allowedS_spec p c Hc _ he1).2 _ hs1
    have hcon := hgroup _ hbmem _ (List.mem_range.mpr hlt)
    dsimp only at hcon
    rw [List.filter_filter] at hcon
    refine filtered_map_sum_contra σ c.events _ _ i j hi hj hij ?_ ?_
      hx1 hx2 ?_ hcon
    · simp only [Bool.and_eq_true]
      exact ⟨List.elem_eq_true_of_mem hs1, beq_self_eq_true _⟩
    · simp only [Bool.and_eq_true]
      refine ⟨List.elem_eq_true_of_mem hs2, ?_⟩
      rw [← hg]
      exact beq_self_eq_true _
    · intro v hv
      rcases List.mem_map.mp hv with ⟨e2, he2f, rfl⟩
      rcases List.mem_filter.mp he2f with ⟨he2m, hq⟩
      simp only [Bool.and_eq_true] at hq
      have hsi2 : chosen_slot c σ (c.events.get ⟨i, hi⟩) ∈
          allowedS c e2.id := List.mem_of_elem_eq_true hq.1
      rcases (hplace e2 he2m).1 _ hsi2 with h0 | h1 <;> omega
  · intro i j hi hj hij hroom heq
    have he1 : c.events.get ⟨i, hi⟩ ∈ c.events := List.get_mem c.events i hi
    have he2 : c.events.get ⟨j, hj⟩ ∈ c.events := List.get_mem c.events j hj
    obtain ⟨hs1, hx1⟩ :=
      chosen_slot_spec c σ _ (hplace _ he1).2 (hplace _ he1).1
    obtain ⟨hs2, hx2⟩ :=
      chosen_slot_spec c σ _ (hplace _ he2).2 (hplace _ he2).1
    obtain ⟨hr1, hy1⟩ :=
      chosen_room_spec c σ _ (hpick _ he1).2 (hpick _ he1).1
    obtain ⟨hr2, hy2⟩ :=
      chosen_room_spec c σ _ (hpick _ he2).2 (hpick _ he2).1
    rw [← heq] at hs2 hx2
    rw [← hroom] at hr2 hy2
    have hlt : chosen_slot c σ (c.events.get ⟨i, hi⟩) < c.slots.length :=
      (allowedS_spec p c Hc _ he1).2 _ hs1
    rcases havail : roomAvail p (chosen_room c σ (c.events.get ⟨i, hi⟩))
        (slotAt c (chosen_slot c σ (c.events.get ⟨i, hi⟩))) with _ | _
    · have := hguard _ he1 _ hs1 _ hr1 havail
      omega
    · obtain ⟨hb1, hwa1, hwb1, hwc1⟩ := hw _ he1 _ hs1 _ hr1 havail
      obtain ⟨hb2, hwa2, hwb2, hwc2⟩ := hw _ he2 _ hs2 _ hr2 havail
      have hwv1 : σ (Var.w (c.events.get ⟨i, hi⟩).id
          (chosen_slot c σ (c.events.get ⟨i, hi⟩))
          (chosen_room c σ (c.events.get ⟨i, hi⟩))) = 1 := by
        rcases hb1 with h | h <;> omega
      have hwv2 : σ (Var.w (c.events.get ⟨j, hj⟩).id
          (chosen_slot c σ (c.events.get ⟨i, hi⟩))
          (chosen_room c σ (c.events.get ⟨i, hi⟩))) = 1 := by
        rcases hb2 with h | h <;> omega
      have hridmem : chosen_room c σ (c.events.get ⟨i, hi⟩) ∈
          roomIds p := (allowedR_spec p c Hc _ he1).2 _ hr1
      have hcon := hroomc _ hridmem _ (List.mem_range.mpr hlt)
      unfold roomSlotTerms at hcon
      refine filtered_map_sum_contra σ c.events _ _ i j hi hj hij ?_ ?_
        hwv1 hwv2 ?_ hcon
      · simp only [Bool.and_eq_true]
        exact ⟨⟨List.elem_eq_true_of_mem hs1,
          List.elem_eq_true_of_mem hr1⟩, havail⟩
      · simp only [Bool.and_eq_true]
        exact ⟨⟨List.elem_eq_true_of_mem hs2,
          List.elem_eq_true_of_mem hr2⟩, havail⟩
      · intro v hv
        rcases List.mem_map.mp hv with ⟨e2, he2f, rfl⟩
        rcases List.mem_filter.mp he2f with ⟨he2m, hq⟩
        simp only [Bool.and_eq_true] at hq
        have h1 := hw e2 he2m _ (List.mem_of_elem_eq_true hq.1.1) _
          (List.mem_of_elem_eq_true hq.1.2) hq.2
        rcases h1.1 with h | h <;> omega
  · intro i j hi hj hij tid hti htj heq
    have he1 : c.events.get ⟨i, hi⟩ ∈ c.events := List.get_mem c.events i hi
    have he2 : c.events.get ⟨j, hj⟩ ∈ c.events := List.get_mem c.events j hj
    obtain ⟨hs1, hx1⟩ :=
      chosen_slot_spec c σ _ (hplace _ he1).2 (hplace _ he1).1
    obtain ⟨hs2, hx2⟩ :=
      chosen_slot_spec c σ _ (hplace _ he2).2 (hplace _ he2).1
    rw [← heq] at hs2 hx2
    have hlt : chosen_slot c σ (c.events.get ⟨i, hi⟩) < c.slots.length :=
      (allowedS_spec p c Hc _ he1).2 _ hs1
    obtain ⟨invA, invB, inv3, inv4⟩ := compile_ok_inv p c Hc
    obtain ⟨_, _, kp1, hkp1, hkey1⟩ := inv3 _ he1
    obtain ⟨_, _, kp2, hkp2, hkey2⟩ := inv3 _ he2
    obtain ⟨h01a, hsum1, _⟩ := hta kp1 hkp1
    obtain ⟨h01b, hsum2, _⟩ := hta kp2 hkp2
    rw [← hkey1] at hti
    rw [← hkey2] at htj
    obtain ⟨htid1, ha1⟩ :=
      teacher_assignment_spec c σ hnkeys kp1 hkp1 hsum1 h01a tid hti
    obtain ⟨htid2, ha2⟩ :=
      teacher_assignment_spec c σ hnkeys kp2 hkp2 hsum2 h01b tid htj
    have hocc1 := occ_one c σ hocc hplace _ he1 _ hs1 hx1 hlt
    have hocc2v := occ_one c σ hocc hplace _ he2 _ hs2 hx2 hlt
    by_cases hk : (c.events.get ⟨i, hi⟩).same_teacher_key =
        (c.events.get ⟨j, hj⟩).same_teacher_key
    · have hdg := events_of_key_dget c
        (c.events.get ⟨i, hi⟩).same_teacher_key _ he1 rfl
      have hkmem := mem_of_dget _ _ _ hdg
      have hocc_con := hocc _ hkmem _ (List.mem_range.mpr hlt)
      dsimp only at hocc_con
      have hmemf : c.events.get ⟨i, hi⟩ ∈ (c.events.filter (fun e2 =>
          e2.same_teacher_key ==
            (c.events.get ⟨i, hi⟩).same_teacher_key)).filter
          (fun e2 => (allowedS c e2.id).contains
            (chosen_slot c σ (c.events.get ⟨i, hi⟩))) :=
        List.mem_filter.mpr ⟨List.mem_filter.mpr ⟨he1, beq_self_eq_true _⟩,
          List.elem_eq_true_of_mem hs1⟩
      have hmemt := List.mem_map_of_mem (fun e2 => Var.x e2.id
        (chosen_slot c σ (c.events.get ⟨i, hi⟩))) hmemf
      have hne2 : occTerms c (c.events.filter (fun e2 =>
          e2.same_teacher_key ==
            (c.events.get ⟨i, hi⟩).same_teacher_key))
          (chosen_slot c σ (c.events.get ⟨i, hi⟩)) ≠ [] := by
        intro hnil
        unfold occTerms at hnil
        rw [hnil] at hmemt
        exact List.not_mem_nil _ hmemt
      obtain ⟨hsum_le, _⟩ := hocc_con.2 hne2
      unfold occTerms at hsum_le
      rw [List.filter_filter] at hsum_le
      refine filtered_map_sum_contra σ c.events _ _ i j hi hj hij ?_ ?_
        hx1 hx2 ?_ hsum_le
      · simp only [Bool.and_eq_true]
        exact ⟨List.elem_eq_true_of_mem hs1, beq_self_eq_true _⟩
      · simp only [Bool.and_eq_true]
        refine ⟨List.elem_eq_true_of_mem hs2, ?_⟩
        rw [← hk]
        exact beq_self_eq_true _
      · intro v hv
        rcases List.mem_map.mp hv with ⟨e2, he2f, rfl⟩
        rcases List.mem_filter.mp he2f with ⟨he2m, hq⟩
        simp only [Bool.and_eq_true] at hq
        have hsi2 : chosen_slot c σ (c.events.get ⟨i, hi⟩) ∈
            allowedS c e2.id := List.mem_of_elem_eq_true hq.1
        rcases (hplace e2 he2m).1 _ hsi2 with h0 | h1 <;> omega
    · have hkk : kp1.1 ≠ kp2.1 := by
        rw [hkey1, hkey2]
        exact hk
      obtain ⟨req1, hreq1, _, _, hpool1⟩ := inv4 kp1 hkp1
      have htidts : tid ∈ teacherIds p := teacherIds_of_isSome p tid
        (hpools req1 hreq1 tid (by rw [← hpool1]; exact htid1))
      have henum : (chosen_slot c σ (c.events.get ⟨i, hi⟩),
          slotAt c (chosen_slot c σ (c.events.get ⟨i, hi⟩))) ∈
          c.slots.enum := by
        have h := mem_enum_of_lt c.slots _ hlt
        rw [show slotAt c (chosen_slot c σ (c.events.get ⟨i, hi⟩)) =
            c.slots.get ⟨chosen_slot c σ (c.events.get ⟨i, hi⟩), hlt⟩
            from by
          unfold slotAt
          rw [List.getD_eq_getElem _ _ hlt]
          rfl]
        exact h
      obtain ⟨hb1, hta1, hto1, htl1, _⟩ := hteach kp1 hkp1 tid htid1 _ henum
      obtain ⟨hb2, hta2, hto2, htl2, _⟩ := hteach kp2 hkp2 tid htid2 _ henum
      dsimp only at hb1 hta1 hto1 htl1 hb2 hta2 hto2 htl2
      have hoc1 : σ (Var.occ kp1.1.1 kp1.1.2
          (chosen_slot c σ (c.events.get ⟨i, hi⟩))) = 1 := by
        rw [hkey1]
        exact hocc1
      have hoc2 : σ (Var.occ kp2.1.1 kp2.1.2
          (chosen_slot c σ (c.events.get ⟨i, hi⟩))) = 1 := by
        rw [hkey2]
        exact hocc2v
      have ht1v : σ (Var.teach kp1.1.1 kp1.1.2 tid
          (chosen_slot c σ (c.events.get ⟨i, hi⟩))) = 1 := by
        rcases hb1 with h | h <;> omega
      have ht2v : σ (Var.teach kp2.1.1 kp2.1.2 tid
          (chosen_slot c σ (c.events.get ⟨i, hi⟩))) = 1 := by
        rcases hb2 with h | h <;> omega
      have hbusy2 := hbusy tid htidts _ (List.mem_range.mpr hlt)
      have hbt1mem : Var.teach kp1.1.1 kp1.1.2 tid
          (chosen_slot c σ (c.events.get ⟨i, hi⟩)) ∈
          busyTerms c tid (chosen_slot c σ (c.events.get ⟨i, hi⟩)) :=
        List.mem_map_of_mem _ (List.mem_filter.mpr
          ⟨hkp1, List.elem_eq_true_of_mem htid1⟩)
      have hbt2mem : Var.teach kp2.1.1 kp2.1.2 tid
          (chosen_slot c σ (c.events.get ⟨i, hi⟩)) ∈
          busyTerms c tid (chosen_slot c σ (c.events.get ⟨i, hi⟩)) :=
        List.mem_map_of_mem _ (List.mem_filter.mpr
          ⟨hkp2, List.elem_eq_true_of_mem htid2⟩)
      have hbne : busyTerms c tid
          (chosen_slot c σ (c.events.get ⟨i, hi⟩)) ≠ [] := by
        intro hnil
        rw [hnil] at hbt1mem
        exact List.not_mem_nil _ hbt1mem
      obtain ⟨hbb, hbeq, hble⟩ := hbusy2.2 hbne
      have hvne : Var.teach kp1.1.1 kp1.1.2 tid
          (chosen_slot c σ (c.events.get ⟨i, hi⟩)) ≠
          Var.teach kp2.1.1 kp2.1.2 tid
          (chosen_slot c σ (c.events.get ⟨i, hi⟩)) := by
        intro hh
        apply hkk
        simp only [Var.teach.injEq] at hh
        rw [Prod.ext_iff]
        exact ⟨hh.1, hh.2.1⟩
      have h0bt : ∀ v ∈ busyTerms c tid
          (chosen_slot c σ (c.events.get ⟨i, hi⟩)), 0 ≤ σ v := by
        intro v hv
        rcases List.mem_map.mp hv with ⟨kp3, hkp3f, rfl⟩
        rcases List.mem_filter.mp hkp3f with ⟨hkp3, hcont⟩
        have h1 := (hteach kp3 hkp3 tid
          (List.mem_of_elem_eq_true hcont) _ henum).1
        dsimp only at h1
        rcases h1 with h | h <;> omega
      have h2s := two_le_sum_of_two_mem σ _ h0bt _ _ hbt1mem hbt2mem
        hvne ht1v ht2v
      unfold sumV at h2s hble
      omega
  · intro e he tid hti t ht
    obtain ⟨hs1, hx1⟩ :=
      chosen_slot_spec c σ _ (hplace _ he).2 (hplace _ he).1
    have hlt : chosen_slot c σ e < c.slots.length :=
      (allowedS_spec p c Hc _ he).2 _ hs1
    obtain ⟨invA, invB, inv3, inv4⟩ := compile_ok_inv p c Hc
    obtain ⟨_, _, kp1, hkp1, hkey1⟩ := inv3 _ he
    obtain ⟨h01a, hsum1, _⟩ := hta kp1 hkp1
    rw [← hkey1] at hti
    obtain ⟨htid1, ha1⟩ :=
      teacher_assignment_spec c σ hnkeys kp1 hkp1 hsum1 h01a tid hti
    have hocc1 := occ_one c σ hocc hplace _ he _ hs1 hx1 hlt
    have henum : (chosen_slot c σ e, slotAt c (chosen_slot c σ e)) ∈
        c.slots.enum := by
      have h := mem_enum_of_lt c.slots _ hlt
      rw [show slotAt c (chosen_slot c σ e) =
          c.slots.get ⟨chosen_slot c σ e, hlt⟩ from by
        unfold slotAt
        rw [List.getD_eq_getElem _ _ hlt]
        rfl]
      exact h
    obtain ⟨hb1, hta1, hto1, htl1, hav⟩ := hteach kp1 hkp1 tid htid1 _ henum
    dsimp only at hb1 hta1 hto1 htl1 hav
    have hoc1 : σ (Var.occ kp1.1.1 kp1.1.2 (chosen_slot c σ e)) = 1 := by
      rw [hkey1]
      exact hocc1
    rcases havail : t.is_available (slotAt c (chosen_slot c σ e)) with _ | _
    · exfalso
      have h0 := hav t ht havail
      omega
    · rfl

/-- Witness for C1 on `pw1_problem` with an explicit satisfying
assignment. -/
theorem C1_solution_invariants_witness :
    (solve_result pw1_problem pw1_compiled pw1_assign).scheduled.length =
      pw1_compiled.events.length ∧
    ((solve_result pw1_problem pw1_compiled
        pw1_assign).scheduled.length : Int) =
      (pw1_problem.requirements.map
        (fun r => r.periods_per_week)).sum :=
  (C1_solution_invariants pw1_problem pw1_compiled pw1_assign (by decide)
    rfl (by
      unfold SatisfiesModel PlacementSat GroupConflictSat TeacherAssignSat
        OccSat TeachSat BusySat TeacherCapSat RoomPickSat RoomAvailGuardSat
        WSat RoomConflictSat MaxConsecSat SubjectMaxDaySat GapSat ExcessSat
        is01
      refine ⟨?_, ?_, ?_, ?_, ?_, ?_, ?_, ?_, ?_, ?_, ?_, ?_, ?_, ?_, ?_⟩
      all_goals decide)).1

end AppHorarios
